import Mathlib

/-!
# nebula-windows-ui: supervisor, IPC protocol and tunnel registry

A shallow embedding of the Go sources `manager/ipc_server.go`, `manager/ipc_client.go`,
`manager/configs.go`, `manager/tunnel.go`, `manager/manager.go`, `ui/ui.go` and `main.go`.

Conventions of the embedding:

* a Go `error` is `Option GoError` (`none` is `nil`), a `GoError` being its `Error()` text;
* a gob stream is a list of typed values (`Value`); decoding from the empty list is `EOF`;
* package-level variables (`CurrentTunnels`, `haveQuit`, `managerServices`, `quitManagersChan`)
  and the Windows service-control manager are fields of the explicit state `World`;
* a `*ManagerService` is an index into `World.heap`;
* goroutines are small-step machines driven by an explicit schedule.
-/

namespace Nebula

/-! ## Data model (`ipc_server.go`, `configs.go`) -/

/-- `TunnelState` of `ipc_server.go`, an `int` enumeration starting at `TunnelUnknown = 0`. -/
inductive TunnelState
  | TunnelUnknown
  | TunnelStarted
  | TunnelStopped
  | TunnelStarting
  | TunnelStopping
deriving DecidableEq, Repr

/-- The integer carried on the wire for a `TunnelState` (its `iota` value). -/
def TunnelState.toInt : TunnelState → Int
  | .TunnelUnknown => 0
  | .TunnelStarted => 1
  | .TunnelStopped => 2
  | .TunnelStarting => 3
  | .TunnelStopping => 4

/-- `Tunnel` of `configs.go`. -/
structure Tunnel where
  Path : String
  Name : String
  State : TunnelState
deriving DecidableEq, Repr

/-- `MethodType` of `ipc_server.go`, an `int` enumeration starting at `StartMethodType = 0`. -/
inductive MethodType
  | StartMethodType
  | StopMethodType
  | WaitForStopMethodType
  | StateMethodType
  | QuitMethodType
deriving DecidableEq, Repr

/-- The integer carried on the wire for a `MethodType` (its `iota` value). -/
def MethodType.toInt : MethodType → Int
  | .StartMethodType => 0
  | .StopMethodType => 1
  | .WaitForStopMethodType => 2
  | .StateMethodType => 3
  | .QuitMethodType => 4

/-- A non-nil Go `error`, identified with the text its `Error()` method returns. -/
structure GoError where
  msg : String
deriving DecidableEq, Repr

/-- `windows.ERROR_ACCESS_DENIED` (errno 5) with its system message. -/
def ERROR_ACCESS_DENIED : GoError := ⟨"Access is denied."⟩

/-- `windows.ERROR_SERVICE_DOES_NOT_EXIST` (errno 1060), what `OpenService` returns for a
name that is not installed. -/
def ERROR_SERVICE_DOES_NOT_EXIST : GoError :=
  ⟨"The specified service does not exist as an installed service."⟩

/-- `errToString` of `ipc_server.go`: `fmt.Sprintf("%s", err)` for a non-nil error, else `""`. -/
def errToString (err : Option GoError) : String :=
  match err with
  | some e => e.msg
  | none => ""

/-! ## `path/filepath.Base` (Windows) -/

/-- `os.IsPathSeparator` on Windows: both slashes separate. -/
def isPathSeparator (c : Char) : Bool := c == '\\' || c == '/'

/-- `pathHasPrefixFold(s, pre)` of `path/filepath`: `s` begins with `pre`, ignoring case and
treating all path separators as equivalent; if `s` is longer, a separator follows. -/
def pathHasPrefixFold (s pre : List Char) : Bool :=
  if s.length < pre.length then false
  else
    (List.zip pre s).all (fun ab =>
      if isPathSeparator ab.1 then isPathSeparator ab.2 else ab.1.toUpper == ab.2.toUpper) &&
    (match s.drop pre.length with
     | [] => true
     | c :: _ => isPathSeparator c)

/-- The loop of `uncLen`: `i` is the index of the head of the list, `count` the separators
seen so far; the index of the second separator, or the length of the path. -/
def uncLenLoop : List Char → Nat → Nat → Nat
  | [], i, _ => i
  | c :: cs, i, count =>
    if isPathSeparator c then
      if count + 1 = 2 then i else uncLenLoop cs (i + 1) (count + 1)
    else uncLenLoop cs (i + 1) count

/-- `uncLen(path, prefixLen)` of `path/filepath`: the length of the leading host and share of
a UNC path. -/
def uncLen (path : List Char) (prefixLen : Nat) : Nat :=
  if path.length ≤ prefixLen then path.length
  else uncLenLoop (path.drop prefixLen) prefixLen 0

/-- `cutPath(path)` of `path/filepath`: what follows the first separator, `none` when there
is no separator. -/
def cutPath : List Char → Option (List Char)
  | [] => none
  | c :: cs => if isPathSeparator c then some cs else cutPath cs

/-- `volumeNameLen(path)` of `path/filepath` on Windows (as of Go 1.22): a drive letter with its
colon, a local device path, or the host and share of a UNC path. The drive letter is one
byte. -/
def volumeNameLen (path : List Char) : Nat :=
  match path with
  | [] => 0
  | c0 :: rest =>
    if c0.toNat < 128 ∧ rest.head? = some ':' then 2
    else if !isPathSeparator c0 then 0
    else if pathHasPrefixFold path ['\\', '\\', '.', '\\', 'U', 'N', 'C'] then uncLen path 8
    else if pathHasPrefixFold path ['\\', '\\', '.'] || pathHasPrefixFold path ['\\', '\\', '?'] ||
        pathHasPrefixFold path ['\\', '?', '?'] then
      if path.length = 3 then 3
      else
        match cutPath (path.drop 4) with
        | none => path.length
        | some after => path.length - after.length - 1
    else if (rest.head?.map isPathSeparator).getD false then uncLen path 2
    else 0

/-- `filepath.Base` on a list of characters: strip trailing separators, drop the volume name,
keep what follows the last separator; `"."` for the empty path and `"\\"` when nothing is left. -/
def baseChars (path : List Char) : List Char :=
  if path = [] then ['.'] else
  let p1 := (path.reverse.dropWhile isPathSeparator).reverse
  let p2 := p1.drop (volumeNameLen p1)
  let p3 := (p2.reverse.takeWhile (fun c => !isPathSeparator c)).reverse
  if p3 = [] then ['\\'] else p3

/-- `filepath.Base` of the Go standard library on Windows. -/
def filepathBase (path : String) : String := String.mk (baseChars path.data)

/-! ## `path.Join` -/

/-- The elements of a slash-separated path: the pieces between the `/` characters. -/
def splitSlash : List Char → List (List Char)
  | [] => [[]]
  | c :: cs =>
    if c = '/' then [] :: splitSlash cs
    else
      match splitSlash cs with
      | [] => [[c]]
      | e :: es => (c :: e) :: es

/-- Join path elements with `/`. -/
def joinSlash : List (List Char) → List Char
  | [] => []
  | [e] => e
  | e :: es => e ++ '/' :: joinSlash es

/-- One element of the path meets the elements kept so far, as in `path.Clean`: empty and
`.` elements are dropped, `..` removes the element before it, is dropped at the root and is
kept where there is nothing to remove. -/
def cleanPush (rooted : Bool) (kept : List (List Char)) (e : List Char) : List (List Char) :=
  if e = [] ∨ e = ['.'] then kept
  else if e = ['.', '.'] then
    match kept.getLast? with
    | some top => if top = ['.', '.'] then kept ++ [e] else kept.dropLast
    | none => if rooted then kept else kept ++ [e]
  else kept ++ [e]

/-- `path.Clean` of the Go standard library. -/
def pathClean (p : List Char) : List Char :=
  if p = [] then ['.']
  else
    let rooted := p.head? = some '/'
    let body := joinSlash ((splitSlash p).foldl (cleanPush rooted) [])
    if rooted then '/' :: body
    else if body = [] then ['.'] else body

/-! ## The Windows service-control manager (`golang.org/x/sys/windows/svc/mgr`) -/

/-- `svc.State`. -/
inductive SvcState
  | Stopped
  | StartPending
  | StopPending
  | Running
  | ContinuePending
  | PausePending
  | Paused
deriving DecidableEq, Repr

/-- An installed service: its name, state, binary path and arguments. -/
structure Service where
  name : String
  state : SvcState
  exepath : String
  args : List String
deriving DecidableEq, Repr

/-- A call into the tunnel-service functions of `tunnel.go`, recorded in call order. -/
inductive SvcCall
  | install (tunnelName configPath : String)
  | uninstall (tunnelName : String)
deriving DecidableEq, Repr

/-- The service-control manager as the code sees it: the installed services, and for every
system call that can fail the error it fails with (`none` when it succeeds). -/
structure SCM where
  /-- outcome of `mgr.Connect()` -/
  connectErr : Option GoError
  /-- outcome of `os.Executable()` -/
  executable : Except GoError String
  /-- installed services -/
  services : List Service
  /-- failure of `OpenService` on an installed service -/
  openErr : String → Option GoError
  /-- failure of `service.Query()` -/
  queryErr : String → Option GoError
  /-- failure of `service.Delete()` -/
  deleteErr : String → Option GoError
  /-- failure of `CreateService` -/
  createErr : String → Option GoError
  /-- failure of `service.Close()` -/
  closeErr : String → Option GoError
  /-- state a freshly created service is in after `service.Start()` -/
  startState : SvcState
  /-- state a service is in after `service.Control(svc.Stop)` (its old state when the control
  request fails) -/
  controlStop : Service → SvcState
  /-- calls of `InstallTunnelService` / `UninstallTunnelService`, oldest first -/
  calls : List SvcCall

/-- Look a service up by name. -/
def SCM.find (m : SCM) (serviceName : String) : Option Service :=
  m.services.find? (fun s => s.name == serviceName)

/-- `m.OpenService(serviceName)`: the service, or the error. -/
def SCM.OpenService (m : SCM) (serviceName : String) : Except GoError Service :=
  match m.find serviceName with
  | none => .error ERROR_SERVICE_DOES_NOT_EXIST
  | some svc =>
    match m.openErr serviceName with
    | some e => .error e
    | none => .ok svc

/-- Effect of a successful `service.Delete()`: the service is gone. -/
def SCM.remove (m : SCM) (serviceName : String) : SCM :=
  { m with services := m.services.filter (fun s => !(s.name == serviceName)) }

/-- The tail of `InstallTunnelService` (lines 63-75): `CreateService`, `service.Start()`,
`return service.Close()`. -/
def createTunnelService (serviceName path configPath : String) (m : SCM) : Option GoError × SCM :=
  match m.createErr serviceName with
  | some e => (some e, m)
  | none =>
    let svc : Service :=
      { name := serviceName, state := m.startState, exepath := path, args := ["-tunnel", configPath] }
    (m.closeErr serviceName, { m with services := m.services ++ [svc] })

/-- `InstallTunnelService` of `tunnel.go`, after the call has been recorded. -/
def installTunnelServiceBody (tunnelName configPath : String) (m : SCM) : Option GoError × SCM :=
  match m.connectErr with
  | some e => (some e, m)
  | none =>
    match m.executable with
    | .error _ => (none, m)
    | .ok path =>
      let serviceName := "Nebula_" ++ tunnelName
      match m.OpenService serviceName with
      | .ok svc =>
        match m.queryErr serviceName with
        | some e => (some e, m)
        | none =>
          if svc.state ≠ SvcState.Stopped then
            if svc.state = SvcState.StartPending then (none, m)
            else (some ⟨"Tunnel with specified name already installed and running"⟩, m)
          else
            match m.deleteErr serviceName with
            | some e => (some e, m)
            | none => createTunnelService serviceName path configPath (m.remove serviceName)
      | .error _ => createTunnelService serviceName path configPath m

/-- `InstallTunnelService(tunnelName, configPath)` of `tunnel.go`. -/
def InstallTunnelService (tunnelName configPath : String) (m : SCM) : Option GoError × SCM :=
  installTunnelServiceBody tunnelName configPath
    { m with calls := m.calls ++ [SvcCall.install tunnelName configPath] }

/-- Effect of `service.Control(svc.Stop)` on the service of that name; the code drops what the
call returns. -/
def SCM.control (m : SCM) (serviceName : String) : SCM :=
  { m with services := m.services.map (fun s =>
      if s.name == serviceName then { s with state := m.controlStop s } else s) }

/-- `UninstallTunnelService` of `tunnel.go`, after the call has been recorded: `mgr.Connect`,
`OpenService`, `service.Control(svc.Stop)`, `service.Delete()`, `service.Close()`. -/
def uninstallTunnelServiceBody (tunnelName : String) (m : SCM) : Option GoError × SCM :=
  let serviceName := "Nebula_" ++ tunnelName
  match m.connectErr with
  | some e => (some e, m)
  | none =>
    match m.OpenService serviceName with
    | .error e => (some e, m)
    | .ok _ =>
      match m.deleteErr serviceName with
      | some e => (some e, m.control serviceName)
      | none => (m.closeErr serviceName, (m.control serviceName).remove serviceName)

/-- `UninstallTunnelService(tunnelName)` of `tunnel.go`. -/
def UninstallTunnelService (tunnelName : String) (m : SCM) : Option GoError × SCM :=
  uninstallTunnelServiceBody tunnelName
    { m with calls := m.calls ++ [SvcCall.uninstall tunnelName] }

/-- Every error the service-control manager returns has a text that is not empty (the texts
of `windows.Errno` and of the errors of `mgr`). -/
def SCM.errorsNonEmpty (m : SCM) : Prop :=
  (∀ e, m.connectErr = some e → e.msg ≠ "") ∧
  (∀ n e, m.openErr n = some e → e.msg ≠ "") ∧
  (∀ n e, m.queryErr n = some e → e.msg ≠ "") ∧
  (∀ n e, m.deleteErr n = some e → e.msg ≠ "") ∧
  (∀ n e, m.createErr n = some e → e.msg ≠ "") ∧
  (∀ n e, m.closeErr n = some e → e.msg ≠ "")

/-! ## The supervisor-side state (`ipc_server.go`) -/

/-- `ManagerService` of `ipc_server.go`; `events` is the event pipe (`none` is `nil`),
`elevatedToken` the `windows.Token` (a handle, `0` when absent). -/
structure ManagerService where
  events : Option Nat
  elevatedToken : Nat
deriving DecidableEq, Repr

/-- The package-level state of the manager process together with the service-control manager. -/
structure World where
  /-- the service-control manager -/
  scm : SCM
  /-- `var CurrentTunnels []Tunnel` -/
  CurrentTunnels : List Tunnel
  /-- `var haveQuit uint32` -/
  haveQuit : Nat
  /-- allocated `ManagerService` objects; a `*ManagerService` is an index into this list -/
  heap : List ManagerService
  /-- keys of `var managerServices map[*ManagerService]bool` -/
  managerServices : List Nat
  /-- number of values buffered in `quitManagersChan` (capacity 1) -/
  quitManagersChan : Nat

/-- Read the object a `*ManagerService` points to. -/
def World.deref (w : World) (s : Nat) : ManagerService :=
  w.heap.getD s ⟨none, 0⟩

/-- The assignment `s.events = nil`. -/
def World.clearEvents (w : World) (s : Nat) : World :=
  { w with heap := w.heap.set s { w.deref s with events := none } }

/-- The statement `delete(managerServices, s)`. -/
def World.unregister (w : World) (s : Nat) : World :=
  { w with managerServices := w.managerServices.filter (fun p => p != s) }

/-- The statement `managerServices[s] = true`. -/
def World.register (w : World) (s : Nat) : World :=
  if s ∈ w.managerServices then w else { w with managerServices := w.managerServices ++ [s] }

/-! ## RPC handlers (`ipc_server.go`) -/

/-- `func (s *ManagerService) State(tunnelName string) (TunnelState, error)`. -/
def State (_s : Nat) (_tunnelName : String) (w : World) : (TunnelState × Option GoError) × World :=
  ((TunnelState.TunnelStopped, none), w)

/-- `func (s *ManagerService) Start(configPath string) (*Tunnel, error)`; the `*Tunnel` is
`none` when `nil`. -/
def Start (_s : Nat) (configPath : String) (w : World) : (Option Tunnel × Option GoError) × World :=
  let tunnelName := filepathBase configPath
  match InstallTunnelService tunnelName configPath w.scm with
  | (some err, scm) => ((none, some err), { w with scm := scm })
  | (none, scm) =>
    let t : Tunnel := { Path := configPath, Name := tunnelName, State := TunnelState.TunnelStarted }
    ((some t, none), { w with scm := scm, CurrentTunnels := w.CurrentTunnels ++ [t] })

/-- `func (s *ManagerService) Stop(tunnelName string) error`. -/
def Stop (_s : Nat) (tunnelName : String) (w : World) : Option GoError × World :=
  match UninstallTunnelService tunnelName w.scm with
  | (err, scm) => (err, { w with scm := scm })

/-- `func (s *ManagerService) WaitForStop(tunnelName string) error`. -/
def WaitForStop (_s : Nat) (_tunnelName : String) (w : World) : Option GoError × World :=
  (none, w)

/-- The loop `for _, t := range CurrentTunnels { UninstallTunnelService(t.Name) }` of `Quit`;
the returned errors are dropped. -/
def uninstallAll (ts : List Tunnel) (m : SCM) : SCM :=
  match ts with
  | [] => m
  | t :: rest => uninstallAll rest (UninstallTunnelService t.Name m).2

/-- `func (s *ManagerService) Quit(stopTunnelsOnQuit bool) (alreadyQuit bool, err error)`.
The result is `none` when the call never returns because the send on the full channel
`quitManagersChan` blocks. -/
def Quit (s : Nat) (stopTunnelsOnQuit : Bool) (w : World) : Option (Bool × Option GoError) × World :=
  if (w.deref s).elevatedToken = 0 then
    (some (false, some ERROR_ACCESS_DENIED), w)
  else if w.haveQuit ≠ 0 then
    (some (true, none), w)
  else
    let w1 := { w with haveQuit := 1 }
    let w2 := (w1.clearEvents s).unregister s
    let w3 := if stopTunnelsOnQuit then { w2 with scm := uninstallAll w2.CurrentTunnels w2.scm } else w2
    if w3.quitManagersChan < 1 then
      (some (false, none), { w3 with quitManagersChan := w3.quitManagersChan + 1 })
    else
      (none, w3)

/-! ## gob streams (`encoding/gob`) -/

/-- A value on a gob stream. -/
inductive Value
  | int (n : Int)
  | str (s : String)
  | bool (b : Bool)
  | tunnel (t : Tunnel)
deriving DecidableEq, Repr

/-- `decoder.Decode(&x)` for an `int`-kinded `x` (`MethodType`, `TunnelState`, `int`). -/
def decodeInt : List Value → Option (Int × List Value)
  | Value.int n :: rest => some (n, rest)
  | _ => none

/-- `decoder.Decode(&x)` for a `string`. -/
def decodeString : List Value → Option (String × List Value)
  | Value.str s :: rest => some (s, rest)
  | _ => none

/-- `decoder.Decode(&x)` for a `bool`. -/
def decodeBool : List Value → Option (Bool × List Value)
  | Value.bool b :: rest => some (b, rest)
  | _ => none

/-- `decoder.Decode(&x)` for a `Tunnel`. -/
def decodeTunnel : List Value → Option (Tunnel × List Value)
  | Value.tunnel t :: rest => some (t, rest)
  | _ => none

/-- The writing end of a pipe with its gob encoder: what has been written, and how many more
values the pipe accepts before `Encode` starts to return an error (the peer has gone). -/
structure Writer where
  out : List Value
  room : Nat
deriving DecidableEq, Repr

/-- `encoder.Encode(v)` for a value that is not a nil pointer: `none` is the error return. -/
def Writer.encode (wr : Writer) (v : Value) : Option Writer :=
  match wr.room with
  | 0 => none
  | n + 1 => some { out := wr.out ++ [v], room := n }

/-- How an invocation ends. -/
inductive Status
  /-- the function executed `return` -/
  | returned
  /-- the goroutine panicked; unrecovered, this terminates the process -/
  | panicked
  /-- the goroutine blocks for ever on a channel send -/
  | blocked
  /-- the step budget of the model ran out (never the case for `ServeConn`) -/
  | exhausted
deriving DecidableEq, Repr

/-- Result of one iteration of the `for` loop of `ServeConn`. -/
inductive Step
  /-- the iteration ran to its end and the loop goes on to decode the next method tag -/
  | next (reader : List Value) (wr : Writer) (w : World)
  /-- the loop is left -/
  | stop (st : Status) (wr : Writer) (w : World)

/-- Encode the error string, the last statement of each `case` of `ServeConn`. -/
def encodeErr (retErr : Option GoError) (reader : List Value) (wr : Writer) (w : World) : Step :=
  match wr.encode (Value.str (errToString retErr)) with
  | none => Step.stop Status.returned wr w
  | some wr1 => Step.next reader wr1 w

/-- One iteration of the `for` loop of `ServeConn` (lines 114-190). `encoder.Encode(tun)`
with a nil `tun` panics: gob cannot encode a nil pointer. -/
def serveCall (s : Nat) (reader : List Value) (wr : Writer) (w : World) : Step :=
  match decodeInt reader with
  | none => Step.stop Status.returned wr w
  | some (methodType, r1) =>
    if methodType = MethodType.StartMethodType.toInt then
      match decodeString r1 with
      | none => Step.stop Status.returned wr w
      | some (configPath, r2) =>
        match Start s configPath w with
        | ((none, _), w1) => Step.stop Status.panicked wr w1
        | ((some tun, retErr), w1) =>
          match wr.encode (Value.tunnel tun) with
          | none => Step.stop Status.returned wr w1
          | some wr1 => encodeErr retErr r2 wr1 w1
    else if methodType = MethodType.StopMethodType.toInt then
      match decodeString r1 with
      | none => Step.stop Status.returned wr w
      | some (tunnelName, r2) =>
        match Stop s tunnelName w with
        | (retErr, w1) => encodeErr retErr r2 wr w1
    else if methodType = MethodType.WaitForStopMethodType.toInt then
      match decodeString r1 with
      | none => Step.stop Status.returned wr w
      | some (tunnelName, r2) =>
        match WaitForStop s tunnelName w with
        | (retErr, w1) => encodeErr retErr r2 wr w1
    else if methodType = MethodType.StateMethodType.toInt then
      match decodeString r1 with
      | none => Step.stop Status.returned wr w
      | some (tunnelName, r2) =>
        match State s tunnelName w with
        | ((state, retErr), w1) =>
          match wr.encode (Value.int state.toInt) with
          | none => Step.stop Status.returned wr w1
          | some wr1 => encodeErr retErr r2 wr1 w1
    else if methodType = MethodType.QuitMethodType.toInt then
      match decodeBool r1 with
      | none => Step.stop Status.returned wr w
      | some (stopTunnelsOnQuit, r2) =>
        match Quit s stopTunnelsOnQuit w with
        | (none, w1) => Step.stop Status.blocked wr w1
        | (some (alreadyQuit, retErr), w1) =>
          match wr.encode (Value.bool alreadyQuit) with
          | none => Step.stop Status.returned wr w1
          | some wr1 => encodeErr retErr r2 wr1 w1
    else
      Step.stop Status.returned wr w

/-- How `ServeConn` ends: status, response stream, final state. -/
structure Outcome where
  status : Status
  wr : Writer
  world : World

/-- The `for` loop of `ServeConn`, at most `fuel` iterations. -/
def ServeConnLoop (s : Nat) : Nat → List Value → Writer → World → Outcome
  | 0, _, wr, w => ⟨Status.exhausted, wr, w⟩
  | fuel + 1, reader, wr, w =>
    match serveCall s reader wr w with
    | Step.next reader1 wr1 w1 => ServeConnLoop s fuel reader1 wr1 w1
    | Step.stop st wr1 w1 => ⟨st, wr1, w1⟩

/-- `func (s *ManagerService) ServeConn(reader io.Reader, writer io.Writer)`: `reader` is
everything the peer writes before closing its end. Each completed iteration consumes at least
two values, so `reader.length + 1` iterations always suffice. -/
def ServeConn (s : Nat) (reader : List Value) (wr : Writer) (w : World) : Outcome :=
  ServeConnLoop s (reader.length + 1) reader wr w

/-! ## RPC client (`ipc_client.go`) -/

/-- The error `Decode` returns and the stream it leaves behind when the next value cannot be
decoded into the target: `EOF` on the closed empty stream, else a type mismatch whose message
has been consumed. -/
def decodeFail : List Value → GoError × List Value
  | [] => (⟨"EOF"⟩, [])
  | _ :: rest => (⟨"gob: type mismatch"⟩, rest)

/-- The error `Encode` returns once the pipe no longer accepts data. -/
def pipeClosed : GoError := ⟨"write: The pipe is being closed."⟩

/-- The client end of the RPC pipes: `rpcEncoder` writes the request stream, `rpcDecoder`
reads the response stream (`rpcDecoder` holds what the peer writes, in order). -/
structure RpcConn where
  rpcEncoder : Writer
  rpcDecoder : List Value
deriving DecidableEq, Repr

/-- `rpcEncoder.Encode(v)`. -/
def RpcConn.encode (c : RpcConn) (v : Value) : Option GoError × RpcConn :=
  match c.rpcEncoder.encode v with
  | none => (some pipeClosed, c)
  | some wr => (none, { c with rpcEncoder := wr })

/-- `func rpcDecodeError() error`. -/
def rpcDecodeError (c : RpcConn) : Option GoError × RpcConn :=
  match decodeString c.rpcDecoder with
  | none => (some (decodeFail c.rpcDecoder).1, { c with rpcDecoder := (decodeFail c.rpcDecoder).2 })
  | some (str, rest) =>
    if str = "" then (none, { c with rpcDecoder := rest })
    else (some ⟨str⟩, { c with rpcDecoder := rest })

/-- `func IPCClientQuit(stopTunnelsOnQuit bool) (alreadyQuit bool, err error)`. -/
def IPCClientQuit (stopTunnelsOnQuit : Bool) (c : RpcConn) : (Bool × Option GoError) × RpcConn :=
  match c.encode (Value.int MethodType.QuitMethodType.toInt) with
  | (some err, c1) => ((false, some err), c1)
  | (none, c1) =>
    match c1.encode (Value.bool stopTunnelsOnQuit) with
    | (some err, c2) => ((false, some err), c2)
    | (none, c2) =>
      match decodeBool c2.rpcDecoder with
      | none =>
        ((false, some (decodeFail c2.rpcDecoder).1), { c2 with rpcDecoder := (decodeFail c2.rpcDecoder).2 })
      | some (alreadyQuit, rest) =>
        match rpcDecodeError { c2 with rpcDecoder := rest } with
        | (err, c3) => ((alreadyQuit, err), c3)

/-- The zero value of `Tunnel`. -/
def Tunnel.zero : Tunnel := { Path := "", Name := "", State := TunnelState.TunnelUnknown }

/-- `func IPCClientStartTunnel(path string) (tunnel Tunnel, err error)`. -/
def IPCClientStartTunnel (path : String) (c : RpcConn) : (Tunnel × Option GoError) × RpcConn :=
  match c.encode (Value.int MethodType.StartMethodType.toInt) with
  | (some err, c1) => ((Tunnel.zero, some err), c1)
  | (none, c1) =>
    match c1.encode (Value.str path) with
    | (some err, c2) => ((Tunnel.zero, some err), c2)
    | (none, c2) =>
      match decodeTunnel c2.rpcDecoder with
      | none =>
        ((Tunnel.zero, some (decodeFail c2.rpcDecoder).1),
          { c2 with rpcDecoder := (decodeFail c2.rpcDecoder).2 })
      | some (tunnel, rest) =>
        match rpcDecodeError { c2 with rpcDecoder := rest } with
        | (err, c3) => ((tunnel, err), c3)

/-- `func IPCClientStopTunnel(tunnelName string) (err error)`. -/
def IPCClientStopTunnel (tunnelName : String) (c : RpcConn) : Option GoError × RpcConn :=
  match c.encode (Value.int MethodType.StopMethodType.toInt) with
  | (some err, c1) => (some err, c1)
  | (none, c1) =>
    match c1.encode (Value.str tunnelName) with
    | (some err, c2) => (some err, c2)
    | (none, c2) => rpcDecodeError c2

/-! ## Config discovery (`configs.go`) -/

/-- An `os.FileInfo` as far as `LoadTunnelConfigs` looks at it. -/
structure DirEntry where
  Name : String
  IsDir : Bool
deriving DecidableEq, Repr

/-- `path.Join(dir, name)` of the Go standard library: leading empty elements are skipped, the
rest is joined with `/` and cleaned. -/
def pathJoin (dir name : String) : String :=
  if dir = "" then
    if name = "" then "" else String.mk (pathClean name.data)
  else String.mk (pathClean (dir.data ++ '/' :: name.data))

/-- The body of `for _, f := range files` of `LoadTunnelConfigs` (lines 43-66). -/
def loadTunnelConfigsLoop (nebulaConfigDir : String) (files : List DirEntry)
    (cur : List Tunnel) : List Tunnel :=
  match files with
  | [] => cur
  | f :: rest =>
    if f.IsDir then
      if cur.any (fun t => t.Name == f.Name) then
        loadTunnelConfigsLoop nebulaConfigDir rest cur
      else
        loadTunnelConfigsLoop nebulaConfigDir rest
          (cur ++ [{ Path := pathJoin nebulaConfigDir f.Name, Name := f.Name,
                     State := TunnelState.TunnelStopped }])
    else loadTunnelConfigsLoop nebulaConfigDir rest cur

/-- `func LoadTunnelConfigs()` as a transformer of `CurrentTunnels`: `configDir` is what
`os.UserConfigDir()` returns, `readDir` what `ioutil.ReadDir` returns for the `Nebula`
directory. The result is `none` when `log.Fatalf` ends the process. -/
def LoadTunnelConfigs (configDir : String) (readDir : Except GoError (List DirEntry))
    (cur : List Tunnel) : Option (List Tunnel) :=
  match readDir with
  | .error _ => none
  | .ok files => some (loadTunnelConfigsLoop (pathJoin configDir "Nebula") files cur)

/-- An operation on the registry `CurrentTunnels`. -/
inductive RegistryOp
  /-- a call of `LoadTunnelConfigs` with the directory listing it finds -/
  | load (configDir : String) (files : List DirEntry)
  /-- a call of `ManagerService.Start` -/
  | start (configPath : String)
  /-- a call of `ManagerService.Stop` -/
  | stop (tunnelName : String)

/-- Perform one registry operation. -/
def applyOp (w : World) (op : RegistryOp) : World :=
  match op with
  | .load configDir files =>
    match LoadTunnelConfigs configDir (.ok files) w.CurrentTunnels with
    | some ts => { w with CurrentTunnels := ts }
    | none => w
  | .start configPath => (Start 0 configPath w).2
  | .stop tunnelName => (Stop 0 tunnelName w).2

/-- Perform a sequence of registry operations, first to last. -/
def runOps (ops : List RegistryOp) (w : World) : World := ops.foldl applyOp w

/-- No two entries of a tunnel list have the same `Name`. -/
def namesUnique (ts : List Tunnel) : Prop := (ts.map (fun t => t.Name)).Nodup

instance (ts : List Tunnel) : Decidable (namesUnique ts) := by
  unfold namesUnique; infer_instance

/-! ## The tray front end (`ui/ui.go`) -/

/-- `ConfigMetadata` of `configs.go`. -/
structure ConfigMetadata where
  ControllerURL : String
  TunnelName : String
  Fingerprint : String
deriving DecidableEq, Repr

/-- `NebulaConfig` of `ui/controller.go`. -/
structure NebulaConfig where
  CertEndpoint : String
  OidcClientID : String
  OidcConfigURL : String
  SignEndpoint : String
  NodeConfigEndpoint : String
  CACert : String
deriving DecidableEq, Repr

/-- The collaborators `ToggleTunnel` calls besides the RPC client: metadata file, controller,
OIDC login, provisioning. -/
structure UiEnv where
  /-- `manager.LoadTunnelMetadata(configPath)`, `none` for `nil` -/
  LoadTunnelMetadata : String → Option ConfigMetadata
  /-- `GetControllerInfo(urlStr)` -/
  GetControllerInfo : String → Except GoError NebulaConfig
  /-- `DoOIDCLogin(oidcConfigURL, oidcClientID)` -/
  DoOIDCLogin : String → String → Except GoError String
  /-- `CreateTempConfig(accessToken, configPath, nebulaConfig)` -/
  CreateTempConfig : String → String → NebulaConfig → Option GoError

/-- What `ToggleTunnel` leaves behind: its return value, the tunnel `selectedTunnel` points
to, the RPC connection, and the message boxes `ShowError` has put up (heading, text). -/
structure ToggleResult where
  err : Option GoError
  selectedTunnel : Tunnel
  conn : RpcConn
  shown : List (String × String)
deriving DecidableEq, Repr

/-- The tail of the activation branch of `ToggleTunnel` (lines 54-63). -/
def toggleStart (selectedTunnel : Tunnel) (c : RpcConn) : ToggleResult :=
  let t1 := { selectedTunnel with State := TunnelState.TunnelStarting }
  match IPCClientStartTunnel t1.Path c with
  | ((_, some err), c1) =>
    ⟨some err, t1, c1, [("Error activating tunnel", "Tunnel start threw error: " ++ err.msg)]⟩
  | ((tunnel, none), c1) =>
    ⟨none, { t1 with State := tunnel.State, Name := tunnel.Name }, c1, []⟩

/-- `func ToggleTunnel(selectedTunnel *manager.Tunnel) error`. -/
def ToggleTunnel (env : UiEnv) (selectedTunnel : Tunnel) (c : RpcConn) : ToggleResult :=
  if selectedTunnel.State = TunnelState.TunnelStarted then
    let t1 := { selectedTunnel with State := TunnelState.TunnelStopping }
    match IPCClientStopTunnel t1.Name c with
    | (some err, c1) => ⟨some err, t1, c1, [("Error deactivating tunnel", err.msg)]⟩
    | (none, c1) => ⟨none, { t1 with State := TunnelState.TunnelStopped }, c1, []⟩
  else
    match env.LoadTunnelMetadata selectedTunnel.Path with
    | none => toggleStart selectedTunnel c
    | some md =>
      if md.ControllerURL ≠ "" then
        match env.GetControllerInfo md.ControllerURL with
        | .error err => ⟨some err, selectedTunnel, c, [("Error talking to controller", err.msg)]⟩
        | .ok nc =>
          match env.DoOIDCLogin nc.OidcConfigURL nc.OidcClientID with
          | .error err => ⟨some err, selectedTunnel, c, [("Error after OIDC login", err.msg)]⟩
          | .ok accessToken =>
            match env.CreateTempConfig accessToken selectedTunnel.Path nc with
            | some err => ⟨some err, selectedTunnel, c, [("Error creating temp config", err.msg)]⟩
            | none => toggleStart selectedTunnel c
      else toggleStart selectedTunnel c

/-! ## Concurrent `Quit` calls: one goroutine per call, stepped by a schedule -/

/-- Program counter of one `Quit` call. -/
inductive QuitPc
  /-- line 84, the token check -/
  | entry
  /-- line 87, `atomic.CompareAndSwapUint32(&haveQuit, 0, 1)` -/
  | cas
  /-- lines 92-97, under `managerServicesLock` and `eventLock` -/
  | deregister
  /-- lines 99-104, the tunnels the `range` loop has still to visit -/
  | uninstall (todo : List Tunnel)
  /-- line 106, `quitManagersChan <- struct{}{}` -/
  | send
  /-- the call has returned `(alreadyQuit, err)` -/
  | done (alreadyQuit : Bool) (err : Option GoError)
deriving DecidableEq, Repr

/-- A side effect of a `Quit` call. -/
inductive QuitEffect
  | deregistered
  | uninstalled (tunnelName : String)
  | signalled
deriving DecidableEq, Repr

/-- One `Quit` call in flight: receiver, argument, program counter, effects so far. -/
structure QuitCall where
  s : Nat
  stopTunnelsOnQuit : Bool
  pc : QuitPc
  effects : List QuitEffect
deriving DecidableEq, Repr

/-- One atomic step of a `Quit` call. A call at `send` with the channel full, and a call that
has returned, do not move. -/
def quitStep (t : QuitCall) (w : World) : QuitCall × World :=
  match t.pc with
  | .entry =>
    if (w.deref t.s).elevatedToken = 0 then
      ({ t with pc := .done false (some ERROR_ACCESS_DENIED) }, w)
    else ({ t with pc := .cas }, w)
  | .cas =>
    if w.haveQuit = 0 then ({ t with pc := .deregister }, { w with haveQuit := 1 })
    else ({ t with pc := .done true none }, w)
  | .deregister =>
    let w1 := (w.clearEvents t.s).unregister t.s
    ({ t with
        pc := if t.stopTunnelsOnQuit then .uninstall w1.CurrentTunnels else .send,
        effects := t.effects ++ [QuitEffect.deregistered] }, w1)
  | .uninstall [] => ({ t with pc := .send }, w)
  | .uninstall (tun :: rest) =>
    ({ t with pc := .uninstall rest, effects := t.effects ++ [QuitEffect.uninstalled tun.Name] },
      { w with scm := (UninstallTunnelService tun.Name w.scm).2 })
  | .send =>
    if w.quitManagersChan < 1 then
      ({ t with pc := .done false none, effects := t.effects ++ [QuitEffect.signalled] },
        { w with quitManagersChan := w.quitManagersChan + 1 })
    else (t, w)
  | .done _ _ => (t, w)

/-- The calls in flight and the shared state. -/
structure QuitSys where
  calls : List QuitCall
  world : World

/-- A call that has not started yet. -/
def QuitCall.init (arg : Nat × Bool) : QuitCall :=
  { s := arg.1, stopTunnelsOnQuit := arg.2, pc := QuitPc.entry, effects := [] }

/-- The system in which the calls `args` (receiver, `stopTunnelsOnQuit`) have been issued. -/
def QuitSys.init (args : List (Nat × Bool)) (w : World) : QuitSys :=
  { calls := args.map QuitCall.init, world := w }

/-- The scheduler lets call number `i` take one step. -/
def QuitSys.step (sys : QuitSys) (i : Nat) : QuitSys :=
  match sys.calls[i]? with
  | none => sys
  | some t =>
    { calls := sys.calls.set i (quitStep t sys.world).1, world := (quitStep t sys.world).2 }

/-- Run a schedule: the list of call numbers in the order in which they step. -/
def QuitSys.run (sys : QuitSys) (schedule : List Nat) : QuitSys :=
  schedule.foldl QuitSys.step sys

/-- The call has returned. -/
def QuitCall.isDone (t : QuitCall) : Bool :=
  match t.pc with
  | .done _ _ => true
  | _ => false

/-! ## The session supervisor (`manager.go`, `managerService.Execute`) -/

/-- `const STATUS_DLL_INIT_FAILED_LOGOFF = 0xC000026B` (line 342). -/
def STATUS_DLL_INIT_FAILED_LOGOFF : Nat := 0xC000026B

/-- What the operating system answers while `startProcess` resolves the session's token
(lines 165-230). -/
structure TokenEnv where
  /-- `windows.WTSQueryUserToken(session, &userToken)` -/
  userToken : Except GoError Nat
  /-- `elevate.TokenIsElevatedOrElevatable(userToken)` -/
  isElevatedOrElevatable : Bool
  /-- `userToken.GetTokenUser()` succeeds -/
  tokenUserOk : Bool
  /-- `user.User.Sid.LookupAccount("")` succeeds -/
  lookupAccountOk : Bool
  /-- `accType == windows.SidTypeUser` -/
  accTypeIsUser : Bool
  /-- `userToken.GetUserProfileDirectory()` -/
  userProfileDirectory : String
  /-- `userToken.IsElevated()` -/
  userIsElevated : Bool
  /-- `userToken.GetLinkedToken()` -/
  linkedToken : Except GoError Nat
  /-- `IsElevated()` of the linked token -/
  linkedIsElevated : Bool

/-- `isOperator := false` (line 171); the code that would compute it is commented out. -/
def isOperator : Bool := false

/-- Result of the token resolution: `elevatedToken`, `runToken`, `userProfileDirectory`. -/
structure Resolved where
  elevatedToken : Nat
  runToken : Nat
  userProfileDirectory : String
deriving DecidableEq, Repr

/-- Lines 165-230 of `startProcess`: `none` when the function returns before its `for` loop. -/
def resolveToken (env : TokenEnv) : Option Resolved :=
  match env.userToken with
  | .error _ => none
  | .ok userToken =>
    let isAdmin := env.isElevatedOrElevatable
    if !isAdmin && !isOperator then none
    else if !env.tokenUserOk then none
    else if !env.lookupAccountOk then none
    else if !env.accTypeIsUser then none
    else if isAdmin then
      if env.userIsElevated then some ⟨userToken, userToken, env.userProfileDirectory⟩
      else
        match env.linkedToken with
        | .error _ => none
        | .ok linked =>
          if !env.linkedIsElevated then none
          else some ⟨linked, linked, env.userProfileDirectory⟩
    else some ⟨0, userToken, env.userProfileDirectory⟩

/-- What the operating system answers to one step of a session control loop. -/
structure LoopEnv where
  /-- answers during token resolution -/
  token : TokenEnv
  /-- the three `os.Pipe()` calls succeed (lines 250, 255, 260) -/
  pipe1Ok : Bool
  pipe2Ok : Bool
  pipe3Ok : Bool
  /-- `ringlogger.Global.ExportInheritableMappingHandle()` succeeds (line 268) -/
  exportOk : Bool
  /-- the handle values of the helper's ends and of the log mapping (lines 274-277) -/
  theirReader : Nat
  theirWriter : Nat
  theirEvents : Nat
  theirLogMapping : Nat
  /-- `os.OpenFile(os.DevNull, ...)` succeeds (line 281) -/
  openNullOk : Bool
  /-- `os.StartProcess` succeeds (line 297) -/
  startProcessOk : Bool
  /-- `proc.Wait()` returns without error (line 338) -/
  waitOk : Bool

/-- Program counter of a session control loop (`startProcess`). -/
inductive LoopPc
  /-- lines 165-230, token resolution -/
  | resolve
  /-- line 233, `if stoppingManager` -/
  | checkStopping
  /-- lines 237-242, `if alive := aliveSessions[session]; !alive` -/
  | checkAlive
  /-- lines 244-248, the one-second sleep on every iteration but the first -/
  | debounce
  /-- lines 250-264, the three pipes -/
  | pipes
  /-- line 266, `IPCServerListen` -/
  | listen
  /-- lines 268-272, the log mapping handle -/
  | exportLog
  /-- lines 274-285, handle strings and the NUL file -/
  | openNull
  /-- lines 294-331, `os.StartProcess` under `procsLock` if the session is alive -/
  | launch
  /-- lines 333-335, `procs[session] = proc` -/
  | track (pid : Nat)
  /-- lines 338-346, `proc.Wait()` -/
  | wait (pid : Nat)
  /-- lines 348-357, `delete(procs, session)`, closing our pipe ends, `if sessionIsDead` -/
  | untrack (sessionIsDead : Bool)
  /-- the deferred function, lines 158-163: `delete(aliveSessions, session)` -/
  | exiting
  /-- `startProcess` has returned -/
  | exited
deriving DecidableEq, Repr

/-- A goroutine running `startProcess(session)`. -/
structure Loop where
  session : Nat
  pc : LoopPc
  /-- the local `first` -/
  first : Bool
  /-- the local `elevatedToken` -/
  elevatedToken : Nat
  /-- the local `userProfileDirectory` -/
  dir : String
  /-- index in `Sup.conns` of the connection of the current iteration -/
  conn : Option Nat
  /-- how many times `os.StartProcess` has succeeded in this loop -/
  launches : Nat
  /-- how many times the loop has slept for a second -/
  sleeps : Nat
deriving DecidableEq, Repr

/-- A helper process started by `os.StartProcess`; `exit` is its exit code once it has
terminated; the process id is its index in `Sup.os`. -/
structure OsProc where
  session : Nat
  token : Nat
  argv : List String
  dir : String
  exit : Option Nat
deriving DecidableEq, Repr

/-- A connection set up by `IPCServerListen(ourReader, ourWriter, ourEvents, elevatedToken)`;
`isOpen` until the supervisor closes its pipe ends. -/
structure Conn where
  session : Nat
  elevatedToken : Nat
  isOpen : Bool
deriving DecidableEq, Repr

/-- Where the main goroutine of `Execute` is. -/
inductive MainPc
  /-- session enumeration and the `select` loop, lines 381-442 -/
  | serving
  /-- lines 444-454: the main loop has been left, helpers are killed, the loops are joined;
  `uninstall` is the local of that name -/
  | stopping (uninstall : Bool)
  /-- `Execute` has returned; `uninstalled` tells whether `UninstallManagerService` was called -/
  | finished (uninstalled : Bool)
deriving DecidableEq, Repr

/-- `WTS_CONNECTSTATE_CLASS` of a session found by `WTSEnumerateSessions`. -/
inductive WtsState
  | WTSActive
  | WTSConnected
  | WTSConnectQuery
  | WTSShadow
  | WTSDisconnected
  | WTSIdle
  | WTSListen
  | WTSReset
  | WTSDown
  | WTSInit
deriving DecidableEq, Repr

/-- State of the supervisor: the locals of `Execute` shared with its goroutines, the
goroutines, the helper processes and the connections. -/
structure Sup where
  /-- `path`, the result of `os.Executable()` -/
  path : String
  /-- `procs := make(map[uint32]*os.Process)` as an association list session to process id -/
  procs : List (Nat × Nat)
  /-- the keys of `aliveSessions` (every stored value is `true`) -/
  aliveSessions : List Nat
  /-- `stoppingManager` -/
  stoppingManager : Bool
  /-- the goroutines started by `goStartProcess`, oldest first -/
  loops : List Loop
  /-- the helper processes started so far -/
  os : List OsProc
  /-- the connections set up so far -/
  conns : List Conn
  /-- the main goroutine -/
  mainPc : MainPc
deriving DecidableEq, Repr

/-- The supervisor when `Execute` reaches the session enumeration. -/
def Sup.init (path : String) : Sup :=
  { path := path, procs := [], aliveSessions := [], stoppingManager := false, loops := [],
    os := [], conns := [], mainPc := MainPc.serving }

/-- `procs[session]` with the comma-ok idiom. -/
def Sup.lookupProc (st : Sup) (session : Nat) : Option Nat :=
  (st.procs.find? (fun e => e.1 == session)).map (fun e => e.2)

/-- `delete(procs, session)`. -/
def Sup.deleteProc (st : Sup) (session : Nat) : Sup :=
  { st with procs := st.procs.filter (fun e => e.1 != session) }

/-- `procs[session] = pid`. -/
def Sup.setProc (st : Sup) (session pid : Nat) : Sup :=
  { st with procs := st.procs.filter (fun e => e.1 != session) ++ [(session, pid)] }

/-- `delete(aliveSessions, session)`. -/
def Sup.deleteAlive (st : Sup) (session : Nat) : Sup :=
  { st with aliveSessions := st.aliveSessions.filter (fun s => s != session) }

/-- `proc.Kill()`: a running process ends with exit code 1, a terminated one is unaffected. -/
def Sup.kill (st : Sup) (pid : Nat) : Sup :=
  match st.os[pid]? with
  | none => st
  | some p =>
    match p.exit with
    | some _ => st
    | none => { st with os := st.os.set pid { p with exit := some 1 } }

/-- `ourReader.Close(); ourWriter.Close(); ourEvents.Close()` for the loop's connection. -/
def Sup.closeConn (st : Sup) (conn : Option Nat) : Sup :=
  match conn with
  | none => st
  | some c =>
    match st.conns[c]? with
    | none => st
    | some k => { st with conns := st.conns.set c { k with isOpen := false } }

/-- `goStartProcess(session)`: a new goroutine at the start of `startProcess`. -/
def Sup.goStartProcess (st : Sup) (session : Nat) : Sup :=
  { st with loops := st.loops ++
      [{ session := session, pc := LoopPc.resolve, first := true, elevatedToken := 0, dir := "",
         conn := none, launches := 0, sleeps := 0 }] }

/-- Lines 385-392 and 428-435: the session became active. -/
def Sup.sessionActive (st : Sup) (session : Nat) : Sup :=
  if session ∈ st.aliveSessions then st
  else
    let st1 := { st with aliveSessions := st.aliveSessions ++ [session] }
    match st1.lookupProc session with
    | some _ => st1
    | none => st1.goStartProcess session

/-- Lines 420-426: the session logged off. -/
def Sup.sessionLogoff (st : Sup) (session : Nat) : Sup :=
  let st1 := st.deleteAlive session
  match st1.lookupProc session with
  | some pid => st1.kill pid
  | none => st1

/-- Lines 450-452: `for _, proc := range procs { proc.Kill() }`. -/
def Sup.killAll (st : Sup) : Sup :=
  st.procs.foldl (fun acc e => acc.kill e.2) st

/-- Write back the state of control loop `i`. -/
def Sup.setLoop (st : Sup) (i : Nat) (l : Loop) : Sup :=
  { st with loops := st.loops.set i l }

/-- The argument vector of line 297. -/
def helperArgv (path : String) (env : LoopEnv) : List String :=
  [path, "-ui", toString env.theirReader, toString env.theirWriter, toString env.theirEvents,
    toString env.theirLogMapping]

/-- One atomic step of the control loop with number `i` and local state `l`, the operating
system answering by `env`. A loop in a successful `proc.Wait()` on a running process, and a
loop that has returned, do not move. -/
def Sup.loopBody (st : Sup) (i : Nat) (env : LoopEnv) (l : Loop) : Sup :=
  match l.pc with
  | .resolve =>
    match resolveToken env.token with
    | none => st.setLoop i { l with pc := .exiting }
    | some r =>
      st.setLoop i { l with pc := .checkStopping, elevatedToken := r.elevatedToken,
                            dir := r.userProfileDirectory }
  | .checkStopping =>
    if st.stoppingManager then st.setLoop i { l with pc := .exiting }
    else st.setLoop i { l with pc := .checkAlive }
  | .checkAlive =>
    if l.session ∈ st.aliveSessions then st.setLoop i { l with pc := .debounce }
    else st.setLoop i { l with pc := .exiting }
  | .debounce =>
    if !l.first then st.setLoop i { l with pc := .pipes, sleeps := l.sleeps + 1 }
    else st.setLoop i { l with pc := .pipes, first := false }
  | .pipes =>
    if env.pipe1Ok && env.pipe2Ok && env.pipe3Ok then st.setLoop i { l with pc := .listen }
    else st.setLoop i { l with pc := .exiting }
  | .listen =>
    { st with conns := st.conns ++ [Conn.mk l.session l.elevatedToken true] }.setLoop i
      { l with pc := .exportLog, conn := some st.conns.length }
  | .exportLog =>
    if env.exportOk then st.setLoop i { l with pc := .openNull }
    else st.setLoop i { l with pc := .exiting }
  | .openNull =>
    if env.openNullOk then st.setLoop i { l with pc := .launch }
    else st.setLoop i { l with pc := .exiting }
  | .launch =>
    if l.session ∈ st.aliveSessions && env.startProcessOk then
      { st with os := st.os ++
          [OsProc.mk l.session l.elevatedToken (helperArgv st.path env) l.dir none] }.setLoop i
        { l with pc := .track st.os.length, launches := l.launches + 1 }
    else (st.closeConn l.conn).setLoop i { l with pc := .exiting }
  | .track pid => (st.setProc l.session pid).setLoop i { l with pc := .wait pid }
  | .wait pid =>
    if env.waitOk then
      match (st.os[pid]?).bind (fun p => p.exit) with
      | none => st
      | some exitCode =>
        st.setLoop i { l with pc := .untrack (exitCode == STATUS_DLL_INIT_FAILED_LOGOFF) }
    else st.setLoop i { l with pc := .untrack false }
  | .untrack sessionIsDead =>
    ((st.deleteProc l.session).closeConn l.conn).setLoop i
      { l with pc := if sessionIsDead then .exiting else .checkStopping }
  | .exiting => (st.deleteAlive l.session).setLoop i { l with pc := .exited }
  | .exited => st

/-- The scheduler lets control loop `i` take one step. -/
def Sup.loopStep (st : Sup) (i : Nat) (env : LoopEnv) : Sup :=
  match st.loops[i]? with
  | none => st
  | some l => st.loopBody i env l

/-- Something that happens to the supervisor. -/
inductive Event
  /-- the start-up enumeration visits a session in the given state (lines 381-393) -/
  | enumerate (session : Nat) (state : WtsState)
  /-- `svc.SessionChange` with `WTS_SESSION_LOGON` (lines 427-436) -/
  | logon (session : Nat)
  /-- `svc.SessionChange` with `WTS_SESSION_LOGOFF` (lines 420-426) -/
  | logoff (session : Nat)
  /-- a value arrives on `quitManagersChan` (lines 402-404), then lines 444-453 -/
  | quitSignal
  /-- `svc.Stop` arrives (lines 407-408), then lines 444-453 -/
  | svcStop
  /-- `procsGroup.Wait()` returns and `Execute` runs to its end (lines 454-461) -/
  | join
  /-- control loop `i` takes its next step -/
  | loop (i : Nat) (env : LoopEnv)
  /-- helper process `pid` terminates by itself with the given exit code -/
  | helperExit (pid : Nat) (exitCode : Nat)

/-- Lines 444-453: leave the main loop, set `stoppingManager`, kill the tracked helpers. -/
def Sup.shutdown (st : Sup) (uninstall : Bool) : Sup :=
  { st with stoppingManager := true, mainPc := MainPc.stopping uninstall }.killAll

/-- Every control loop has returned, so `procsGroup.Wait()` does not block. -/
def Sup.allExited (st : Sup) : Bool := st.loops.all (fun l => decide (l.pc = LoopPc.exited))

/-- The effect of one event. Events addressed to the main goroutine are only taken while it
is where it can take them. -/
def Sup.step (st : Sup) (e : Event) : Sup :=
  match e with
  | .enumerate session state =>
    if st.mainPc = MainPc.serving then
      if state ≠ WtsState.WTSActive ∧ state ≠ WtsState.WTSDisconnected then st
      else st.sessionActive session
    else st
  | .logon session => if st.mainPc = MainPc.serving then st.sessionActive session else st
  | .logoff session => if st.mainPc = MainPc.serving then st.sessionLogoff session else st
  | .quitSignal => if st.mainPc = MainPc.serving then st.shutdown true else st
  | .svcStop => if st.mainPc = MainPc.serving then st.shutdown false else st
  | .join =>
    match st.mainPc with
    | .stopping uninstall =>
      if st.allExited then { st with mainPc := MainPc.finished uninstall } else st
    | _ => st
  | .loop i env => st.loopStep i env
  | .helperExit pid exitCode =>
    match st.os[pid]? with
    | none => st
    | some p =>
      match p.exit with
      | some _ => st
      | none => { st with os := st.os.set pid { p with exit := some exitCode } }

/-- Run a trace of events, first to last. -/
def Sup.run (st : Sup) (trace : List Event) : Sup := trace.foldl Sup.step st

/-- Control loops of the session that have not returned. -/
def Sup.runningLoops (st : Sup) (session : Nat) : Nat :=
  (st.loops.filter (fun l => l.session == session && decide (l.pc ≠ LoopPc.exited))).length

/-- Helper processes of the session that have not terminated. -/
def Sup.liveHelpers (st : Sup) (session : Nat) : Nat :=
  (st.os.filter (fun p => p.session == session && p.exit.isNone)).length

/-- Connections of the session whose pipes the supervisor has not closed. -/
def Sup.liveConns (st : Sup) (session : Nat) : Nat :=
  (st.conns.filter (fun c => c.session == session && c.isOpen)).length

/-- Entries of `procs` for the session. -/
def Sup.procEntries (st : Sup) (session : Nat) : Nat :=
  (st.procs.filter (fun e => e.1 == session)).length

/-- Let control loop `i` take `n` steps in a row, nothing else happening in between. -/
def Sup.runLoop (st : Sup) (i : Nat) (env : LoopEnv) (n : Nat) : Sup :=
  match n with
  | 0 => st
  | n + 1 => (st.loopStep i env).runLoop i env n

/-! ## `IPCServerListen` (`ipc_server.go`) -/

/-- The first `k` iterations of the `for` loop of `ServeConn`: where the loop stands after
them, or `none` when it is left before `k` iterations are complete. -/
def serveCalls (s : Nat) : Nat → List Value → Writer → World → Option (List Value × Writer × World)
  | 0, reader, wr, w => some (reader, wr, w)
  | k + 1, reader, wr, w =>
    match serveCall s reader wr w with
    | Step.next reader1 wr1 w1 => serveCalls s k reader1 wr1 w1
    | Step.stop _ _ _ => none

/-- The state in which the goroutine of `IPCServerListen` calls `ServeConn`: the new
`ManagerService` is allocated at the next free address and registered in `managerServices`. -/
def listenWorld (events : Option Nat) (elevatedToken : Nat) (w : World) : World :=
  ({ w with heap := w.heap ++ [ManagerService.mk events elevatedToken] }).register w.heap.length

/-- `func IPCServerListen(reader, writer, events *os.File, elevatedToken windows.Token)`, the
goroutine it starts run to its end: register the service, serve the connection, and when
`ServeConn` returns set `service.events = nil` and delete the service from `managerServices`. -/
def IPCServerListen (reader : List Value) (wr : Writer) (events : Option Nat)
    (elevatedToken : Nat) (w : World) : Outcome :=
  let service := w.heap.length
  let o := ServeConn service reader wr (listenWorld events elevatedToken w)
  match o.status with
  | Status.returned => { o with world := (o.world.clearEvents service).unregister service }
  | _ => o

/-- Let one `Quit` call take `n` steps in a row, nothing else happening in between. -/
def quitRun : Nat → QuitCall → World → QuitCall × World
  | 0, t, w => (t, w)
  | n + 1, t, w => quitRun n (quitStep t w).1 (quitStep t w).2

/-! ## Invariant and progress measure of concurrent `Quit` calls -/

/-- The call has not reached its compare-and-swap yet and has had no side effect. -/
def QuitCall.pending (t : QuitCall) : Prop :=
  (t.pc = QuitPc.entry ∨ t.pc = QuitPc.cas) ∧ t.effects = []

/-- The call has lost the compare-and-swap: it has returned `(true, nil)` without side effect. -/
def QuitCall.lost (t : QuitCall) : Prop :=
  t.pc = QuitPc.done true none ∧ t.effects = []

/-- The call has won the compare-and-swap: it is past line 87 on the path to `return false, nil`. -/
def QuitCall.winning (t : QuitCall) : Prop :=
  t.pc = QuitPc.deregister ∨ (∃ todo, t.pc = QuitPc.uninstall todo) ∨ t.pc = QuitPc.send ∨
    t.pc = QuitPc.done false none

/-- An upper bound on the number of steps the call still takes when the registry holds `n`
tunnels. -/
def QuitCall.stepsLeft (n : Nat) (t : QuitCall) : Nat :=
  match t.pc with
  | .entry => n + 5
  | .cas => n + 4
  | .deregister => n + 3
  | .uninstall todo => todo.length + 2
  | .send => 1
  | .done _ _ => 0

/-- The invariant of concurrent `Quit` calls by elevated connections: every receiver holds a
token; either nobody has passed the compare-and-swap, or exactly one call has, and
`quitManagersChan` is empty until that call has sent. -/
def QuitInv (sys : QuitSys) : Prop :=
  (∀ (j : Nat) (t : QuitCall), sys.calls[j]? = some t →
    (sys.world.deref t.s).elevatedToken ≠ 0) ∧
  (∀ (j : Nat) (t : QuitCall) (todo : List Tunnel), sys.calls[j]? = some t →
    t.pc = QuitPc.uninstall todo → todo.length ≤ sys.world.CurrentTunnels.length) ∧
  ((sys.world.haveQuit = 0 ∧ sys.world.quitManagersChan = 0 ∧
      ∀ (j : Nat) (t : QuitCall), sys.calls[j]? = some t → t.pending) ∨
   (sys.world.haveQuit ≠ 0 ∧ ∃ (i : Nat) (t : QuitCall), sys.calls[i]? = some t ∧ t.winning ∧
      (t.pc = QuitPc.done false none ∨ sys.world.quitManagersChan = 0) ∧
      ∀ (j : Nat) (u : QuitCall), j ≠ i → sys.calls[j]? = some u → u.pending ∨ u.lost))

/-! ## Tokens carried by helpers and connections -/

/-- A token handle is usable and elevated: it is not the zero handle and the operating
system counts it as elevated. -/
def goodToken (elevated : Nat → Prop) (tok : Nat) : Prop := tok ≠ 0 ∧ elevated tok

/-- The answers of the operating system during token resolution are truthful with respect to
the set `elevated` of elevated tokens: a call that succeeds returns a non-zero handle, and
`IsElevated()` answers true only for an elevated token. -/
def TokenEnv.sound (elevated : Nat → Prop) (env : TokenEnv) : Prop :=
  (∀ t, env.userToken = .ok t → t ≠ 0 ∧ (env.userIsElevated = true → elevated t)) ∧
  (∀ t, env.linkedToken = .ok t → t ≠ 0 ∧ (env.linkedIsElevated = true → elevated t))

/-- An event in which the operating system answers truthfully about tokens. -/
def Event.sound (elevated : Nat → Prop) : Event → Prop
  | Event.loop _ env => env.token.sound elevated
  | _ => True

/-- Every helper process, every connection and every control loop that is past its token
resolution holds a usable elevated token. -/
def SupTokens (elevated : Nat → Prop) (st : Sup) : Prop :=
  (∀ p ∈ st.os, goodToken elevated p.token) ∧
  (∀ c ∈ st.conns, goodToken elevated c.elevatedToken) ∧
  (∀ l ∈ st.loops, l.pc = LoopPc.resolve ∨ l.pc = LoopPc.exiting ∨ l.pc = LoopPc.exited ∨
    goodToken elevated l.elevatedToken)

/-! ## The helper's entry point (`main.go`, `case "-ui"`) -/

/-- Value of a string of decimal digits, most significant digit first. -/
def digitsValue (cs : List Char) : Nat :=
  cs.foldl (fun acc c => acc * 10 + (c.toNat - '0'.toNat)) 0

/-- `strconv.ParseUint(s, 10, 64)`: a non-empty string of decimal digits whose value fits 64
bits; `none` is the error return. -/
def parseUint (s : String) : Option Nat :=
  if s.data = [] then none
  else if s.data.all Char.isDigit then
    if digitsValue s.data < 2 ^ 64 then some (digitsValue s.data) else none
  else none

/-- `os.NewFile(uintptr(h), "pipe")`: nil for the invalid handle `^uintptr(0)`. -/
def newFile (h : Nat) : Option Nat := if h = 2 ^ 64 - 1 then none else some h

/-- `func pipeFromHandleArgument(handleStr string) (*os.File, error)`. -/
def pipeFromHandleArgument (handleStr : String) : Except GoError (Option Nat) :=
  match parseUint handleStr with
  | none => .error ⟨"strconv.ParseUint: parsing " ++ handleStr⟩
  | some handleInt => .ok (newFile handleInt)

/-- What the helper process finds when it starts in `-ui` mode. -/
structure UiMainEnv where
  /-- `os.OpenFile("C:\\Temp\\ui-log.log", ...)` succeeds -/
  openLogOk : Bool
  /-- `windows.OpenProcessToken` succeeds -/
  openProcessTokenOk : Bool
  /-- `elevate.TokenIsElevatedOrElevatable(processToken)` -/
  isElevatedOrElevatable : Bool
  /-- `elevate.DropAllPrivileges(false)` -/
  dropAllPrivileges : Option GoError

/-- How `case "-ui"` of `main` ends. -/
inductive UiMain
  /-- `len(os.Args) <= 5`: prints "-ui missing arguments" and returns -/
  | missingArguments
  /-- the log file cannot be opened: prints the error and returns -/
  | logOpenFailed
  /-- `fatal(err)`: message box and `os.Exit(1)` -/
  | fatal (err : GoError)
  /-- `manager.InitializeIPCClient(readPipe, writePipe, eventPipe)` and `ui.RunUI()` -/
  | run (readPipe writePipe eventPipe : Option Nat)
deriving DecidableEq, Repr

/-- The body of `case "-ui"` of `main` (lines 70-121), `args` being `os.Args`. -/
def mainUi (args : List String) (env : UiMainEnv) : UiMain :=
  match args with
  | _ :: _ :: arg2 :: arg3 :: arg4 :: _ :: _ =>
    if !env.openLogOk then UiMain.logOpenFailed
    else
      let isAdmin := env.openProcessTokenOk && env.isElevatedOrElevatable
      match (if isAdmin then env.dropAllPrivileges else none) with
      | some err => UiMain.fatal err
      | none =>
        match pipeFromHandleArgument arg2 with
        | .error err => UiMain.fatal err
        | .ok readPipe =>
          match pipeFromHandleArgument arg3 with
          | .error err => UiMain.fatal err
          | .ok writePipe =>
            match pipeFromHandleArgument arg4 with
            | .error err => UiMain.fatal err
            | .ok eventPipe => UiMain.run readPipe writePipe eventPipe
  | _ => UiMain.missingArguments

/-- A helper started by an administrator that can open its log file and drop its privileges. -/
def goodUiEnv : UiMainEnv :=
  { openLogOk := true, openProcessTokenOk := true, isElevatedOrElevatable := true,
    dropAllPrivileges := none }

/-! ## Notifications (`ipc_client.go`) and the shutdown of `Execute` (`manager.go`) -/

/-- `NotificationType` of `ipc_client.go`, an `int` enumeration starting at
`TunnelChangeNotificationType = 0`. -/
inductive NotificationType
  | TunnelChangeNotificationType
  | TunnelsChangeNotificationType
  | TunnelStateNotificationType
  | ManagerStoppingNotificationType
deriving DecidableEq, Repr

/-- The integer carried on the wire for a `NotificationType` (its `iota` value). -/
def NotificationType.toInt : NotificationType → Int
  | .TunnelChangeNotificationType => 0
  | .TunnelsChangeNotificationType => 1
  | .TunnelStateNotificationType => 2
  | .ManagerStoppingNotificationType => 3

/-- Something the main goroutine of `Execute` does from line 444 on that is visible outside
it. -/
inductive ShutdownAction
  /-- `changes <- svc.Status{State: state}` -/
  | status (state : SvcState)
  /-- `stoppingManager = true` -/
  | setStopping
  /-- a notification is written to the `events` stream of connection `conn` -/
  | notify (conn : Nat) (n : NotificationType)
  /-- `proc.Kill()` -/
  | kill (pid : Nat)
  /-- `procsGroup.Wait()` -/
  | wait
  /-- `UninstallManagerService()` -/
  | uninstallManager
deriving DecidableEq, Repr

/-- Lines 444-459 of `Execute` followed by its deferred function, in program order. Line 448
reads `//IPCServerNotifyManagerStopping()`: it is a comment, and the sources define no
function that writes to an `events` stream. -/
def Sup.shutdownActions (st : Sup) (uninstall : Bool) : List ShutdownAction :=
  [ShutdownAction.status SvcState.StopPending, ShutdownAction.setStopping] ++
    st.procs.map (fun e => ShutdownAction.kill e.2) ++ [ShutdownAction.wait] ++
    (if uninstall then [ShutdownAction.uninstallManager] else []) ++
    [ShutdownAction.status SvcState.StopPending]

/-- The effect of one action on the state shared with the control loops. -/
def Sup.act (st : Sup) : ShutdownAction → Sup
  | .setStopping => { st with stoppingManager := true }
  | .kill pid => st.kill pid
  | _ => st

/-- The notifications among a list of actions that go to connection `conn`, in order. -/
def notificationsTo (conn : Nat) (actions : List ShutdownAction) : List NotificationType :=
  actions.filterMap (fun a =>
    match a with
    | .notify c n => if c = conn then some n else none
    | _ => none)

/-! ## Concurrent `Quit` calls and the main loop of `Execute` -/

/-- A step of the system made of the `Quit` calls and the main goroutine of `Execute`. -/
inductive QuitAction
  /-- `Quit` call number `i` takes a step -/
  | call (i : Nat)
  /-- the `select` of the main loop receives from `quitManagersChan` (line 402) -/
  | receive
  /-- the `select` of the main loop receives `svc.Stop` (lines 405-408) -/
  | stop
deriving DecidableEq, Repr

/-- The `Quit` calls together with the main goroutine of `Execute`: `inSelect` while the main
loop is at its `select`, `uninstall` the local of that name. -/
structure QuitMain where
  sys : QuitSys
  inSelect : Bool
  uninstall : Bool

/-- The calls `args` have been issued and the main loop is at its `select`. -/
def QuitMain.init (args : List (Nat × Bool)) (w : World) : QuitMain :=
  { sys := QuitSys.init args w, inSelect := true, uninstall := false }

/-- One step of the system. The main loop receives only while it is at its `select`, and
from `quitManagersChan` only when a value is buffered. -/
def QuitMain.step (m : QuitMain) (a : QuitAction) : QuitMain :=
  match a with
  | .call i => { m with sys := m.sys.step i }
  | .receive =>
    if m.inSelect && decide (0 < m.sys.world.quitManagersChan) then
      { sys := { m.sys with
                 world := { m.sys.world with
                            quitManagersChan := m.sys.world.quitManagersChan - 1 } },
        inSelect := false, uninstall := true }
    else m
  | .stop => if m.inSelect then { m with inSelect := false } else m

/-- Run a schedule of actions, first to last. -/
def QuitMain.run (m : QuitMain) (schedule : List QuitAction) : QuitMain :=
  schedule.foldl QuitMain.step m

/-- The call is not on the path from a won compare-and-swap to the send and has had no side
effect: it has not reached the compare-and-swap, or it has returned "already quit" or
"access denied". -/
def QuitCall.idle (t : QuitCall) : Prop :=
  t.effects = [] ∧
  (t.pc = QuitPc.entry ∨ t.pc = QuitPc.cas ∨ t.pc = QuitPc.done true none ∨
    t.pc = QuitPc.done false (some ERROR_ACCESS_DENIED))

/-- The call has won the compare-and-swap and has not sent yet. -/
def QuitCall.beforeSend (t : QuitCall) : Prop :=
  QuitEffect.signalled ∉ t.effects ∧
  (t.pc = QuitPc.deregister ∨ (∃ todo, t.pc = QuitPc.uninstall todo) ∨ t.pc = QuitPc.send)

/-- The call has won the compare-and-swap, has sent once and has returned `(false, nil)`. -/
def QuitCall.hasSent (t : QuitCall) : Prop :=
  t.pc = QuitPc.done false none ∧ t.effects.count QuitEffect.signalled = 1

/-- The invariant of `Quit` calls by arbitrary connections next to the main loop: the channel
never holds more than one value; and either nobody has won the compare-and-swap, or exactly
one call has, and the channel is empty until that call has sent. -/
def QuitMainInv (sys : QuitSys) : Prop :=
  sys.world.quitManagersChan ≤ 1 ∧
  ((sys.world.haveQuit = 0 ∧ sys.world.quitManagersChan = 0 ∧
      ∀ (j : Nat) (t : QuitCall), sys.calls[j]? = some t → t.idle) ∨
   (sys.world.haveQuit ≠ 0 ∧ ∃ (i : Nat) (t : QuitCall), sys.calls[i]? = some t ∧
      (t.hasSent ∨ (t.beforeSend ∧ sys.world.quitManagersChan = 0)) ∧
      ∀ (j : Nat) (u : QuitCall), j ≠ i → sys.calls[j]? = some u → u.idle))

/-! ## The client's event loop (`ipc_client.go`, `InitializeIPCClient`) -/

/-- `TunnelInfo` of `ipc_client.go`. -/
structure TunnelInfo where
  Name : String
  State : Int
deriving DecidableEq, Repr

/-- The loop `for _, ti := range tunnelInfo` of lines 134-140; the result is `existingTun`.
The loop variable `ti` is a copy of the element, so the assignment `ti.State = tunnelState`
changes the copy and leaves the slice as it is. -/
def rangeTunnelInfo (tunnelInfo : List TunnelInfo) (tunnelName : String) (tunnelState : Int) :
    Bool :=
  match tunnelInfo with
  | [] => false
  | ti :: rest =>
    if ti.Name = tunnelName then
      let _ti : TunnelInfo := { ti with State := tunnelState }
      true
    else rangeTunnelInfo rest tunnelName tunnelState

/-- Lines 131-149: what `case TunnelStateNotificationType` does to `tunnelInfo` once name and
state are decoded. -/
def tunnelStateNotification (tunnelInfo : List TunnelInfo) (tunnelName : String)
    (tunnelState : Int) : List TunnelInfo :=
  if rangeTunnelInfo tunnelInfo tunnelName tunnelState then tunnelInfo
  else tunnelInfo ++ [{ Name := tunnelName, State := tunnelState }]

/-- One iteration of the `for` loop of the goroutine of `InitializeIPCClient` (lines 70-151):
the rest of the stream and the new `tunnelInfo`, or `none` when the goroutine returns. A
`continue` after a failed `Decode` goes on behind the message that could not be decoded. The
callback maps are never written, so the loops over them call nothing. -/
def eventLoopBody (events : List Value) (tunnelInfo : List TunnelInfo) :
    Option (List Value × List TunnelInfo) :=
  match decodeInt events with
  | none => none
  | some (notificationType, r1) =>
    if notificationType = NotificationType.TunnelChangeNotificationType.toInt then
      match decodeString r1 with
      | none => some ((decodeFail r1).2, tunnelInfo)
      | some (tunnel, r2) =>
        if tunnel = "" then some (r2, tunnelInfo)
        else
          match decodeInt r2 with
          | none => some ((decodeFail r2).2, tunnelInfo)
          | some (_state, r3) =>
            match decodeInt r3 with
            | none => some ((decodeFail r3).2, tunnelInfo)
            | some (_globalState, r4) =>
              match decodeString r4 with
              | none => some ((decodeFail r4).2, tunnelInfo)
              | some (_errStr, r5) => some (r5, tunnelInfo)
    else if notificationType = NotificationType.TunnelsChangeNotificationType.toInt then
      some (r1, tunnelInfo)
    else if notificationType = NotificationType.ManagerStoppingNotificationType.toInt then
      some (r1, tunnelInfo)
    else if notificationType = NotificationType.TunnelStateNotificationType.toInt then
      match decodeString r1 with
      | none => some ((decodeFail r1).2, tunnelInfo)
      | some (tunnelName, r2) =>
        if tunnelName = "" then some (r2, tunnelInfo)
        else
          match decodeInt r2 with
          | none => some ((decodeFail r2).2, tunnelInfo)
          | some (tunnelState, r3) =>
            some (r3, tunnelStateNotification tunnelInfo tunnelName tunnelState)
    else some (r1, tunnelInfo)

/-- The `for` loop of the goroutine, at most `fuel` iterations. -/
def eventLoop : Nat → List Value → List TunnelInfo → List TunnelInfo
  | 0, _, tunnelInfo => tunnelInfo
  | fuel + 1, events, tunnelInfo =>
    match eventLoopBody events tunnelInfo with
    | none => tunnelInfo
    | some (events1, tunnelInfo1) => eventLoop fuel events1 tunnelInfo1

/-- The goroutine of `InitializeIPCClient` run on everything the peer writes to the event
pipe before closing it: the `tunnelInfo` it leaves behind. Each iteration consumes at least
one value, so `events.length + 1` iterations always suffice. -/
def clientEventLoop (events : List Value) (tunnelInfo : List TunnelInfo) : List TunnelInfo :=
  eventLoop (events.length + 1) events tunnelInfo

/-- The values the event loop reads for one `TunnelState` notification `(name, state)`. -/
def encodeTunnelState (n : String × Int) : List Value :=
  [Value.int NotificationType.TunnelStateNotificationType.toInt, Value.str n.1, Value.int n.2]

/-- The event stream of a sequence of `TunnelState` notifications. -/
def encodeTunnelStates (ns : List (String × Int)) : List Value :=
  match ns with
  | [] => []
  | n :: rest => encodeTunnelState n ++ encodeTunnelStates rest

/-- No two entries of `tunnelInfo` have the same `Name`. -/
def infoNamesUnique (tunnelInfo : List TunnelInfo) : Prop :=
  (tunnelInfo.map (fun ti => ti.Name)).Nodup

instance (tunnelInfo : List TunnelInfo) : Decidable (infoNamesUnique tunnelInfo) := by
  unfold infoNamesUnique; infer_instance

/-! ## The tunnel service host (`main.go`, `case "-tunnel"`; `tunnel.go`) -/

/-- `func RunTunnelService(tunnelName string, configPath string) error`: the service name and
the `configPath` of the `tunnelService` it hands to `svc.Run`. -/
def RunTunnelService (tunnelName configPath : String) : String × String :=
  let serviceName := "Nebula_" ++ tunnelName
  (serviceName, configPath)

/-- How `case "-tunnel"` of `main` ends. -/
inductive TunnelMain
  /-- `len(os.Args) <= 2`: prints "-tunnel needs config path" and returns -/
  | needsConfigPath
  /-- `svc.Run(serviceName, &tunnelService{configPath})`, then `os.Exit(0)` -/
  | run (serviceName configPath : String)
deriving DecidableEq, Repr

/-- The body of `case "-tunnel"` of `main` (lines 143-152), `args` being `os.Args`. -/
def mainTunnel (args : List String) : TunnelMain :=
  match args with
  | _ :: _ :: arg2 :: _ =>
    let tunnelName := filepathBase arg2
    TunnelMain.run (RunTunnelService tunnelName arg2).1 (RunTunnelService tunnelName arg2).2
  | _ => TunnelMain.needsConfigPath

/-- A name as a directory listing returns it: not empty, free of path separators, and
neither `.` nor `..`. -/
def plainName (name : String) : Prop :=
  name.data ≠ [] ∧ (∀ c ∈ name.data, isPathSeparator c = false) ∧ name ≠ "." ∧ name ≠ ".."

instance (name : String) : Decidable (plainName name) := by
  unfold plainName; infer_instance

/-- A directory as `os.UserConfigDir()` returns it on Windows, the value of `%AppData%`: empty
when the variable is not set, else a path written with backslashes (on a drive, on a share
`\\server\share`, a device path). Left out are `.` and `..` and the two paths whose volume name
would take in what is joined to them: the lone root `\` and the device name `\\.\UNC`. -/
def windowsDir (dir : String) : Bool :=
  !dir.data.contains '/' && dir != "." && dir != ".." && dir != "\\" &&
    !(dir.length == 7 && pathHasPrefixFold dir.data ['\\', '\\', '.', '\\', 'U', 'N', 'C'])

/-! ## A control loop among other events -/

/-- The event is a step of control loop `i`. -/
def Event.isLoop (i : Nat) : Event → Bool
  | Event.loop j _ => j == i
  | _ => false

/-- A run in which control loop `i` takes `n` steps: before its step number `k` (counted from
0) the events `(seg k).1` happen, and the operating system answers the step by `(seg k).2`. -/
def segTrace (i : Nat) (seg : Nat → List Event × LoopEnv) : Nat → List Event
  | 0 => []
  | n + 1 => segTrace i seg n ++ ((seg n).1 ++ [Event.loop i (seg n).2])

/-- The state in which control loop `i` takes its step number `k` of the run `segTrace`. -/
def Sup.before (st : Sup) (i : Nat) (seg : Nat → List Event × LoopEnv) (k : Nat) : Sup :=
  (st.run (segTrace i seg k)).run (seg k).1

/-- The goroutine that was `l0` now stands at `pc`, for the same session with the same token
and directory, and has launched `extra` helpers since. -/
def Loop.stands (l0 lk : Loop) (pc : LoopPc) (extra : Nat) : Prop :=
  lk.pc = pc ∧ lk.session = l0.session ∧ lk.elevatedToken = l0.elevatedToken ∧
    lk.dir = l0.dir ∧ lk.launches = l0.launches + extra

/-! ## A helper the shutdown does not reach -/

/-- The event lets helper `pid` live and lets a `proc.Wait()` on it go on waiting: it is not
the exit of that helper, and in a step of a control loop `proc.Wait()` does not fail. -/
def Event.keepsHelper (pid : Nat) : Event → Prop
  | Event.helperExit p _ => p ≠ pid
  | Event.loop _ env => env.waitOk = true
  | _ => True

instance (pid : Nat) (e : Event) : Decidable (e.keepsHelper pid) := by
  cases e <;> unfold Event.keepsHelper <;> infer_instance

/-! ## Concrete states used in examples -/

/-- A service-control manager on which every call succeeds, with no service installed; a
created service is running after `service.Start()`. -/
def healthySCM : SCM :=
  { connectErr := none, executable := .ok "C:\\Program Files\\Nebula\\nebula.exe", services := [],
    openErr := fun _ => none, queryErr := fun _ => none, deleteErr := fun _ => none,
    createErr := fun _ => none, closeErr := fun _ => none,
    startState := SvcState.Running,
    controlStop := fun s => if s.state = SvcState.Stopped then s.state else SvcState.StopPending,
    calls := [] }

/-- A manager with an empty registry and one registered connection (pointer `0`) that holds
the elevated token `0x1f4` and the event pipe `3`. -/
def freshWorld : World :=
  { scm := healthySCM, CurrentTunnels := [], haveQuit := 0,
    heap := [⟨some 3, 0x1f4⟩], managerServices := [0], quitManagersChan := 0 }

/-- As `freshWorld`, with a second registered connection (pointer `1`) without elevated token. -/
def twoConnWorld : World :=
  { freshWorld with heap := [⟨some 3, 0x1f4⟩, ⟨some 4, 0⟩], managerServices := [0, 1] }

/-- Token answers for an administrator under split-token UAC: the session token is not
elevated, its linked token is. -/
def adminToken : TokenEnv :=
  { userToken := .ok 0x2a0, isElevatedOrElevatable := true, tokenUserOk := true,
    lookupAccountOk := true, accTypeIsUser := true, userProfileDirectory := "C:\\Users\\u",
    userIsElevated := false, linkedToken := .ok 0x2a4, linkedIsElevated := true }

/-- An operating system on which every call of the control loop succeeds. -/
def goodEnv : LoopEnv :=
  { token := adminToken, pipe1Ok := true, pipe2Ok := true, pipe3Ok := true, exportOk := true,
    theirReader := 0x300, theirWriter := 0x304, theirEvents := 0x308, theirLogMapping := 0x30c,
    openNullOk := true, startProcessOk := true, waitOk := true }

/-- As `goodEnv`, but the first `os.Pipe()` fails. -/
def pipeFailEnv : LoopEnv := { goodEnv with pipe1Ok := false }

/-- As `goodEnv`, but `os.StartProcess` fails. -/
def startFailEnv : LoopEnv := { goodEnv with startProcessOk := false }

/-- The supervisor at the start of the session enumeration. -/
def freshSup : Sup := Sup.init "C:\\Program Files\\Nebula\\nebula.exe"

/-- Session 1 is found active at start-up, logs off and logs on again before its first
control loop has taken a step. -/
def churnTrace : List Event :=
  [Event.enumerate 1 WtsState.WTSActive, Event.logoff 1, Event.logon 1]

/-- Control loops 0 and 1 each run up to `proc.Wait()`. -/
def launchBothTrace : List Event :=
  List.replicate 10 (Event.loop 0 goodEnv) ++ List.replicate 10 (Event.loop 1 goodEnv)

/-- Session 1 has logged on and its control loop has launched helper 0 and waits for it. -/
def oneHelperSup : Sup :=
  freshSup.run (Event.logon 1 :: List.replicate 10 (Event.loop 0 goodEnv))

/-- As `oneHelperSup`, after helper 0 has terminated by itself with exit code 1. -/
def helperCrashedSup : Sup := oneHelperSup.step (Event.helperExit 0 1)

/-- Session 1 has logged on and its control loop is about to create the pipes of its first
iteration. -/
def atPipesSup : Sup :=
  freshSup.run (Event.logon 1 :: List.replicate 4 (Event.loop 0 goodEnv))

/-- Collaborators of the tray front end for a tunnel without `metadata.json`. -/
def plainUiEnv : UiEnv :=
  { LoadTunnelMetadata := fun _ => none,
    GetControllerInfo := fun _ => .error ⟨"unreachable controller"⟩,
    DoOIDCLogin := fun _ _ => .error ⟨"login failed"⟩,
    CreateTempConfig := fun _ _ _ => none }

/-- A manager whose registry holds the started tunnel `foo` and which has two registered
connections (pointers `0` and `1`), both with an elevated token. -/
def twoElevatedWorld : World :=
  { (Start 0 "C:\\tunnels\\foo" freshWorld).2 with
    heap := [⟨some 3, 0x1f4⟩, ⟨some 5, 0x1f8⟩], managerServices := [0, 1] }

/-- An interleaving of two `Quit` calls in which call 1 reaches the compare-and-swap first. -/
def quitSchedule : List Nat := [0, 1, 1, 0, 1, 0, 0, 1, 1, 0, 0, 1]

/-- The state an iteration of `ServeConn` leaves behind. -/
def Step.world : Step → World
  | Step.next _ _ w => w
  | Step.stop _ _ w => w

/-- As `twoConnWorld`, after a `Quit` call has set `haveQuit`. -/
def quitWorld : World := { twoConnWorld with haveQuit := 1 }

/-- As `oneHelperSup`, after session 1 has logged off: the alive mark is gone, helper 0 has
been killed, and its control loop has not yet returned from `proc.Wait()`, so `procs` still
holds the process. -/
def loggedOffSup : Sup := oneHelperSup.step (Event.logoff 1)

/-- Helper 0 of session 1 exits by itself and its control loop passes the tests of
`stoppingManager` and `aliveSessions` of the next iteration; then the signal of a `Quit`
reaches the main loop, which shuts down; then the control loop goes on to launch a helper. -/
def lateQuitTrace : List Event :=
  Event.helperExit 0 0 :: List.replicate 4 (Event.loop 0 goodEnv) ++
    Event.quitSignal :: List.replicate 7 (Event.loop 0 goodEnv)

/-- The supervisor of `oneHelperSup` after `lateQuitTrace`. -/
def lateHelperSup : Sup := oneHelperSup.run lateQuitTrace

/-- While the control loop sleeps before its next launch (its step 4), session 2 logs on;
nothing else happens between the steps of the loop, and every call succeeds. -/
def logonSeg (k : Nat) : List Event × LoopEnv :=
  if k = 4 then ([Event.logon 2], goodEnv) else ([], goodEnv)

/-! # Theorems -/

/-! ## Helper lemmas on the handlers and the encoder -/

theorem Writer.encode_of_room (wr : Writer) (v : Value) (n : Nat) (h : wr.room = n + 1) :
    wr.encode v = some { out := wr.out ++ [v], room := n } := by
  simp [Writer.encode, h]

theorem Start_of_install_err (s : Nat) (configPath : String) (w : World) (e : GoError) (scm : SCM)
    (h : InstallTunnelService (filepathBase configPath) configPath w.scm = (some e, scm)) :
    Start s configPath w = ((none, some e), { w with scm := scm }) := by
  simp [Start, h]

theorem Start_of_install_ok (s : Nat) (configPath : String) (w : World) (scm : SCM)
    (h : InstallTunnelService (filepathBase configPath) configPath w.scm = (none, scm)) :
    Start s configPath w =
      ((some ⟨configPath, filepathBase configPath, TunnelState.TunnelStarted⟩, none),
        { w with scm := scm,
                 CurrentTunnels := w.CurrentTunnels ++
                   [⟨configPath, filepathBase configPath, TunnelState.TunnelStarted⟩] }) := by
  simp [Start, h]

theorem serveCall_start_fail (s : Nat) (configPath : String) (reader : List Value) (wr : Writer)
    (w : World)
    (h : (InstallTunnelService (filepathBase configPath) configPath w.scm).1 ≠ none) :
    serveCall s (Value.int 0 :: Value.str configPath :: reader) wr w =
      Step.stop Status.panicked wr (Start s configPath w).2 := by
  rcases hI : InstallTunnelService (filepathBase configPath) configPath w.scm with ⟨err, scm⟩
  rw [hI] at h
  cases err with
  | none => exact absurd rfl h
  | some e =>
    simp [serveCall, decodeInt, decodeString, MethodType.toInt,
      Start_of_install_err s configPath w e scm hI]

theorem encodeErr_next (retErr : Option GoError) (reader r1 : List Value) (wr wr1 : Writer)
    (w w1 : World) (h : encodeErr retErr reader wr w = Step.next r1 wr1 w1) : r1 = reader := by
  unfold encodeErr at h
  split at h
  · cases h
  · injection h with h1 _ _
    exact h1.symm

theorem decodeInt_length (reader r1 : List Value) (n : Int) (h : decodeInt reader = some (n, r1)) :
    r1.length + 1 = reader.length := by
  unfold decodeInt at h
  split at h
  · injection h with h; injection h with _ h2; subst h2; simp
  · cases h

theorem decodeString_length (reader r1 : List Value) (n : String)
    (h : decodeString reader = some (n, r1)) : r1.length + 1 = reader.length := by
  unfold decodeString at h
  split at h
  · injection h with h; injection h with _ h2; subst h2; simp
  · cases h

theorem decodeBool_length (reader r1 : List Value) (n : Bool)
    (h : decodeBool reader = some (n, r1)) : r1.length + 1 = reader.length := by
  unfold decodeBool at h
  split at h
  · injection h with h; injection h with _ h2; subst h2; simp
  · cases h

theorem serveCall_next_length (s : Nat) (reader r1 : List Value) (wr wr1 : Writer) (w w1 : World)
    (h : serveCall s reader wr w = Step.next r1 wr1 w1) : r1.length + 2 ≤ reader.length := by
  unfold serveCall at h
  split at h
  · cases h
  · rename_i methodType ra hdi
    have h1 := decodeInt_length _ _ _ hdi
    split at h
    · split at h
      · cases h
      · rename_i configPath rb hds
        have h2 := decodeString_length _ _ _ hds
        split at h
        · cases h
        · split at h
          · cases h
          · have := encodeErr_next _ _ _ _ _ _ _ h
            subst this; omega
    · split at h
      · split at h
        · cases h
        · rename_i configPath rb hds
          have h2 := decodeString_length _ _ _ hds
          have := encodeErr_next _ _ _ _ _ _ _ h
          subst this; omega
      · split at h
        · split at h
          · cases h
          · rename_i configPath rb hds
            have h2 := decodeString_length _ _ _ hds
            have := encodeErr_next _ _ _ _ _ _ _ h
            subst this; omega
        · split at h
          · split at h
            · cases h
            · rename_i configPath rb hds
              have h2 := decodeString_length _ _ _ hds
              split at h
              split at h
              · cases h
              · have := encodeErr_next _ _ _ _ _ _ _ h
                subst this; omega
          · split at h
            · split at h
              · cases h
              · rename_i b rb hds
                have h2 := decodeBool_length _ _ _ hds
                split at h
                · cases h
                · split at h
                  · cases h
                  · have := encodeErr_next _ _ _ _ _ _ _ h
                    subst this; omega
            · cases h

theorem ServeConnLoop_not_exhausted (s : Nat) (fuel : Nat) (reader : List Value) (wr : Writer)
    (w : World) (h : reader.length < fuel) :
    (ServeConnLoop s fuel reader wr w).status ≠ Status.exhausted := by
  induction fuel generalizing reader wr w with
  | zero => omega
  | succ n ih =>
    unfold ServeConnLoop
    split
    · rename_i r1 wr1 w1 hs
      have := serveCall_next_length s reader r1 wr wr1 w w1 hs
      exact ih r1 wr1 w1 (by omega)
    · rename_i st wr1 w1 hs
      simp only
      intro hst
      subst hst
      unfold serveCall at hs
      repeat' split at hs
      all_goals first | cases hs | (unfold encodeErr at hs; split at hs <;> cases hs)

theorem ServeConn_not_exhausted (s : Nat) (reader : List Value) (wr : Writer) (w : World) :
    (ServeConn s reader wr w).status ≠ Status.exhausted :=
  ServeConnLoop_not_exhausted s _ reader wr w (Nat.lt_succ_self _)

/-! ## C1: a failed `Start` on the server side -/

/-- C1 (the code departs from the claim): when `InstallTunnelService` fails for the path of a
Start request, `Start` returns a nil `*Tunnel`, and the iteration of `ServeConn` that serves the
request ends in a panic of the gob encoder: nothing is written to the response stream, neither
a Tunnel payload nor the error string, and the requests that follow are never decoded. -/
theorem C1_failed_start_panics (s : Nat) (configPath : String) (reader : List Value)
    (wr : Writer) (w : World)
    (h : (InstallTunnelService (filepathBase configPath) configPath w.scm).1 ≠ none) :
    (Start s configPath w).1.1 = none ∧
    serveCall s (Value.int MethodType.StartMethodType.toInt :: Value.str configPath :: reader) wr w
      = Step.stop Status.panicked wr (Start s configPath w).2 ∧
    (ServeConn s (Value.int MethodType.StartMethodType.toInt :: Value.str configPath :: reader)
      wr w).status = Status.panicked ∧
    (ServeConn s (Value.int MethodType.StartMethodType.toInt :: Value.str configPath :: reader)
      wr w).wr = wr := by
  have hc := serveCall_start_fail s configPath reader wr w h
  refine ⟨?_, hc, ?_, ?_⟩
  · rcases hI : InstallTunnelService (filepathBase configPath) configPath w.scm with ⟨err, scm⟩
    rw [hI] at h
    cases err with
    | none => exact absurd rfl h
    | some e => rw [Start_of_install_err s configPath w e scm hI]
  · simp only [MethodType.toInt, ServeConn, List.length_cons, ServeConnLoop, hc]
  · simp only [MethodType.toInt, ServeConn, List.length_cons, ServeConnLoop, hc]

/-- C1, at a concrete input: on a manager where the tunnel `foo` has been started and its
service is running, a second Start request for the same path makes `InstallTunnelService`
fail; `ServeConn` panics, writes nothing, and the State request behind it is not served. -/
theorem C1_failed_start_panics_witness :
    (InstallTunnelService (filepathBase "C:\\tunnels\\foo") "C:\\tunnels\\foo"
      (Start 0 "C:\\tunnels\\foo" freshWorld).2.scm).1 ≠ none ∧
    (ServeConn 0 [Value.int 0, Value.str "C:\\tunnels\\foo", Value.int 3, Value.str "foo"]
      ⟨[], 8⟩ (Start 0 "C:\\tunnels\\foo" freshWorld).2).status = Status.panicked ∧
    (ServeConn 0 [Value.int 0, Value.str "C:\\tunnels\\foo", Value.int 3, Value.str "foo"]
      ⟨[], 8⟩ (Start 0 "C:\\tunnels\\foo" freshWorld).2).wr = ⟨[], 8⟩ :=
  ⟨by decide,
    (C1_failed_start_panics 0 "C:\\tunnels\\foo" [Value.int 3, Value.str "foo"] ⟨[], 8⟩
      (Start 0 "C:\\tunnels\\foo" freshWorld).2 (by decide)).2.2⟩

/-! ## C2: client and server agree on the wire format -/

/-- C2: for Start, Stop and Quit, what the client function writes (method tag, argument) is what
one iteration of `ServeConn` reads, and what that iteration writes in reply (payload, then the
error string) is what the client reads, in this order. The server goes on with the rest of the
request stream and the client leaves the rest of the response stream unread, so both are at a
call boundary. For Start and Quit the client returns the handler's result, for Stop and Quit
the handler's error returns as `nil` exactly when its text is empty. Both pipes are assumed to
accept the two values written to them. -/
theorem C2_wire_agreement (s : Nat) (w : World) (wr : Writer) (c : RpcConn)
    (rest more : List Value) (hc : 2 ≤ c.rpcEncoder.room) (hwr : 2 ≤ wr.room) :
    (∀ path t w1, Start s path w = ((some t, none), w1) →
      serveCall s (Value.int MethodType.StartMethodType.toInt :: Value.str path :: rest) wr w
        = Step.next rest ⟨wr.out ++ [Value.tunnel t, Value.str ""], wr.room - 2⟩ w1 ∧
      IPCClientStartTunnel path { c with rpcDecoder := [Value.tunnel t, Value.str ""] ++ more }
        = ((t, none),
           ⟨⟨c.rpcEncoder.out ++ [Value.int MethodType.StartMethodType.toInt, Value.str path],
             c.rpcEncoder.room - 2⟩, more⟩)) ∧
    (∀ tunnelName,
      serveCall s (Value.int MethodType.StopMethodType.toInt :: Value.str tunnelName :: rest) wr w
        = Step.next rest ⟨wr.out ++ [Value.str (errToString (Stop s tunnelName w).1)], wr.room - 1⟩
            (Stop s tunnelName w).2 ∧
      IPCClientStopTunnel tunnelName
          { c with rpcDecoder := [Value.str (errToString (Stop s tunnelName w).1)] ++ more }
        = ((if errToString (Stop s tunnelName w).1 = "" then none
            else some ⟨errToString (Stop s tunnelName w).1⟩),
           ⟨⟨c.rpcEncoder.out ++ [Value.int MethodType.StopMethodType.toInt, Value.str tunnelName],
             c.rpcEncoder.room - 2⟩, more⟩)) ∧
    (∀ stopTunnelsOnQuit alreadyQuit retErr w1,
      Quit s stopTunnelsOnQuit w = (some (alreadyQuit, retErr), w1) →
      serveCall s (Value.int MethodType.QuitMethodType.toInt :: Value.bool stopTunnelsOnQuit :: rest)
          wr w
        = Step.next rest ⟨wr.out ++ [Value.bool alreadyQuit, Value.str (errToString retErr)],
            wr.room - 2⟩ w1 ∧
      IPCClientQuit stopTunnelsOnQuit
          { c with rpcDecoder := [Value.bool alreadyQuit, Value.str (errToString retErr)] ++ more }
        = ((alreadyQuit, if errToString retErr = "" then none else some ⟨errToString retErr⟩),
           ⟨⟨c.rpcEncoder.out ++
               [Value.int MethodType.QuitMethodType.toInt, Value.bool stopTunnelsOnQuit],
             c.rpcEncoder.room - 2⟩, more⟩)) := by
  rcases wr with ⟨out, room⟩
  rcases c with ⟨⟨cout, croom⟩, cdec⟩
  simp only at hc hwr
  obtain ⟨n, rfl⟩ := Nat.exists_eq_add_of_le hwr
  obtain ⟨m, rfl⟩ := Nat.exists_eq_add_of_le hc
  have e2 : 2 + n = (n + 1) + 1 := by omega
  have e3 : 2 + m = (m + 1) + 1 := by omega
  refine ⟨?_, ?_, ?_⟩
  · intro path t w1 hS
    constructor
    · simp [serveCall, decodeInt, decodeString, MethodType.toInt, hS, Writer.encode, encodeErr,
        errToString, e2]
    · simp [IPCClientStartTunnel, RpcConn.encode, Writer.encode, e3, decodeTunnel, rpcDecodeError,
        decodeString, MethodType.toInt]
  · intro tunnelName
    constructor
    · simp [serveCall, decodeInt, decodeString, MethodType.toInt, Writer.encode, encodeErr, e2]
    · simp [IPCClientStopTunnel, RpcConn.encode, Writer.encode, e3, rpcDecodeError,
        decodeString, MethodType.toInt]
      split <;> simp_all
  · intro stopTunnelsOnQuit alreadyQuit retErr w1 hQ
    constructor
    · simp [serveCall, decodeInt, decodeBool, MethodType.toInt, hQ, Writer.encode, encodeErr, e2]
    · simp [IPCClientQuit, RpcConn.encode, Writer.encode, e3, rpcDecodeError, decodeBool,
        decodeString, MethodType.toInt]
      split <;> simp_all

/-- C2, at a concrete input: against the manager `freshWorld`, whose `Start` of
`C:\tunnels\foo` succeeds, `IPCClientStartTunnel` writes the tag `0` and the path, reads the
reply of `ServeConn` and returns the tunnel `foo` in state `TunnelStarted` with a nil error. -/
theorem C2_wire_agreement_witness :
    2 ≤ (RpcConn.mk ⟨[], 4⟩ []).rpcEncoder.room ∧ 2 ≤ (Writer.mk [] 4).room ∧
    serveCall 0 [Value.int 0, Value.str "C:\\tunnels\\foo"] ⟨[], 4⟩ freshWorld
      = Step.next []
          ⟨[Value.tunnel ⟨"C:\\tunnels\\foo", "foo", TunnelState.TunnelStarted⟩, Value.str ""], 2⟩
          (Start 0 "C:\\tunnels\\foo" freshWorld).2 ∧
    IPCClientStartTunnel "C:\\tunnels\\foo"
        ⟨⟨[], 4⟩, [Value.tunnel ⟨"C:\\tunnels\\foo", "foo", TunnelState.TunnelStarted⟩,
                   Value.str ""]⟩
      = ((⟨"C:\\tunnels\\foo", "foo", TunnelState.TunnelStarted⟩, none),
         ⟨⟨[Value.int 0, Value.str "C:\\tunnels\\foo"], 2⟩, []⟩) :=
  ⟨by decide, by decide,
    (C2_wire_agreement 0 freshWorld ⟨[], 4⟩ ⟨⟨[], 4⟩, []⟩ [] [] (by decide) (by decide)).1
      "C:\\tunnels\\foo" ⟨"C:\\tunnels\\foo", "foo", TunnelState.TunnelStarted⟩
      (Start 0 "C:\\tunnels\\foo" freshWorld).2 (Prod.ext (by decide) rfl)⟩

/-! ## C3: `Quit` without an elevated token -/

/-- C3: on a connection whose `elevatedToken` is 0, `Quit` returns
`(false, ERROR_ACCESS_DENIED)` for either value of `stopTunnelsOnQuit` and leaves the whole
state as it was: `haveQuit`, `managerServices`, every event stream, `quitManagersChan` and the
service-control manager with its call log (no tunnel service is uninstalled, no shutdown
signal is sent). The text of the error is not empty, and `ServeConn` replies `false` followed
by that text and goes on with the next request. -/
theorem C3_quit_denied_without_token (s : Nat) (stopTunnelsOnQuit : Bool) (w : World)
    (h : (w.deref s).elevatedToken = 0) :
    Quit s stopTunnelsOnQuit w = (some (false, some ERROR_ACCESS_DENIED), w) ∧
    errToString (some ERROR_ACCESS_DENIED) ≠ "" ∧
    (quitStep ⟨s, stopTunnelsOnQuit, QuitPc.entry, []⟩ w =
      (⟨s, stopTunnelsOnQuit, QuitPc.done false (some ERROR_ACCESS_DENIED), []⟩, w)) ∧
    ∀ (reader : List Value) (wr : Writer), 2 ≤ wr.room →
      serveCall s
          (Value.int MethodType.QuitMethodType.toInt :: Value.bool stopTunnelsOnQuit :: reader) wr w
        = Step.next reader
            ⟨wr.out ++ [Value.bool false, Value.str (errToString (some ERROR_ACCESS_DENIED))],
              wr.room - 2⟩ w := by
  have hQ : Quit s stopTunnelsOnQuit w = (some (false, some ERROR_ACCESS_DENIED), w) := by
    simp [Quit, h]
  refine ⟨hQ, by decide, by simp [quitStep, h], ?_⟩
  intro reader wr hwr
  rcases wr with ⟨out, room⟩
  simp only at hwr
  obtain ⟨n, rfl⟩ := Nat.exists_eq_add_of_le hwr
  have e2 : 2 + n = (n + 1) + 1 := by omega
  simp [serveCall, decodeInt, decodeBool, MethodType.toInt, hQ, Writer.encode, encodeErr, e2]

/-- C3, at a concrete input: connection 1 of `twoConnWorld` has no elevated token, and its
`Quit(true)` is rejected with the state unchanged. -/
theorem C3_quit_denied_without_token_witness :
    (twoConnWorld.deref 1).elevatedToken = 0 ∧
    Quit 1 true twoConnWorld = (some (false, some ERROR_ACCESS_DENIED), twoConnWorld) :=
  ⟨by decide, (C3_quit_denied_without_token 1 true twoConnWorld (by decide)).1⟩

/-! ## Helper lemmas on concurrent `Quit` calls -/

theorem deref_clearEvents_token (w : World) (s p : Nat) :
    ((w.clearEvents s).deref p).elevatedToken = (w.deref p).elevatedToken := by
  simp only [World.deref, World.clearEvents, List.getD_eq_getElem?_getD, List.getElem?_set]
  by_cases hsp : s = p
  · subst hsp
    by_cases hlt : s < w.heap.length
    · simp [hlt]
    · simp [hlt, List.getElem?_eq_none (Nat.le_of_not_lt hlt)]
  · simp [hsp]

theorem quitStep_token (t : QuitCall) (w : World) (p : Nat) :
    ((quitStep t w).2.deref p).elevatedToken = (w.deref p).elevatedToken := by
  unfold quitStep
  split
  · split <;> rfl
  · split <;> rfl
  · exact deref_clearEvents_token w t.s p
  · rfl
  · rfl
  · split <;> rfl
  · rfl

theorem quitStep_tunnels (t : QuitCall) (w : World) :
    (quitStep t w).2.CurrentTunnels = w.CurrentTunnels := by
  unfold quitStep
  split
  · split <;> rfl
  · split <;> rfl
  · rfl
  · rfl
  · rfl
  · split <;> rfl
  · rfl

theorem quitStep_s (t : QuitCall) (w : World) : (quitStep t w).1.s = t.s := by
  unfold quitStep
  split
  · split <;> rfl
  · split <;> rfl
  · rfl
  · rfl
  · rfl
  · split <;> rfl
  · rfl

theorem quitStep_pending_open (t : QuitCall) (w : World) (hp : t.pending)
    (htok : (w.deref t.s).elevatedToken ≠ 0) (hq : w.haveQuit = 0) :
    ((quitStep t w).1.pending ∧ (quitStep t w).2 = w) ∨
    ((quitStep t w).1.pc = QuitPc.deregister ∧ (quitStep t w).2 = { w with haveQuit := 1 }) := by
  obtain ⟨hpc, heff⟩ := hp
  rcases hpc with hpc | hpc
  · left
    simp [quitStep, hpc, htok, QuitCall.pending, heff]
  · right
    simp [quitStep, hpc, hq]

theorem quitStep_pending_closed (t : QuitCall) (w : World) (hp : t.pending)
    (htok : (w.deref t.s).elevatedToken ≠ 0) (hq : w.haveQuit ≠ 0) :
    ((quitStep t w).1.pending ∨ (quitStep t w).1.lost) ∧ (quitStep t w).2 = w := by
  obtain ⟨hpc, heff⟩ := hp
  rcases hpc with hpc | hpc
  · simp [quitStep, hpc, htok, QuitCall.pending, heff]
  · simp [quitStep, hpc, hq, QuitCall.lost, heff]

theorem quitStep_lost (t : QuitCall) (w : World) (hp : t.lost) : quitStep t w = (t, w) := by
  simp [quitStep, hp.1]

theorem quitStep_winning (t : QuitCall) (w : World) (hw : t.winning)
    (hc : t.pc = QuitPc.done false none ∨ w.quitManagersChan = 0) :
    (quitStep t w).1.winning ∧ (quitStep t w).2.haveQuit = w.haveQuit ∧
    ((quitStep t w).1.pc = QuitPc.done false none ∨ (quitStep t w).2.quitManagersChan = 0) := by
  rcases hw with hpc | ⟨todo, hpc⟩ | hpc | hpc
  · rcases hc with hc | hc
    · rw [hpc] at hc; cases hc
    · simp only [quitStep, hpc, QuitCall.winning]
      refine ⟨?_, rfl, Or.inr hc⟩
      cases t.stopTunnelsOnQuit <;> simp
  · rcases hc with hc | hc
    · rw [hpc] at hc; cases hc
    · cases todo with
      | nil => simp [quitStep, hpc, QuitCall.winning, hc]
      | cons tun rest => simp [quitStep, hpc, QuitCall.winning, hc]
  · rcases hc with hc | hc
    · rw [hpc] at hc; cases hc
    · simp [quitStep, hpc, QuitCall.winning, hc]
  · simp [quitStep, hpc, QuitCall.winning]

theorem get_set_cases {α : Type} (l : List α) (i j : Nat) (a u : α)
    (h : (l.set i a)[j]? = some u) : (j = i ∧ u = a) ∨ (j ≠ i ∧ l[j]? = some u) := by
  rw [List.getElem?_set] at h
  by_cases hij : i = j
  · subst hij
    simp only [if_true] at h
    split at h
    · left; exact ⟨rfl, (Option.some.inj h).symm⟩
    · cases h
  · simp only [hij, if_false] at h
    exact Or.inr ⟨fun e => hij e.symm, h⟩

theorem quitStep_todo (t : QuitCall) (w : World) (todo : List Tunnel)
    (hold : ∀ todo0, t.pc = QuitPc.uninstall todo0 → todo0.length ≤ w.CurrentTunnels.length)
    (h : (quitStep t w).1.pc = QuitPc.uninstall todo) :
    todo.length ≤ w.CurrentTunnels.length := by
  unfold quitStep at h
  split at h
  · split at h <;> simp at h
  · split at h <;> simp at h
  · simp only [World.clearEvents, World.unregister] at h
    split at h
    · simp only [QuitPc.uninstall.injEq] at h
      rw [← h]
    · simp at h
  · simp at h
  · rename_i tun rest hpc
    simp only [QuitPc.uninstall.injEq] at h
    have := hold (tun :: rest) hpc
    rw [← h]
    simp only [List.length_cons] at this
    omega
  · split at h
    · simp at h
    · exact hold todo h
  · rename_i a b hpc
    rw [hpc] at h
    cases h

theorem calls_lt_of_get (sys : QuitSys) (i : Nat) (t : QuitCall) (h : sys.calls[i]? = some t) :
    i < sys.calls.length := by
  rcases Nat.lt_or_ge i sys.calls.length with h1 | h1
  · exact h1
  · rw [List.getElem?_eq_none h1] at h; cases h

theorem QuitSys.step_of (sys : QuitSys) (i : Nat) (t : QuitCall) (h : sys.calls[i]? = some t) :
    sys.step i =
      { calls := sys.calls.set i (quitStep t sys.world).1, world := (quitStep t sys.world).2 } := by
  simp [QuitSys.step, h]

theorem QuitSys.step_none (sys : QuitSys) (i : Nat) (h : sys.calls[i]? = none) :
    sys.step i = sys := by
  simp [QuitSys.step, h]

theorem QuitInv_step (sys : QuitSys) (i : Nat) (hinv : QuitInv sys) : QuitInv (sys.step i) := by
  cases hget : sys.calls[i]? with
  | none => rw [QuitSys.step_none sys i hget]; exact hinv
  | some t =>
    rw [QuitSys.step_of sys i t hget]
    obtain ⟨htok, htodo, hmain⟩ := hinv
    have hti := htok i t hget
    refine ⟨?_, ?_, ?_⟩
    · intro j u hu
      simp only at hu
      rw [quitStep_token]
      rcases get_set_cases _ _ _ _ _ hu with ⟨_, rfl⟩ | ⟨_, hold⟩
      · rw [quitStep_s]; exact hti
      · exact htok j u hold
    · intro j u todo hu hpc
      simp only at hu
      simp only [quitStep_tunnels]
      rcases get_set_cases _ _ _ _ _ hu with ⟨_, rfl⟩ | ⟨_, hold⟩
      · exact quitStep_todo t sys.world todo (fun todo0 h0 => htodo i t todo0 hget h0) hpc
      · exact htodo j u todo hold hpc
    · rcases hmain with ⟨hq, hchan, hall⟩ | ⟨hq, i0, t0, hget0, hwin, hc, hothers⟩
      · rcases quitStep_pending_open t sys.world (hall i t hget) hti hq with ⟨hp, hw⟩ | ⟨hp, hw⟩
        · left
          rw [hw]
          refine ⟨hq, hchan, ?_⟩
          intro j u hu
          simp only at hu
          rcases get_set_cases _ _ _ _ _ hu with ⟨_, rfl⟩ | ⟨_, hold⟩
          · exact hp
          · exact hall j u hold
        · right
          rw [hw]
          refine ⟨by simp, i, (quitStep t sys.world).1, ?_, Or.inl hp, Or.inr hchan, ?_⟩
          · simp only
            exact List.getElem?_set_self (calls_lt_of_get sys i t hget)
          · intro j u hji hu
            simp only at hu
            rcases get_set_cases _ _ _ _ _ hu with ⟨e, _⟩ | ⟨_, hold⟩
            · exact absurd e hji
            · exact Or.inl (hall j u hold)
      · right
        by_cases hii : i = i0
        · subst hii
          have ht : t0 = t := by rw [hget] at hget0; exact (Option.some.inj hget0).symm
          subst ht
          obtain ⟨h1, h2, h3⟩ := quitStep_winning t0 sys.world hwin hc
          refine ⟨by simp only; rw [h2]; exact hq, i, (quitStep t0 sys.world).1, ?_, h1, h3, ?_⟩
          · simp only
            exact List.getElem?_set_self (calls_lt_of_get sys i t0 hget)
          · intro j u hji hu
            simp only at hu
            rcases get_set_cases _ _ _ _ _ hu with ⟨e, _⟩ | ⟨_, hold⟩
            · exact absurd e hji
            · exact hothers j u hji hold
        · have hstep : ((quitStep t sys.world).1.pending ∨ (quitStep t sys.world).1.lost) ∧
              (quitStep t sys.world).2 = sys.world := by
            rcases hothers i t hii hget with hp | hl
            · exact quitStep_pending_closed t sys.world hp hti hq
            · rw [quitStep_lost t sys.world hl]; exact ⟨Or.inr hl, rfl⟩
          obtain ⟨hpl, hw⟩ := hstep
          rw [hw]
          refine ⟨hq, i0, t0, ?_, hwin, hc, ?_⟩
          · simp only
            rw [List.getElem?_set_ne hii]; exact hget0
          · intro j u hji hu
            simp only at hu
            rcases get_set_cases _ _ _ _ _ hu with ⟨_, rfl⟩ | ⟨_, hold⟩
            · exact hpl
            · exact hothers j u hji hold

theorem QuitInv_run (schedule : List Nat) (sys : QuitSys) (hinv : QuitInv sys) :
    QuitInv (sys.run schedule) := by
  induction schedule generalizing sys with
  | nil => exact hinv
  | cons i rest ih => exact ih (sys.step i) (QuitInv_step sys i hinv)

theorem QuitInv_init (args : List (Nat × Bool)) (w : World) (hq : w.haveQuit = 0)
    (hchan : w.quitManagersChan = 0) (htok : ∀ a ∈ args, (w.deref a.1).elevatedToken ≠ 0) :
    QuitInv (QuitSys.init args w) := by
  have hget : ∀ (j : Nat) (t : QuitCall), (QuitSys.init args w).calls[j]? = some t →
      ∃ a ∈ args, t = QuitCall.init a := by
    intro j t h
    simp only [QuitSys.init, List.getElem?_map, Option.map_eq_some'] at h
    obtain ⟨a, ha, rfl⟩ := h
    exact ⟨a, List.getElem?_mem ha, rfl⟩
  refine ⟨?_, ?_, Or.inl ⟨hq, hchan, ?_⟩⟩
  · intro j t h
    obtain ⟨a, ha, rfl⟩ := hget j t h
    exact htok a ha
  · intro j t todo h hpc
    obtain ⟨a, ha, rfl⟩ := hget j t h
    simp [QuitCall.init] at hpc
  · intro j t h
    obtain ⟨a, ha, rfl⟩ := hget j t h
    simp [QuitCall.init, QuitCall.pending]

theorem QuitInv_send_chan (sys : QuitSys) (hinv : QuitInv sys) (i : Nat) (t : QuitCall)
    (hget : sys.calls[i]? = some t) (hpc : t.pc = QuitPc.send) :
    sys.world.quitManagersChan = 0 := by
  obtain ⟨_, _, hmain⟩ := hinv
  rcases hmain with ⟨_, hchan, _⟩ | ⟨_, i0, t0, hget0, _, hc, hothers⟩
  · exact hchan
  · by_cases hii : i = i0
    · subst hii
      have ht : t0 = t := by rw [hget] at hget0; exact (Option.some.inj hget0).symm
      subst ht
      rcases hc with hc | hc
      · rw [hpc] at hc; cases hc
      · exact hc
    · rcases hothers i t hii hget with ⟨hp | hp, _⟩ | ⟨hp, _⟩ <;> (rw [hpc] at hp; cases hp)

theorem stepsLeft_step (sys : QuitSys) (hinv : QuitInv sys) (i : Nat) (t : QuitCall)
    (hget : sys.calls[i]? = some t) :
    (quitStep t sys.world).1.stepsLeft sys.world.CurrentTunnels.length
      ≤ t.stepsLeft sys.world.CurrentTunnels.length - 1 := by
  have htok := hinv.1 i t hget
  have htodo := hinv.2.1 i t
  have hsend := QuitInv_send_chan sys hinv i t hget
  cases hpc : t.pc with
  | entry => simp [quitStep, hpc, htok, QuitCall.stepsLeft]
  | cas =>
    by_cases hq : sys.world.haveQuit = 0
    · simp [quitStep, hpc, hq, QuitCall.stepsLeft]
    · simp [quitStep, hpc, hq, QuitCall.stepsLeft]
  | deregister =>
    cases hb : t.stopTunnelsOnQuit
    · simp [quitStep, hpc, hb, QuitCall.stepsLeft]
    · simp [quitStep, hpc, hb, QuitCall.stepsLeft, World.clearEvents, World.unregister]
  | uninstall todo =>
    cases todo with
    | nil => simp [quitStep, hpc, QuitCall.stepsLeft]
    | cons tun rest => simp [quitStep, hpc, QuitCall.stepsLeft]
  | send => simp [quitStep, hpc, hsend hpc, QuitCall.stepsLeft]
  | done a e => simp [quitStep, hpc, QuitCall.stepsLeft]

theorem QuitSys.step_tunnels (sys : QuitSys) (i : Nat) :
    (sys.step i).world.CurrentTunnels = sys.world.CurrentTunnels := by
  cases hget : sys.calls[i]? with
  | none => rw [QuitSys.step_none sys i hget]
  | some t => rw [QuitSys.step_of sys i t hget]; exact quitStep_tunnels t sys.world

theorem QuitSys.run_cons (sys : QuitSys) (i : Nat) (rest : List Nat) :
    sys.run (i :: rest) = (sys.step i).run rest := rfl

theorem run_stepsLeft (schedule : List Nat) (sys : QuitSys) (hinv : QuitInv sys) (i : Nat)
    (t0 : QuitCall) (h0 : sys.calls[i]? = some t0) :
    ∃ t, (sys.run schedule).calls[i]? = some t ∧
      t.stepsLeft sys.world.CurrentTunnels.length
        ≤ t0.stepsLeft sys.world.CurrentTunnels.length - schedule.count i := by
  induction schedule generalizing sys t0 with
  | nil => exact ⟨t0, h0, by simp⟩
  | cons j rest ih =>
    rw [QuitSys.run_cons]
    have hinv1 := QuitInv_step sys j hinv
    have htun := QuitSys.step_tunnels sys j
    by_cases hji : j = i
    · subst hji
      have h1 : (sys.step j).calls[j]? = some (quitStep t0 sys.world).1 := by
        rw [QuitSys.step_of sys j t0 h0]
        exact List.getElem?_set_self (calls_lt_of_get sys j t0 h0)
      obtain ⟨t, ht, hle⟩ := ih (sys.step j) hinv1 _ h1
      refine ⟨t, ht, ?_⟩
      rw [htun] at hle
      have hs := stepsLeft_step sys hinv j t0 h0
      simp only [List.count_cons_self]
      omega
    · have h1 : (sys.step j).calls[i]? = some t0 := by
        cases hget : sys.calls[j]? with
        | none => rw [QuitSys.step_none sys j hget]; exact h0
        | some tj =>
          rw [QuitSys.step_of sys j tj hget]
          simp only
          rw [List.getElem?_set_ne hji]; exact h0
      obtain ⟨t, ht, hle⟩ := ih (sys.step j) hinv1 _ h1
      refine ⟨t, ht, ?_⟩
      rw [htun] at hle
      rw [List.count_cons_of_ne (fun e => hji e.symm)]
      exact hle

theorem stepsLeft_zero (n : Nat) (t : QuitCall) (h : t.stepsLeft n = 0) :
    ∃ a e, t.pc = QuitPc.done a e := by
  cases hpc : t.pc with
  | done a e => exact ⟨a, e, rfl⟩
  | _ => simp [QuitCall.stepsLeft, hpc] at h

theorem QuitSys.step_length (sys : QuitSys) (i : Nat) :
    (sys.step i).calls.length = sys.calls.length := by
  cases hget : sys.calls[i]? with
  | none => rw [QuitSys.step_none sys i hget]
  | some t => rw [QuitSys.step_of sys i t hget]; simp

theorem QuitSys.run_length (schedule : List Nat) (sys : QuitSys) :
    (sys.run schedule).calls.length = sys.calls.length := by
  induction schedule generalizing sys with
  | nil => rfl
  | cons i rest ih => rw [QuitSys.run_cons, ih, QuitSys.step_length]

theorem QuitSys.run_init_lt (args : List (Nat × Bool)) (w : World) (schedule : List Nat) (i : Nat)
    (t : QuitCall) (h : ((QuitSys.init args w).run schedule).calls[i]? = some t) :
    i < args.length := by
  have h1 := calls_lt_of_get _ i t h
  rw [QuitSys.run_length] at h1
  simpa [QuitSys.init] using h1

/-! ## C4: `Quit` is idempotent under every interleaving -/

/-- C4: any number of `Quit` calls by connections with a non-zero `elevatedToken` run
concurrently from `haveQuit = 0`, stepped in the order given by an arbitrary schedule. At every
moment at most one call has returned `alreadyQuit = false`, and a call that has returned has
returned either `(false, nil)` or `(true, nil)`, the latter without deregistration, uninstall
or shutdown signal. When the collection is not empty and the schedule lets every call take as
many steps as it needs, every call has returned, exactly one of them `(false, nil)` and every
other one `(true, nil)` without any effect. -/
theorem C4_quit_exactly_one_winner (args : List (Nat × Bool)) (w : World) (schedule : List Nat)
    (hq : w.haveQuit = 0) (hchan : w.quitManagersChan = 0)
    (htok : ∀ a ∈ args, (w.deref a.1).elevatedToken ≠ 0) :
    (∀ (i j : Nat) (t u : QuitCall) (e1 e2 : Option GoError),
      ((QuitSys.init args w).run schedule).calls[i]? = some t →
      ((QuitSys.init args w).run schedule).calls[j]? = some u →
      t.pc = QuitPc.done false e1 → u.pc = QuitPc.done false e2 → i = j) ∧
    (∀ (j : Nat) (u : QuitCall) (a : Bool) (e : Option GoError),
      ((QuitSys.init args w).run schedule).calls[j]? = some u → u.pc = QuitPc.done a e →
      (a = false ∧ e = none) ∨ (a = true ∧ e = none ∧ u.effects = [])) ∧
    (args ≠ [] →
      (∀ i, i < args.length → w.CurrentTunnels.length + 5 ≤ schedule.count i) →
      (∀ j, j < args.length →
        ∃ u, ((QuitSys.init args w).run schedule).calls[j]? = some u ∧ u.isDone = true) ∧
      ∃ (i : Nat) (t : QuitCall),
        ((QuitSys.init args w).run schedule).calls[i]? = some t ∧
        t.pc = QuitPc.done false none ∧
        ∀ (j : Nat) (u : QuitCall), j ≠ i →
          ((QuitSys.init args w).run schedule).calls[j]? = some u →
          u.pc = QuitPc.done true none ∧ u.effects = []) := by
  have hinit := QuitInv_init args w hq hchan htok
  have hinv := QuitInv_run schedule _ hinit
  obtain ⟨_, _, hmain⟩ := hinv
  -- what a returned call looks like under the invariant
  have hdone : ∀ (j : Nat) (u : QuitCall) (a : Bool) (e : Option GoError),
      ((QuitSys.init args w).run schedule).calls[j]? = some u → u.pc = QuitPc.done a e →
      (a = false ∧ e = none ∧ ∃ t0, (∀ (k : Nat) (v : QuitCall), k ≠ j →
          ((QuitSys.init args w).run schedule).calls[k]? = some v → v.pending ∨ v.lost) ∧ t0 = u) ∨
      (a = true ∧ e = none ∧ u.effects = []) := by
    intro j u a e hu hpc
    rcases hmain with ⟨_, _, hall⟩ | ⟨_, i0, t0, hget0, hwin, _, hothers⟩
    · rcases (hall j u hu).1 with h | h <;> (rw [hpc] at h; cases h)
    · by_cases hji : j = i0
      · subst hji
        have ht : t0 = u := by rw [hu] at hget0; exact (Option.some.inj hget0).symm
        subst ht
        rcases hwin with h | ⟨todo, h⟩ | h | h <;> rw [hpc] at h
        · cases h
        · cases h
        · cases h
        · injection h with h1 h2
          exact Or.inl ⟨h1, h2, t0, hothers, rfl⟩
      · rcases hothers j u hji hu with ⟨h | h, _⟩ | ⟨h, heff⟩
        · rw [hpc] at h; cases h
        · rw [hpc] at h; cases h
        · rw [hpc] at h
          injection h with h1 h2
          exact Or.inr ⟨h1, h2, heff⟩
  refine ⟨?_, ?_, ?_⟩
  · intro i j t u e1 e2 ht hu hpt hpu
    rcases hdone i t false e1 ht hpt with ⟨_, _, _, hoth, _⟩ | ⟨h, _⟩
    · by_contra hij
      rcases hoth j u (fun e => hij e.symm) hu with ⟨h | h, _⟩ | ⟨h, _⟩ <;>
        (rw [hpu] at h; cases h)
    · cases h
  · intro j u a e hu hpc
    rcases hdone j u a e hu hpc with ⟨h1, h2, _⟩ | h
    · exact Or.inl ⟨h1, h2⟩
    · exact Or.inr h
  · intro hne hfair
    have hall : ∀ j, j < args.length →
        ∃ u, ((QuitSys.init args w).run schedule).calls[j]? = some u ∧ u.isDone = true := by
      intro j hj
      have h0 : (QuitSys.init args w).calls[j]? = some (QuitCall.init args[j]) := by
        simp [QuitSys.init, hj]
      obtain ⟨u, hu, hle⟩ := run_stepsLeft schedule _ hinit j _ h0
      have hf := hfair j hj
      have hz : u.stepsLeft w.CurrentTunnels.length = 0 := by
        have : (QuitCall.init args[j]).stepsLeft w.CurrentTunnels.length
            = w.CurrentTunnels.length + 5 := rfl
        simp only [QuitSys.init] at hle
        omega
      obtain ⟨a, e, hpc⟩ := stepsLeft_zero _ u hz
      exact ⟨u, hu, by simp [QuitCall.isDone, hpc]⟩
    refine ⟨hall, ?_⟩
    have hpos : 0 < args.length := List.length_pos.mpr hne
    rcases hmain with ⟨_, _, hpend⟩ | ⟨_, i0, t0, hget0, hwin, _, hothers⟩
    · obtain ⟨u, hu, hd⟩ := hall 0 hpos
      rcases (hpend 0 u hu).1 with h | h <;> simp [QuitCall.isDone, h] at hd
    · have hi0 : i0 < args.length := QuitSys.run_init_lt args w schedule i0 t0 hget0
      obtain ⟨u, hu, hd⟩ := hall i0 hi0
      have ht : t0 = u := by rw [hu] at hget0; exact (Option.some.inj hget0).symm
      subst ht
      refine ⟨i0, t0, hget0, ?_, ?_⟩
      · rcases hwin with h | ⟨todo, h⟩ | h | h
        · simp [QuitCall.isDone, h] at hd
        · simp [QuitCall.isDone, h] at hd
        · simp [QuitCall.isDone, h] at hd
        · exact h
      · intro j u hji hu
        have hj : j < args.length := QuitSys.run_init_lt args w schedule j u hu
        obtain ⟨u2, hu2, hd2⟩ := hall j hj
        have : u2 = u := by rw [hu] at hu2; exact (Option.some.inj hu2).symm
        subst this
        rcases hothers j u2 hji hu with ⟨h | h, _⟩ | h
        · simp [QuitCall.isDone, h] at hd2
        · simp [QuitCall.isDone, h] at hd2
        · exact h

/-- C4, at a concrete input: two connections with elevated tokens call `Quit(true)`
concurrently on a registry that holds one tunnel; under the interleaving `quitSchedule` one
call returns `(false, nil)` and the other `(true, nil)` without effect. -/
theorem C4_quit_exactly_one_winner_witness :
    twoElevatedWorld.haveQuit = 0 ∧ twoElevatedWorld.quitManagersChan = 0 ∧
    (∀ a ∈ [(0, true), (1, true)], (twoElevatedWorld.deref a.1).elevatedToken ≠ 0) ∧
    (∀ i, i < [(0, true), (1, true)].length →
      twoElevatedWorld.CurrentTunnels.length + 5 ≤ quitSchedule.count i) ∧
    ∃ (i : Nat) (t : QuitCall),
      ((QuitSys.init [(0, true), (1, true)] twoElevatedWorld).run quitSchedule).calls[i]? = some t ∧
      t.pc = QuitPc.done false none ∧
      ∀ (j : Nat) (u : QuitCall), j ≠ i →
        ((QuitSys.init [(0, true), (1, true)] twoElevatedWorld).run quitSchedule).calls[j]? = some u →
        u.pc = QuitPc.done true none ∧ u.effects = [] :=
  ⟨by decide, by decide, by decide, by decide,
    ((C4_quit_exactly_one_winner [(0, true), (1, true)] twoElevatedWorld quitSchedule (by decide)
      (by decide) (by decide)).2.2 (by decide) (by decide)).2⟩

/-! ## Helper lemmas on the session supervisor -/

theorem loopStep_of (st : Sup) (i : Nat) (env : LoopEnv) (l : Loop) (h : st.loops[i]? = some l) :
    st.loopStep i env = st.loopBody i env l := by
  simp [Sup.loopStep, h]

theorem runLoop_succ (st : Sup) (i : Nat) (env : LoopEnv) (n : Nat) :
    st.runLoop i env (n + 1) = (st.loopStep i env).runLoop i env n := rfl

theorem runLoop_zero (st : Sup) (i : Nat) (env : LoopEnv) : st.runLoop i env 0 = st := rfl

theorem closeConn_loops (st : Sup) (c : Option Nat) : (st.closeConn c).loops = st.loops := by
  unfold Sup.closeConn
  cases c with
  | none => rfl
  | some k => simp only []; split <;> rfl

theorem closeConn_stoppingManager (st : Sup) (c : Option Nat) :
    (st.closeConn c).stoppingManager = st.stoppingManager := by
  unfold Sup.closeConn
  cases c with
  | none => rfl
  | some k => simp only []; split <;> rfl

theorem closeConn_aliveSessions (st : Sup) (c : Option Nat) :
    (st.closeConn c).aliveSessions = st.aliveSessions := by
  unfold Sup.closeConn
  cases c with
  | none => rfl
  | some k => simp only []; split <;> rfl

theorem closeConn_os (st : Sup) (c : Option Nat) : (st.closeConn c).os = st.os := by
  unfold Sup.closeConn
  cases c with
  | none => rfl
  | some k => simp only []; split <;> rfl

theorem loops_lt_of_get (st : Sup) (i : Nat) (l : Loop) (h : st.loops[i]? = some l) :
    i < st.loops.length := by
  rcases Nat.lt_or_ge i st.loops.length with h1 | h1
  · exact h1
  · rw [List.getElem?_eq_none h1] at h; cases h

theorem closeConn_path (st : Sup) (c : Option Nat) : (st.closeConn c).path = st.path := by
  unfold Sup.closeConn
  cases c with
  | none => rfl
  | some k => simp only []; split <;> rfl

theorem closeConn_procs (st : Sup) (c : Option Nat) : (st.closeConn c).procs = st.procs := by
  unfold Sup.closeConn
  cases c with
  | none => rfl
  | some k => simp only []; split <;> rfl

theorem closeConn_mainPc (st : Sup) (c : Option Nat) : (st.closeConn c).mainPc = st.mainPc := by
  unfold Sup.closeConn
  cases c with
  | none => rfl
  | some k => simp only []; split <;> rfl

theorem closeConn_conns_length (st : Sup) (c : Option Nat) :
    (st.closeConn c).conns.length = st.conns.length := by
  unfold Sup.closeConn
  cases c with
  | none => rfl
  | some k => simp only []; split <;> simp
theorem kill_loops (st : Sup) (pid : Nat) : (st.kill pid).loops = st.loops := by
  unfold Sup.kill
  split
  · rfl
  · split <;> rfl

theorem killAll_loops (st : Sup) : st.killAll.loops = st.loops := by
  unfold Sup.killAll
  generalize st.procs = ps
  induction ps generalizing st with
  | nil => rfl
  | cons e rest ih => simp only [List.foldl_cons]; rw [ih, kill_loops]

theorem loopBody_loops_other (st : Sup) (i j : Nat) (env : LoopEnv) (l : Loop) (h : j ≠ i) :
    (st.loopBody j env l).loops[i]? = st.loops[i]? := by
  unfold Sup.loopBody
  split <;> (try split) <;> (try split) <;>
    simp [Sup.setLoop, Sup.deleteAlive, Sup.deleteProc, Sup.setProc, closeConn_loops, h]

theorem exited_step (st : Sup) (i : Nat) (l : Loop) (e : Event)
    (hl : st.loops[i]? = some l) (hpc : l.pc = LoopPc.exited) :
    (st.step e).loops[i]? = some l := by
  have hi := loops_lt_of_get st i l hl
  cases e with
  | enumerate session state =>
    simp only [Sup.step, Sup.sessionActive, Sup.goStartProcess]
    repeat' split
    all_goals simp [hl, List.getElem?_append_left, hi]
  | logon session =>
    simp only [Sup.step, Sup.sessionActive, Sup.goStartProcess]
    repeat' split
    all_goals simp [hl, List.getElem?_append_left, hi]
  | logoff session =>
    simp only [Sup.step, Sup.sessionLogoff]
    repeat' split
    all_goals simp [hl, kill_loops, Sup.deleteAlive]
  | quitSignal =>
    simp only [Sup.step, Sup.shutdown]
    split
    · rw [killAll_loops]; exact hl
    · exact hl
  | svcStop =>
    simp only [Sup.step, Sup.shutdown]
    split
    · rw [killAll_loops]; exact hl
    · exact hl
  | join =>
    simp only [Sup.step]
    repeat' split
    all_goals simp [hl]
  | loop j env =>
    simp only [Sup.step, Sup.loopStep]
    by_cases hji : j = i
    · subst hji
      simp [hl, Sup.loopBody, hpc]
    · cases hj : st.loops[j]? with
      | none => simpa using hl
      | some l2 => simp only []; rw [loopBody_loops_other st i j env l2 hji]; exact hl
  | helperExit pid exitCode =>
    simp only [Sup.step]
    repeat' split
    all_goals simp [hl]

theorem exited_run (trace : List Event) (st : Sup) (i : Nat) (l : Loop)
    (hl : st.loops[i]? = some l) (hpc : l.pc = LoopPc.exited) :
    (st.run trace).loops[i]? = some l := by
  induction trace generalizing st with
  | nil => exact hl
  | cons e rest ih =>
    show ((st.step e).run rest).loops[i]? = some l
    exact ih (st.step e) (exited_step st i l e hl hpc)

/-! ## C5: at most one live helper per session -/

/-- C5 (the code departs from the claim): session 1 is found active at start-up, logs off and
logs on again before its first control loop has registered a process in `procs`. The logoff
clears the alive mark, `procs` has no entry for the session, and the logon starts a second
control loop: two control loops run for session 1. Both find the session alive and launch a
helper: two live helper processes and two open connections for one session, while `procs`
holds the single entry that the later loop wrote over the earlier one. -/
theorem C5_two_loops_for_one_session :
    (freshSup.run churnTrace).runningLoops 1 = 2 ∧
    (freshSup.run (churnTrace ++ launchBothTrace)).runningLoops 1 = 2 ∧
    (freshSup.run (churnTrace ++ launchBothTrace)).liveHelpers 1 = 2 ∧
    (freshSup.run (churnTrace ++ launchBothTrace)).liveConns 1 = 2 ∧
    (freshSup.run (churnTrace ++ launchBothTrace)).procEntries 1 = 1 := by
  decide

/-! ## C7: a launch error -/

/-- C7, counterexample to the claim as stated: the control loop of session 1 is in its first
iteration, the manager is not stopping, and the first `os.Pipe()` fails. The loop returns; it
has neither slept nor launched, and twenty further turns on an operating system where
everything succeeds change nothing: there is no retry. -/
theorem C7_counterexample_no_retry :
    atPipesSup.loops[0]? = some ⟨1, LoopPc.pipes, false, 0x2a4, "C:\\Users\\u", none, 0, 0⟩ ∧
    atPipesSup.stoppingManager = false ∧
    (atPipesSup.runLoop 0 pipeFailEnv 2).loops[0]?
      = some ⟨1, LoopPc.exited, false, 0x2a4, "C:\\Users\\u", none, 0, 0⟩ ∧
    ((atPipesSup.runLoop 0 pipeFailEnv 2).runLoop 0 goodEnv 20).loops[0]?
      = some ⟨1, LoopPc.exited, false, 0x2a4, "C:\\Users\\u", none, 0, 0⟩ ∧
    ((atPipesSup.runLoop 0 pipeFailEnv 2).runLoop 0 goodEnv 20).os = [] := by
  decide

/-- C7 (amended): a launch error ends the session's control loop. When pipe creation, the
export of the log handle, opening the NUL file or process creation fails, the loop returns
within two steps: it has not slept and not launched (its counters are unchanged), its deferred
function has removed the session from `aliveSessions`, and whatever happens afterwards the
loop stays returned, so the launch is not retried. -/
theorem C7_launch_error_ends_loop (st : Sup) (i : Nat) (l : Loop) (env : LoopEnv)
    (hl : st.loops[i]? = some l)
    (hfail : (l.pc = LoopPc.pipes ∧ (env.pipe1Ok && env.pipe2Ok && env.pipe3Ok) = false) ∨
             (l.pc = LoopPc.exportLog ∧ env.exportOk = false) ∨
             (l.pc = LoopPc.openNull ∧ env.openNullOk = false) ∨
             (l.pc = LoopPc.launch ∧ env.startProcessOk = false)) :
    (st.runLoop i env 2).loops[i]? = some { l with pc := LoopPc.exited } ∧
    l.session ∉ (st.runLoop i env 2).aliveSessions ∧
    ∀ trace : List Event,
      ((st.runLoop i env 2).run trace).loops[i]? = some { l with pc := LoopPc.exited } := by
  have hi := loops_lt_of_get st i l hl
  have key : (st.runLoop i env 2).loops[i]? = some { l with pc := LoopPc.exited } ∧
      l.session ∉ (st.runLoop i env 2).aliveSessions := by
    rcases hfail with ⟨hpc, h⟩ | ⟨hpc, h⟩ | ⟨hpc, h⟩ | ⟨hpc, h⟩ <;>
    simp [runLoop_succ, runLoop_zero, Sup.loopStep, Sup.loopBody, Sup.setLoop, Sup.deleteAlive,
      closeConn_loops, closeConn_aliveSessions, hl, hpc, h, hi]
  exact ⟨key.1, key.2, fun trace => exited_run trace _ i _ key.1 rfl⟩

/-- C7, at a concrete input: `os.StartProcess` fails in the first iteration of the control
loop of session 1; the loop returns and the session is no longer marked alive. -/
theorem C7_launch_error_ends_loop_witness :
    (atPipesSup.runLoop 0 goodEnv 4).loops[0]?
      = some ⟨1, LoopPc.launch, false, 0x2a4, "C:\\Users\\u", some 0, 0, 0⟩ ∧
    (LoopPc.launch = LoopPc.launch ∧ startFailEnv.startProcessOk = false) ∧
    (((atPipesSup.runLoop 0 goodEnv 4).runLoop 0 startFailEnv 2).loops[0]?
      = some ⟨1, LoopPc.exited, false, 0x2a4, "C:\\Users\\u", some 0, 0, 0⟩ ∧
     1 ∉ ((atPipesSup.runLoop 0 goodEnv 4).runLoop 0 startFailEnv 2).aliveSessions) :=
  ⟨by decide, by decide,
    let h := C7_launch_error_ends_loop (atPipesSup.runLoop 0 goodEnv 4) 0
      ⟨1, LoopPc.launch, false, 0x2a4, "C:\\Users\\u", some 0, 0, 0⟩ startFailEnv (by decide)
      (Or.inr (Or.inr (Or.inr ⟨rfl, rfl⟩)))
    ⟨h.1, h.2.1⟩⟩

/-! ## C8: `State` after a successful `Start` -/

/-- C8, counterexample to the claim as stated: on `freshWorld` the request
`Start("C:\tunnels\foo")` succeeds and is answered with the tunnel `foo` in state
`TunnelStarted` and the empty error string; the State request for `foo` that follows is
answered with `2`, which is `TunnelStopped`, not `TunnelStarted`. -/
theorem C8_counterexample_state_after_start :
    (Start 0 "C:\\tunnels\\foo" freshWorld).1 =
      (some ⟨"C:\\tunnels\\foo", "foo", TunnelState.TunnelStarted⟩, none) ∧
    filepathBase "C:\\tunnels\\foo" = "foo" ∧
    (State 0 "foo" (Start 0 "C:\\tunnels\\foo" freshWorld).2).1 ≠ (TunnelState.TunnelStarted, none) ∧
    (ServeConn 0 [Value.int 0, Value.str "C:\\tunnels\\foo", Value.int 3, Value.str "foo"] ⟨[], 8⟩
        freshWorld).wr.out
      = [Value.tunnel ⟨"C:\\tunnels\\foo", "foo", TunnelState.TunnelStarted⟩, Value.str "",
         Value.int TunnelState.TunnelStopped.toInt, Value.str ""] := by
  decide

/-- C8 (amended): a State request is answered with `TunnelStopped` and the empty error string
for every tunnel name and in every state of the manager, which it leaves unchanged; in
particular the State request for `filepath.Base(configPath)` that follows `Start(configPath)`
is answered with `TunnelStopped`. The response pipe is assumed to accept the two values. -/
theorem C8_state_always_stopped (s : Nat) (tunnelName configPath : String) (w : World)
    (reader : List Value) (wr : Writer) (hwr : 2 ≤ wr.room) :
    State s tunnelName w = ((TunnelState.TunnelStopped, none), w) ∧
    serveCall s (Value.int MethodType.StateMethodType.toInt :: Value.str tunnelName :: reader) wr w
      = Step.next reader
          ⟨wr.out ++ [Value.int TunnelState.TunnelStopped.toInt, Value.str ""], wr.room - 2⟩ w ∧
    serveCall s
        (Value.int MethodType.StateMethodType.toInt :: Value.str (filepathBase configPath) :: reader)
        wr (Start s configPath w).2
      = Step.next reader
          ⟨wr.out ++ [Value.int TunnelState.TunnelStopped.toInt, Value.str ""], wr.room - 2⟩
          (Start s configPath w).2 := by
  rcases wr with ⟨out, room⟩
  simp only at hwr
  obtain ⟨n, rfl⟩ := Nat.exists_eq_add_of_le hwr
  have e2 : 2 + n = (n + 1) + 1 := by omega
  refine ⟨rfl, ?_, ?_⟩ <;>
  simp [serveCall, decodeInt, decodeString, MethodType.toInt, State, Writer.encode, encodeErr,
    errToString, e2, TunnelState.toInt]

/-- C8, at a concrete input: after `Start("C:\tunnels\foo")` on `freshWorld`, the State request
for `foo` is answered with `TunnelStopped` and the empty error string. -/
theorem C8_state_always_stopped_witness :
    2 ≤ (Writer.mk [] 4).room ∧
    serveCall 0 [Value.int 3, Value.str "foo"] ⟨[], 4⟩ (Start 0 "C:\\tunnels\\foo" freshWorld).2
      = Step.next [] ⟨[Value.int 2, Value.str ""], 2⟩ (Start 0 "C:\\tunnels\\foo" freshWorld).2 :=
  ⟨by decide,
    (C8_state_always_stopped 0 "foo" "C:\\tunnels\\foo" (Start 0 "C:\\tunnels\\foo" freshWorld).2
      [] ⟨[], 4⟩ (by decide)).2.1⟩

/-! ## C9: tunnel names in the registry -/

theorem loadTunnelConfigsLoop_namesUnique (dir : String) (files : List DirEntry)
    (cur : List Tunnel) (h : namesUnique cur) :
    namesUnique (loadTunnelConfigsLoop dir files cur) := by
  induction files generalizing cur with
  | nil => exact h
  | cons f rest ih =>
    unfold loadTunnelConfigsLoop
    split
    · split
      · exact ih cur h
      · rename_i hany
        apply ih
        unfold namesUnique at h ⊢
        simp only [List.map_append, List.map_cons, List.map_nil]
        rw [List.nodup_append]
        refine ⟨h, List.nodup_singleton _, ?_⟩
        intro a ha hb
        simp only [List.mem_singleton] at hb
        subst hb
        apply hany
        simp only [List.mem_map] at ha
        obtain ⟨t, ht, hname⟩ := ha
        simp only [List.any_eq_true, beq_iff_eq]
        exact ⟨t, ht, hname⟩
    · exact ih cur h

/-- C9 (the code departs from the claim): starting from the empty registry of `freshWorld`,
`Start("C:\tunnels\foo")`, `Stop("foo")` and `Start("C:\tunnels\foo")` again all succeed, and
the second `Start` appends a second entry named `foo` instead of reactivating the first; the
same happens when `Start` is called for a tunnel that `LoadTunnelConfigs` has discovered.
`LoadTunnelConfigs` itself skips a directory whose name is registered. -/
theorem C9_duplicate_name_after_restart :
    namesUnique freshWorld.CurrentTunnels ∧
    (runOps [RegistryOp.start "C:\\tunnels\\foo", RegistryOp.stop "foo",
        RegistryOp.start "C:\\tunnels\\foo"] freshWorld).CurrentTunnels
      = [⟨"C:\\tunnels\\foo", "foo", TunnelState.TunnelStarted⟩,
         ⟨"C:\\tunnels\\foo", "foo", TunnelState.TunnelStarted⟩] ∧
    ¬ namesUnique (runOps [RegistryOp.start "C:\\tunnels\\foo", RegistryOp.stop "foo",
        RegistryOp.start "C:\\tunnels\\foo"] freshWorld).CurrentTunnels ∧
    ¬ namesUnique (runOps [RegistryOp.load "C:\\Users\\u\\AppData\\Roaming" [⟨"foo", true⟩],
        RegistryOp.start "C:\\Users\\u\\AppData\\Roaming/Nebula/foo"] freshWorld).CurrentTunnels ∧
    namesUnique (runOps [RegistryOp.load "C:\\Users\\u\\AppData\\Roaming" [⟨"foo", true⟩],
        RegistryOp.load "C:\\Users\\u\\AppData\\Roaming" [⟨"foo", true⟩]] freshWorld).CurrentTunnels := by
  decide

/-! ## C10: `ToggleTunnel` after a failed RPC -/

/-- C10 (the code departs from the claim): when the Stop RPC of `ToggleTunnel` fails, the
function returns the error and the tunnel is left in the transient state `TunnelStopping`, not
reverted to `TunnelStarted`; when the Start RPC fails (for a tunnel without metadata file), it
returns the error and the tunnel is left in `TunnelStarting`, not `TunnelStopped`. -/
theorem C10_failed_rpc_leaves_transient_state (env : UiEnv) (t : Tunnel) (c : RpcConn) :
    (t.State = TunnelState.TunnelStarted →
      ∀ e c1, IPCClientStopTunnel t.Name c = (some e, c1) →
        (ToggleTunnel env t c).err = some e ∧
        (ToggleTunnel env t c).selectedTunnel.State = TunnelState.TunnelStopping) ∧
    (t.State ≠ TunnelState.TunnelStarted → env.LoadTunnelMetadata t.Path = none →
      ∀ tun e c1, IPCClientStartTunnel t.Path c = ((tun, some e), c1) →
        (ToggleTunnel env t c).err = some e ∧
        (ToggleTunnel env t c).selectedTunnel.State = TunnelState.TunnelStarting) := by
  constructor
  · intro hs e c1 h
    simp [ToggleTunnel, hs, h]
  · intro hs hm tun e c1 h
    simp [ToggleTunnel, hs, hm, toggleStart, h]

/-- C10, at a concrete input: the tunnel `foo` is shown as started but its service is not
installed; the manager answers the Stop request with the error text of `OpenService`, and
`ToggleTunnel` returns that error and leaves the tunnel in `TunnelStopping`. -/
theorem C10_failed_rpc_leaves_transient_state_witness :
    (ToggleTunnel plainUiEnv ⟨"C:\\tunnels\\foo", "foo", TunnelState.TunnelStarted⟩
        ⟨⟨[], 4⟩, (ServeConn 0 [Value.int 1, Value.str "foo"] ⟨[], 4⟩ freshWorld).wr.out⟩).err
      = some ERROR_SERVICE_DOES_NOT_EXIST ∧
    (ToggleTunnel plainUiEnv ⟨"C:\\tunnels\\foo", "foo", TunnelState.TunnelStarted⟩
        ⟨⟨[], 4⟩, (ServeConn 0 [Value.int 1, Value.str "foo"] ⟨[], 4⟩ freshWorld).wr.out⟩
      ).selectedTunnel.State = TunnelState.TunnelStopping :=
  (C10_failed_rpc_leaves_transient_state plainUiEnv
      ⟨"C:\\tunnels\\foo", "foo", TunnelState.TunnelStarted⟩
      ⟨⟨[], 4⟩, (ServeConn 0 [Value.int 1, Value.str "foo"] ⟨[], 4⟩ freshWorld).wr.out⟩).1 rfl
    ERROR_SERVICE_DOES_NOT_EXIST
    ⟨⟨[Value.int 1, Value.str "foo"], 2⟩, []⟩ (by decide)

/-! ## C11: a successful `Start` -/

/-- C11: whenever `InstallTunnelService` returns nil for `configPath`, `Start` returns the
tunnel with `Path = configPath`, `Name = filepath.Base(configPath)` and `State = TunnelStarted`
together with a nil error, appends that tunnel to `CurrentTunnels`, and the iteration of
`ServeConn` replies with the tunnel followed by the empty error string and goes on with the
next request (the response pipe accepting the two values). -/
theorem C11_start_success (s : Nat) (configPath : String) (w : World) (reader : List Value)
    (wr : Writer)
    (h : (InstallTunnelService (filepathBase configPath) configPath w.scm).1 = none)
    (hwr : 2 ≤ wr.room) :
    (Start s configPath w).1
      = (some ⟨configPath, filepathBase configPath, TunnelState.TunnelStarted⟩, none) ∧
    (Start s configPath w).2.CurrentTunnels
      = w.CurrentTunnels ++ [⟨configPath, filepathBase configPath, TunnelState.TunnelStarted⟩] ∧
    (⟨configPath, filepathBase configPath, TunnelState.TunnelStarted⟩ : Tunnel)
      ∈ (Start s configPath w).2.CurrentTunnels ∧
    serveCall s (Value.int MethodType.StartMethodType.toInt :: Value.str configPath :: reader) wr w
      = Step.next reader
          ⟨wr.out ++ [Value.tunnel ⟨configPath, filepathBase configPath, TunnelState.TunnelStarted⟩,
                      Value.str ""], wr.room - 2⟩
          (Start s configPath w).2 := by
  rcases hI : InstallTunnelService (filepathBase configPath) configPath w.scm with ⟨err, scm⟩
  rw [hI] at h
  simp only at h
  subst h
  have hS := Start_of_install_ok s configPath w scm hI
  rcases wr with ⟨out, room⟩
  simp only at hwr
  obtain ⟨n, rfl⟩ := Nat.exists_eq_add_of_le hwr
  have e2 : 2 + n = (n + 1) + 1 := by omega
  refine ⟨by rw [hS], by rw [hS], by rw [hS]; simp, ?_⟩
  simp [serveCall, decodeInt, decodeString, MethodType.toInt, hS, Writer.encode, encodeErr,
    errToString, e2]

/-- C11, at a concrete input: `Start("C:\tunnels\foo")` on `freshWorld` gives the tunnel
named `foo` in state `TunnelStarted`, and the reply is that tunnel followed by `""`. -/
theorem C11_start_success_witness :
    (InstallTunnelService (filepathBase "C:\\tunnels\\foo") "C:\\tunnels\\foo" freshWorld.scm).1
      = none ∧
    2 ≤ (Writer.mk [] 4).room ∧
    filepathBase "C:\\tunnels\\foo" = "foo" ∧
    (Start 0 "C:\\tunnels\\foo" freshWorld).1
      = (some ⟨"C:\\tunnels\\foo", filepathBase "C:\\tunnels\\foo", TunnelState.TunnelStarted⟩,
         none) ∧
    serveCall 0 [Value.int 0, Value.str "C:\\tunnels\\foo"] ⟨[], 4⟩ freshWorld
      = Step.next []
          ⟨[Value.tunnel ⟨"C:\\tunnels\\foo", filepathBase "C:\\tunnels\\foo",
              TunnelState.TunnelStarted⟩, Value.str ""], 2⟩
          (Start 0 "C:\\tunnels\\foo" freshWorld).2 :=
  ⟨by decide, by decide, by decide,
    (C11_start_success 0 "C:\\tunnels\\foo" freshWorld [] ⟨[], 4⟩ (by decide) (by decide)).1,
    (C11_start_success 0 "C:\\tunnels\\foo" freshWorld [] ⟨[], 4⟩ (by decide) (by decide)).2.2.2⟩

/-! ## C12: `Stop` of a tunnel that does not exist -/

theorem uninstallBody_calls (tunnelName : String) (m : SCM) :
    (uninstallTunnelServiceBody tunnelName m).2.calls = m.calls := by
  unfold uninstallTunnelServiceBody
  simp only
  repeat' split
  all_goals rfl

theorem uninstallBody_missing (tunnelName : String) (m : SCM)
    (hnone : m.find ("Nebula_" ++ tunnelName) = none) :
    uninstallTunnelServiceBody tunnelName m
      = (some (m.connectErr.getD ERROR_SERVICE_DOES_NOT_EXIST), m) := by
  unfold uninstallTunnelServiceBody
  cases hc : m.connectErr with
  | some e => simp
  | none => simp [SCM.OpenService, hnone]

/-- C12: a Stop request for a tunnel name whose service `Nebula_<name>` is not installed is
answered with a non-empty error string (the text of the `mgr.Connect` error if the
service-control manager cannot be reached, else that of `ERROR_SERVICE_DOES_NOT_EXIST`); the
registry `CurrentTunnels` and the installed services are unchanged, and `ServeConn` goes on
with the next request. System errors are taken to have a non-empty text and the response
pipe to accept the value. -/
theorem C12_stop_missing_tunnel (s : Nat) (tunnelName : String) (w : World)
    (reader : List Value) (wr : Writer)
    (hnone : w.scm.find ("Nebula_" ++ tunnelName) = none)
    (hconn : ∀ e, w.scm.connectErr = some e → e.msg ≠ "")
    (hwr : 1 ≤ wr.room) :
    ∃ e, (Stop s tunnelName w).1 = some e ∧ e.msg ≠ "" ∧
      (Stop s tunnelName w).2.CurrentTunnels = w.CurrentTunnels ∧
      (Stop s tunnelName w).2.scm.services = w.scm.services ∧
      serveCall s (Value.int MethodType.StopMethodType.toInt :: Value.str tunnelName :: reader) wr w
        = Step.next reader ⟨wr.out ++ [Value.str e.msg], wr.room - 1⟩ (Stop s tunnelName w).2 := by
  have hb := uninstallBody_missing tunnelName
    { w.scm with calls := w.scm.calls ++ [SvcCall.uninstall tunnelName] } hnone
  have hS : Stop s tunnelName w
      = (some (w.scm.connectErr.getD ERROR_SERVICE_DOES_NOT_EXIST),
         { w with scm := { w.scm with calls := w.scm.calls ++ [SvcCall.uninstall tunnelName] } }) := by
    simp only [Stop, UninstallTunnelService, hb]
  refine ⟨w.scm.connectErr.getD ERROR_SERVICE_DOES_NOT_EXIST, by rw [hS], ?_, by rw [hS],
    by rw [hS], ?_⟩
  · cases hc : w.scm.connectErr with
    | some e => simpa using hconn e hc
    | none => simp only [Option.getD_none]; decide
  · rcases wr with ⟨out, room⟩
    simp only at hwr
    obtain ⟨n, rfl⟩ := Nat.exists_eq_add_of_le hwr
    have e1 : 1 + n = n + 1 := by omega
    simp [serveCall, decodeInt, decodeString, MethodType.toInt, hS, Writer.encode, encodeErr,
      errToString, e1]

/-- C12, at a concrete input: `Stop("missing")` on the empty registry of `freshWorld` is
answered with the text of `ERROR_SERVICE_DOES_NOT_EXIST`, and the State request behind it is
answered as well. -/
theorem C12_stop_missing_tunnel_witness :
    freshWorld.scm.find ("Nebula_" ++ "missing") = none ∧
    (∀ e, freshWorld.scm.connectErr = some e → e.msg ≠ "") ∧
    1 ≤ (Writer.mk [] 4).room ∧
    (∃ e, (Stop 0 "missing" freshWorld).1 = some e ∧ e.msg ≠ "") ∧
    (ServeConn 0 [Value.int 1, Value.str "missing", Value.int 3, Value.str "missing"] ⟨[], 4⟩
        freshWorld).wr.out
      = [Value.str ERROR_SERVICE_DOES_NOT_EXIST.msg, Value.int 2, Value.str ""] :=
  ⟨by decide, (fun e h => by cases h), by decide,
    Exists.imp (fun _ h => ⟨h.1, h.2.1⟩)
      (C12_stop_missing_tunnel 0 "missing" freshWorld [] ⟨[], 4⟩ (by decide)
        (fun e h => by cases h) (by decide)),
    by decide⟩

/-! ## Helper lemmas on the loop of `ServeConn` -/

theorem ServeConnLoop_fuel (s : Nat) (f1 f2 : Nat) (reader : List Value) (wr : Writer) (w : World)
    (h1 : reader.length < f1) (h2 : reader.length < f2) :
    ServeConnLoop s f1 reader wr w = ServeConnLoop s f2 reader wr w := by
  induction f1 generalizing f2 reader wr w with
  | zero => omega
  | succ n ih =>
    cases f2 with
    | zero => omega
    | succ m =>
      simp only [ServeConnLoop]
      cases hs : serveCall s reader wr w with
      | next r1 wr1 w1 =>
        have := serveCall_next_length s reader r1 wr wr1 w w1 hs
        exact ih m r1 wr1 w1 (by omega) (by omega)
      | stop st wr1 w1 => rfl

theorem ServeConn_of_next (s : Nat) (reader r1 : List Value) (wr wr1 : Writer) (w w1 : World)
    (h : serveCall s reader wr w = Step.next r1 wr1 w1) :
    ServeConn s reader wr w = ServeConn s r1 wr1 w1 := by
  have hlen := serveCall_next_length s reader r1 wr wr1 w w1 h
  simp only [ServeConn, ServeConnLoop, h]
  exact ServeConnLoop_fuel s reader.length (r1.length + 1) r1 wr1 w1 (by omega) (by omega)

theorem ServeConn_of_stop (s : Nat) (reader : List Value) (wr wr1 : Writer) (w w1 : World)
    (st : Status) (h : serveCall s reader wr w = Step.stop st wr1 w1) :
    ServeConn s reader wr w = ⟨st, wr1, w1⟩ := by
  simp only [ServeConn, ServeConnLoop, h]

theorem ServeConn_of_serveCalls (s : Nat) (k : Nat) (reader r1 : List Value) (wr wr1 : Writer)
    (w w1 : World) (h : serveCalls s k reader wr w = some (r1, wr1, w1)) :
    ServeConn s reader wr w = ServeConn s r1 wr1 w1 := by
  induction k generalizing reader wr w with
  | zero =>
    simp only [serveCalls, Option.some.injEq, Prod.mk.injEq] at h
    obtain ⟨rfl, rfl, rfl⟩ := h
    rfl
  | succ n ih =>
    simp only [serveCalls] at h
    cases hs : serveCall s reader wr w with
    | next r2 wr2 w2 =>
      rw [hs] at h
      rw [ServeConn_of_next s reader r2 wr wr2 w w2 hs]
      exact ih r2 wr2 w2 h
    | stop st wr2 w2 => rw [hs] at h; cases h

theorem serveCall_decode_fail (s : Nat) (reader : List Value) (wr : Writer) (w : World)
    (h : decodeInt reader = none ∨
         ∃ tag r1, decodeInt reader = some (tag, r1) ∧
           ((0 ≤ tag ∧ tag ≤ 3 ∧ decodeString r1 = none) ∨ (tag = 4 ∧ decodeBool r1 = none))) :
    serveCall s reader wr w = Step.stop Status.returned wr w := by
  rcases h with h | ⟨tag, r1, h, hc⟩
  · simp [serveCall, h]
  · rcases hc with ⟨h0, h3, hd⟩ | ⟨h4, hd⟩
    · have : tag = 0 ∨ tag = 1 ∨ tag = 2 ∨ tag = 3 := by omega
      rcases this with rfl | rfl | rfl | rfl <;> simp [serveCall, h, hd, MethodType.toInt]
    · subst h4
      simp [serveCall, h, hd, MethodType.toInt]

theorem unregister_not_mem (w : World) (s : Nat) : s ∉ (w.unregister s).managerServices := by
  simp [World.unregister]

theorem clearEvents_events (w : World) (s : Nat) :
    (((w.clearEvents s).unregister s).deref s).events = none := by
  simp only [World.deref, World.clearEvents, World.unregister, List.getD_eq_getElem?_getD,
    List.getElem?_set]
  by_cases hlt : s < w.heap.length
  · simp [hlt]
  · simp [hlt]

theorem register_mem (w : World) (s : Nat) : s ∈ (w.register s).managerServices := by
  unfold World.register
  split
  · assumption
  · simp

/-! ## C13: a decoding failure ends the connection -/

/-- C13: the goroutine of `IPCServerListen` has registered its service and `ServeConn` has
completed `k` calls. If decoding then fails, at the method tag or at the argument that
follows a tag (end of stream or a value of the wrong type), the iteration invokes no handler
and writes nothing: the response stream and the state are as the last completed call left
them, and `ServeConn` returns. `IPCServerListen` then sets the service's `events` to nil and
deletes it from `managerServices`, where it had been registered while it was served. -/
theorem C13_decode_failure_deregisters (reader : List Value) (wr : Writer) (events : Option Nat)
    (elevatedToken : Nat) (w : World) (k : Nat) (r1 : List Value) (wr1 : Writer) (w1 : World)
    (hk : serveCalls w.heap.length k reader wr (listenWorld events elevatedToken w)
            = some (r1, wr1, w1))
    (hfail : decodeInt r1 = none ∨
         ∃ tag r2, decodeInt r1 = some (tag, r2) ∧
           ((0 ≤ tag ∧ tag ≤ 3 ∧ decodeString r2 = none) ∨ (tag = 4 ∧ decodeBool r2 = none))) :
    w.heap.length ∈ (listenWorld events elevatedToken w).managerServices ∧
    serveCall w.heap.length r1 wr1 w1 = Step.stop Status.returned wr1 w1 ∧
    ServeConn w.heap.length reader wr (listenWorld events elevatedToken w)
      = ⟨Status.returned, wr1, w1⟩ ∧
    (IPCServerListen reader wr events elevatedToken w).status = Status.returned ∧
    (IPCServerListen reader wr events elevatedToken w).wr = wr1 ∧
    (IPCServerListen reader wr events elevatedToken w).world
      = (w1.clearEvents w.heap.length).unregister w.heap.length ∧
    w.heap.length ∉ (IPCServerListen reader wr events elevatedToken w).world.managerServices ∧
    ((IPCServerListen reader wr events elevatedToken w).world.deref w.heap.length).events = none := by
  have hstop := serveCall_decode_fail w.heap.length r1 wr1 w1 hfail
  have hserve : ServeConn w.heap.length reader wr (listenWorld events elevatedToken w)
      = ⟨Status.returned, wr1, w1⟩ := by
    rw [ServeConn_of_serveCalls _ k reader r1 wr wr1 _ w1 hk]
    exact ServeConn_of_stop _ r1 wr1 wr1 w1 w1 _ hstop
  have hlisten : IPCServerListen reader wr events elevatedToken w
      = ⟨Status.returned, wr1, (w1.clearEvents w.heap.length).unregister w.heap.length⟩ := by
    simp only [IPCServerListen, hserve]
  refine ⟨register_mem _ _, hstop, hserve, ?_, ?_, ?_, ?_, ?_⟩
  · rw [hlisten]
  · rw [hlisten]
  · rw [hlisten]
  · rw [hlisten]; exact unregister_not_mem _ _
  · rw [hlisten]; exact clearEvents_events _ _

/-- C13, at a concrete input: on a new connection of `freshWorld` the helper sends a complete
Start request and then the tag of a Stop request, and closes the pipe before the tunnel name.
The Start is answered; for the incomplete Stop nothing is written and no service is
uninstalled; the connection (pointer 1) is deregistered and its event stream is nil. -/
theorem C13_decode_failure_deregisters_witness :
    serveCalls freshWorld.heap.length 1 [Value.int 0, Value.str "C:\\tunnels\\foo", Value.int 1]
        ⟨[], 4⟩ (listenWorld (some 7) 0x2a4 freshWorld)
      = some ([Value.int 1],
          ⟨[Value.tunnel ⟨"C:\\tunnels\\foo", "foo", TunnelState.TunnelStarted⟩, Value.str ""], 2⟩,
          (Start 1 "C:\\tunnels\\foo" (listenWorld (some 7) 0x2a4 freshWorld)).2) ∧
    (IPCServerListen [Value.int 0, Value.str "C:\\tunnels\\foo", Value.int 1] ⟨[], 4⟩ (some 7)
        0x2a4 freshWorld).status = Status.returned ∧
    (IPCServerListen [Value.int 0, Value.str "C:\\tunnels\\foo", Value.int 1] ⟨[], 4⟩ (some 7)
        0x2a4 freshWorld).wr
      = ⟨[Value.tunnel ⟨"C:\\tunnels\\foo", "foo", TunnelState.TunnelStarted⟩, Value.str ""], 2⟩ ∧
    freshWorld.heap.length ∉
      (IPCServerListen [Value.int 0, Value.str "C:\\tunnels\\foo", Value.int 1] ⟨[], 4⟩ (some 7)
        0x2a4 freshWorld).world.managerServices :=
  let h := C13_decode_failure_deregisters
    [Value.int 0, Value.str "C:\\tunnels\\foo", Value.int 1] ⟨[], 4⟩ (some 7) 0x2a4 freshWorld 1
    [Value.int 1]
    ⟨[Value.tunnel ⟨"C:\\tunnels\\foo", "foo", TunnelState.TunnelStarted⟩, Value.str ""], 2⟩
    (Start 1 "C:\\tunnels\\foo" (listenWorld (some 7) 0x2a4 freshWorld)).2
    (by rfl) (Or.inr ⟨1, [], rfl, Or.inl ⟨by decide, by decide, rfl⟩⟩)
  ⟨by rfl, h.2.2.2.1, h.2.2.2.2.1, h.2.2.2.2.2.2.1⟩

/-! ## Helper lemmas on the errors of the handlers -/

theorem rpcDecodeError_errToString (e : Option GoError) (c : RpcConn) (more : List Value)
    (h : ∀ x, e = some x → x.msg ≠ "") :
    (rpcDecodeError { c with rpcDecoder := Value.str (errToString e) :: more }).2
      = { c with rpcDecoder := more } ∧
    ((rpcDecodeError { c with rpcDecoder := Value.str (errToString e) :: more }).1 = none ↔
      e = none) ∧
    (∀ x, e = some x →
      (rpcDecodeError { c with rpcDecoder := Value.str (errToString e) :: more }).1
        = some ⟨x.msg⟩) := by
  cases e with
  | none =>
    simp only [rpcDecodeError, decodeString, errToString]
    exact ⟨by simp, by simp, by simp⟩
  | some x =>
    have hx := h x rfl
    refine ⟨?_, ?_, ?_⟩
    · simp [rpcDecodeError, decodeString, errToString, hx]
    · simp [rpcDecodeError, decodeString, errToString, hx]
    · intro y hy
      cases hy
      simp [rpcDecodeError, decodeString, errToString, hx]

theorem createTunnelService_error (serviceName path configPath : String) (m : SCM)
    (hc : ∀ n e, m.createErr n = some e → e.msg ≠ "")
    (hl : ∀ n e, m.closeErr n = some e → e.msg ≠ "") (x : GoError)
    (h : (createTunnelService serviceName path configPath m).1 = some x) : x.msg ≠ "" := by
  unfold createTunnelService at h
  split at h
  · rename_i e he
    cases h
    exact hc _ _ he
  · exact hl _ _ h

theorem installBody_error (tunnelName configPath : String) (m : SCM) (hm : m.errorsNonEmpty)
    (x : GoError) (h : (installTunnelServiceBody tunnelName configPath m).1 = some x) :
    x.msg ≠ "" := by
  obtain ⟨h1, _, h3, h4, h5, h6⟩ := hm
  unfold installTunnelServiceBody at h
  split at h
  · rename_i e he
    cases h
    exact h1 _ he
  · split at h
    · cases h
    · simp only at h
      split at h
      · split at h
        · rename_i e he
          cases h
          exact h3 _ _ he
        · split at h
          · split at h
            · cases h
            · cases h
              decide
          · split at h
            · rename_i e he
              cases h
              exact h4 _ _ he
            · exact createTunnelService_error _ _ _ (m.remove ("Nebula_" ++ tunnelName)) h5 h6 x h
      · exact createTunnelService_error _ _ _ m h5 h6 x h

theorem uninstallBody_error (tunnelName : String) (m : SCM) (hm : m.errorsNonEmpty)
    (x : GoError) (h : (uninstallTunnelServiceBody tunnelName m).1 = some x) : x.msg ≠ "" := by
  obtain ⟨h1, h2, _, h4, _, h6⟩ := hm
  unfold uninstallTunnelServiceBody at h
  simp only at h
  split at h
  · rename_i e he
    cases h
    exact h1 _ he
  · split at h
    · rename_i e he
      cases h
      unfold SCM.OpenService at he
      split at he
      · cases he
        decide
      · split at he
        · rename_i e1 he1
          cases he
          exact h2 _ _ he1
        · cases he
    · split at h
      · rename_i e he
        cases h
        exact h4 _ _ he
      · exact h6 _ _ h

theorem Start_error (s : Nat) (configPath : String) (w : World) (hm : w.scm.errorsNonEmpty)
    (x : GoError) (h : (Start s configPath w).1.2 = some x) : x.msg ≠ "" := by
  rcases hI : InstallTunnelService (filepathBase configPath) configPath w.scm with ⟨err, scm⟩
  cases err with
  | some e =>
    rw [Start_of_install_err s configPath w e scm hI] at h
    cases h
    unfold InstallTunnelService at hI
    exact installBody_error (filepathBase configPath) configPath
      { w.scm with calls := w.scm.calls ++ [SvcCall.install (filepathBase configPath) configPath] }
      hm x (by rw [hI])
  | none =>
    rw [Start_of_install_ok s configPath w scm hI] at h
    cases h

theorem Stop_error (s : Nat) (tunnelName : String) (w : World) (hm : w.scm.errorsNonEmpty)
    (x : GoError) (h : (Stop s tunnelName w).1 = some x) : x.msg ≠ "" := by
  simp only [Stop, UninstallTunnelService] at h
  exact uninstallBody_error tunnelName
    { w.scm with calls := w.scm.calls ++ [SvcCall.uninstall tunnelName] } hm x h

theorem Quit_error (s : Nat) (b : Bool) (w : World) (r : Bool × Option GoError) (x : GoError)
    (h : (Quit s b w).1 = some r) (hx : r.2 = some x) : x.msg ≠ "" := by
  unfold Quit at h
  by_cases htok : (w.deref s).elevatedToken = 0
  · rw [if_pos htok] at h
    simp only [Option.some.injEq] at h
    rw [← h] at hx
    cases hx
    decide
  · rw [if_neg htok] at h
    by_cases hq : w.haveQuit ≠ 0
    · rw [if_pos hq] at h
      simp only [Option.some.injEq] at h
      rw [← h] at hx
      cases hx
    · rw [if_neg hq] at h
      simp only at h
      split at h <;> (try split at h) <;>
        first
        | (simp only [Option.some.injEq] at h
           rw [← h] at hx
           cases hx)
        | cases h

/-! ## C14: the error string across the wire -/

/-- C14: `e` is the error a handler returns (`State`, `Start`, `Stop`, `WaitForStop` or
`Quit`, on any connection, with any argument, in any state of the manager in which the errors
of the service-control manager have a text). Then `rpcDecodeError`, applied on the client to
the encoded `errToString(e)` of the server, consumes exactly that value, returns nil if and
only if `e` is nil, and otherwise returns an error with exactly the text of `e`. -/
theorem C14_error_string_roundtrip (s : Nat) (w : World) (e : Option GoError) (c : RpcConn)
    (more : List Value) (hscm : w.scm.errorsNonEmpty)
    (hhandler : (∃ tunnelName, e = (State s tunnelName w).1.2) ∨
      (∃ configPath, e = (Start s configPath w).1.2) ∨
      (∃ tunnelName, e = (Stop s tunnelName w).1) ∨
      (∃ tunnelName, e = (WaitForStop s tunnelName w).1) ∨
      (∃ stopTunnelsOnQuit r, (Quit s stopTunnelsOnQuit w).1 = some r ∧ e = r.2)) :
    (rpcDecodeError { c with rpcDecoder := Value.str (errToString e) :: more }).2
      = { c with rpcDecoder := more } ∧
    ((rpcDecodeError { c with rpcDecoder := Value.str (errToString e) :: more }).1 = none ↔
      e = none) ∧
    (∀ x, e = some x →
      (rpcDecodeError { c with rpcDecoder := Value.str (errToString e) :: more }).1
        = some ⟨x.msg⟩) := by
  apply rpcDecodeError_errToString
  intro x hx
  rcases hhandler with ⟨n, h⟩ | ⟨p, h⟩ | ⟨n, h⟩ | ⟨n, h⟩ | ⟨b, r, hr, h⟩
  · rw [h] at hx
    cases hx
  · rw [h] at hx
    exact Start_error s p w hscm x hx
  · rw [h] at hx
    exact Stop_error s n w hscm x hx
  · rw [h] at hx
    cases hx
  · rw [h] at hx
    exact Quit_error s b w r x hr hx

/-- C14, at a concrete input: the error of `Stop("missing")` on an empty registry arrives at
the client with its text. -/
theorem C14_error_string_roundtrip_witness :
    freshWorld.scm.errorsNonEmpty ∧
    (Stop 0 "missing" freshWorld).1 = some ERROR_SERVICE_DOES_NOT_EXIST ∧
    (rpcDecodeError ⟨⟨[], 4⟩,
        [Value.str (errToString (Stop 0 "missing" freshWorld).1)]⟩).1
      = some ⟨"The specified service does not exist as an installed service."⟩ :=
  ⟨by simp [SCM.errorsNonEmpty, freshWorld, healthySCM], by decide,
    (C14_error_string_roundtrip 0 freshWorld (Stop 0 "missing" freshWorld).1 ⟨⟨[], 4⟩, []⟩ []
      (by simp [SCM.errorsNonEmpty, freshWorld, healthySCM])
      (Or.inr (Or.inr (Or.inl ⟨"missing", rfl⟩)))).2.2 ERROR_SERVICE_DOES_NOT_EXIST
      (by decide)⟩


/-! ## Helper lemmas on a single `Quit` call -/

theorem quitRun_done (k : Nat) (t : QuitCall) (w : World) (a : Bool) (e : Option GoError)
    (h : t.pc = QuitPc.done a e) : quitRun k t w = (t, w) := by
  induction k with
  | zero => rfl
  | succ n ih =>
    have : quitStep t w = (t, w) := by simp [quitStep, h]
    simp only [quitRun, this]
    exact ih

theorem quitRun_uninstall (s : Nat) (b : Bool) (todo : List Tunnel) (E : List QuitEffect)
    (w : World) (k : Nat) :
    quitRun (todo.length + 1 + k) ⟨s, b, QuitPc.uninstall todo, E⟩ w
      = quitRun k ⟨s, b, QuitPc.send, E ++ todo.map (fun t => QuitEffect.uninstalled t.Name)⟩
          { w with scm := uninstallAll todo w.scm } := by
  induction todo generalizing E w with
  | nil =>
    simp only [List.length_nil, Nat.zero_add, List.map_nil, List.append_nil, uninstallAll]
    rw [Nat.add_comm, quitRun]
    simp only [quitStep]
  | cons tun rest ih =>
    have e1 : (tun :: rest).length + 1 + k = (rest.length + 1 + k) + 1 := by
      simp only [List.length_cons]; omega
    rw [e1, quitRun]
    simp only [quitStep]
    rw [ih]
    simp [uninstallAll]

theorem uninstall_calls (tunnelName : String) (m : SCM) :
    (UninstallTunnelService tunnelName m).2.calls = m.calls ++ [SvcCall.uninstall tunnelName] := by
  simp only [UninstallTunnelService, uninstallBody_calls]

theorem uninstallAll_calls (ts : List Tunnel) (m : SCM) :
    (uninstallAll ts m).calls = m.calls ++ ts.map (fun t => SvcCall.uninstall t.Name) := by
  induction ts generalizing m with
  | nil => simp [uninstallAll]
  | cons t rest ih => simp [uninstallAll, ih, uninstall_calls]

theorem deref_clearEvents_other (w : World) (s p : Nat) (h : p ≠ s) :
    (w.clearEvents s).deref p = w.deref p := by
  simp only [World.deref, World.clearEvents, List.getD_eq_getElem?_getD]
  rw [List.getElem?_set_ne (fun e => h e.symm)]

theorem Quit_win (s : Nat) (b : Bool) (w : World)
    (htok : (w.deref s).elevatedToken ≠ 0) (hq : w.haveQuit = 0) (hchan : w.quitManagersChan = 0) :
    Quit s b w =
      (some (false, none),
        { w with
          haveQuit := 1
          heap := w.heap.set s { w.deref s with events := none }
          managerServices := w.managerServices.filter (fun p => p != s)
          scm := if b then uninstallAll w.CurrentTunnels w.scm else w.scm
          quitManagersChan := 1 }) := by
  cases b <;> simp [Quit, htok, hq, hchan, World.clearEvents, World.unregister] <;> rfl

/-! ## C15: what the winning `Quit` does -/

/-- C15: a `Quit` call by a connection with a non-zero `elevatedToken`, made while `haveQuit`
is 0 and `quitManagersChan` is empty, wins the compare-and-swap and returns `(false, nil)`. It
deletes the calling connection from `managerServices` and sets its `events` to nil, every other
connection being untouched; if and only if `stopTunnelsOnQuit` is true it calls
`UninstallTunnelService` once for each entry of `CurrentTunnels`, in list order; it sends one
value on `quitManagersChan`. The steps happen in this order: deregistration, the uninstalls,
the signal. -/
theorem C15_quit_winner_effects (s : Nat) (stopTunnelsOnQuit : Bool) (w : World)
    (htok : (w.deref s).elevatedToken ≠ 0) (hq : w.haveQuit = 0)
    (hchan : w.quitManagersChan = 0) :
    (Quit s stopTunnelsOnQuit w).1 = some (false, none) ∧
    (Quit s stopTunnelsOnQuit w).2.managerServices
      = w.managerServices.filter (fun p => p != s) ∧
    ((Quit s stopTunnelsOnQuit w).2.deref s).events = none ∧
    (∀ p, p ≠ s → (Quit s stopTunnelsOnQuit w).2.deref p = w.deref p) ∧
    (Quit s stopTunnelsOnQuit w).2.scm.calls
      = w.scm.calls ++
          (if stopTunnelsOnQuit then w.CurrentTunnels.map (fun t => SvcCall.uninstall t.Name)
           else []) ∧
    (Quit s stopTunnelsOnQuit w).2.quitManagersChan = w.quitManagersChan + 1 ∧
    quitRun (w.CurrentTunnels.length + 5) (QuitCall.init (s, stopTunnelsOnQuit)) w
      = (⟨s, stopTunnelsOnQuit, QuitPc.done false none,
           [QuitEffect.deregistered] ++
             (if stopTunnelsOnQuit then
                w.CurrentTunnels.map (fun t => QuitEffect.uninstalled t.Name)
              else []) ++ [QuitEffect.signalled]⟩,
         (Quit s stopTunnelsOnQuit w).2) := by
  have hQ := Quit_win s stopTunnelsOnQuit w htok hq hchan
  refine ⟨by rw [hQ], by rw [hQ], ?_, ?_, ?_, by rw [hQ, hchan], ?_⟩
  · rw [hQ]
    simp only [World.deref, List.getD_eq_getElem?_getD, List.getElem?_set]
    by_cases hlt : s < w.heap.length
    · simp [hlt]
    · simp [hlt]
  · intro p hp
    rw [hQ]
    simp only [World.deref, List.getD_eq_getElem?_getD]
    rw [List.getElem?_set_ne (fun e => hp e.symm)]
  · rw [hQ]
    cases stopTunnelsOnQuit
    · simp
    · simp [uninstallAll_calls]
  · rw [hQ]
    have e1 : w.CurrentTunnels.length + 5 = (w.CurrentTunnels.length + 1 + 1) + 1 + 1 + 1 := by
      omega
    rw [e1, quitRun, quitRun, quitRun]
    cases stopTunnelsOnQuit
    · simp only [QuitCall.init, quitStep, htok, hq, if_false, if_true]
      rw [quitRun]
      simp only [quitStep, World.clearEvents, World.unregister, hchan, Nat.lt_one_iff, if_true]
      rw [quitRun_done _ _ _ false none rfl]
      simp [World.deref]
    · simp only [QuitCall.init, quitStep, htok, hq, if_false, if_true, World.clearEvents,
        World.unregister]
      have hu := quitRun_uninstall s true w.CurrentTunnels ([] ++ [QuitEffect.deregistered])
        { scm := w.scm, CurrentTunnels := w.CurrentTunnels, haveQuit := 1,
          heap := w.heap.set s { events := none, elevatedToken := (w.deref s).elevatedToken },
          managerServices := List.filter (fun p => p != s) w.managerServices,
          quitManagersChan := w.quitManagersChan } 1
      simp only [World.deref] at hu ⊢
      rw [hu]
      simp only [quitRun, quitStep, hchan, Nat.lt_one_iff, if_true]
      simp

/-- C15, at a concrete input: connection 0 of `twoElevatedWorld` calls `Quit(true)` while the
registry holds the tunnel `foo`; it is deregistered, connection 1 stays registered, `foo` is
uninstalled, one signal is sent. -/
theorem C15_quit_winner_effects_witness :
    (twoElevatedWorld.deref 0).elevatedToken ≠ 0 ∧ twoElevatedWorld.haveQuit = 0 ∧
    twoElevatedWorld.quitManagersChan = 0 ∧
    (Quit 0 true twoElevatedWorld).1 = some (false, none) ∧
    (Quit 0 true twoElevatedWorld).2.managerServices = [1] ∧
    (Quit 0 true twoElevatedWorld).2.scm.calls
      = [SvcCall.install "foo" "C:\\tunnels\\foo", SvcCall.uninstall "foo"] ∧
    (quitRun 6 (QuitCall.init (0, true)) twoElevatedWorld).1.effects
      = [QuitEffect.deregistered, QuitEffect.uninstalled "foo", QuitEffect.signalled] :=
  let h := C15_quit_winner_effects 0 true twoElevatedWorld (by decide) (by decide) (by decide)
  ⟨by decide, by decide, by decide, h.1, h.2.1, h.2.2.2.2.1, congrArg (fun r => r.1.effects) h.2.2.2.2.2.2⟩

/-! ## Helper lemmas on the state after a request -/

theorem encodeErr_world (retErr : Option GoError) (reader : List Value) (wr : Writer) (w : World) :
    (encodeErr retErr reader wr w).world = w := by
  unfold encodeErr
  split <;> rfl

theorem serveCall_world_cases (s : Nat) (reader : List Value) (wr : Writer) (w : World) :
    (serveCall s reader wr w).world = w ∨
    (∃ configPath, (serveCall s reader wr w).world = (Start s configPath w).2) ∨
    (∃ tunnelName, (serveCall s reader wr w).world = (Stop s tunnelName w).2) ∨
    (∃ b, (serveCall s reader wr w).world = (Quit s b w).2) := by
  unfold serveCall
  split
  · exact Or.inl rfl
  · split
    · split
      · exact Or.inl rfl
      · rename_i configPath r2 _
        refine Or.inr (Or.inl ⟨configPath, ?_⟩)
        split
        · rename_i h; rw [h]; rfl
        · rename_i h
          rw [h]
          split
          · rfl
          · exact encodeErr_world _ _ _ _
    · split
      · split
        · exact Or.inl rfl
        · rename_i tunnelName r2 _
          exact Or.inr (Or.inr (Or.inl ⟨tunnelName, encodeErr_world _ _ _ _⟩))
      · split
        · split
          · exact Or.inl rfl
          · exact Or.inl (encodeErr_world _ _ _ _)
        · split
          · split
            · exact Or.inl rfl
            · left
              split
              rename_i h
              unfold State at h
              cases h
              split
              · rfl
              · exact encodeErr_world _ _ _ _
          · split
            · split
              · exact Or.inl rfl
              · rename_i b r2 _
                refine Or.inr (Or.inr (Or.inr ⟨b, ?_⟩))
                split
                · rename_i h; rw [h]; rfl
                · rename_i h
                  rw [h]
                  split
                  · rfl
                  · exact encodeErr_world _ _ _ _
            · exact Or.inl rfl

theorem Start_haveQuit (s : Nat) (configPath : String) (w : World) :
    (Start s configPath w).2.haveQuit = w.haveQuit := by
  unfold Start
  simp only
  split <;> rfl

theorem Stop_haveQuit (s : Nat) (tunnelName : String) (w : World) :
    (Stop s tunnelName w).2.haveQuit = w.haveQuit := rfl

theorem Quit_already (s : Nat) (b : Bool) (w : World) (hq : w.haveQuit ≠ 0)
    (htok : (w.deref s).elevatedToken ≠ 0) : Quit s b w = (some (true, none), w) := by
  simp [Quit, hq, htok]

theorem Quit_denied (s : Nat) (b : Bool) (w : World) (htok : (w.deref s).elevatedToken = 0) :
    Quit s b w = (some (false, some ERROR_ACCESS_DENIED), w) := by
  simp [Quit, htok]

theorem Quit_haveQuit_set (s : Nat) (b : Bool) (w : World) (hq : w.haveQuit ≠ 0) :
    (Quit s b w).2 = w := by
  by_cases htok : (w.deref s).elevatedToken = 0
  · rw [Quit_denied s b w htok]
  · rw [Quit_already s b w hq htok]

theorem serveCall_haveQuit (s : Nat) (reader : List Value) (wr : Writer) (w : World)
    (hq : w.haveQuit ≠ 0) : (serveCall s reader wr w).world.haveQuit ≠ 0 := by
  rcases serveCall_world_cases s reader wr w with h | ⟨p, h⟩ | ⟨n, h⟩ | ⟨b, h⟩ <;> rw [h]
  · exact hq
  · rw [Start_haveQuit]; exact hq
  · rw [Stop_haveQuit]; exact hq
  · rw [Quit_haveQuit_set s b w hq]; exact hq

theorem ServeConnLoop_haveQuit (s : Nat) (fuel : Nat) (reader : List Value) (wr : Writer)
    (w : World) (hq : w.haveQuit ≠ 0) : (ServeConnLoop s fuel reader wr w).world.haveQuit ≠ 0 := by
  induction fuel generalizing reader wr w with
  | zero => exact hq
  | succ n ih =>
    unfold ServeConnLoop
    have hs := serveCall_haveQuit s reader wr w hq
    cases hc : serveCall s reader wr w with
    | next r1 wr1 w1 =>
      rw [hc] at hs
      exact ih r1 wr1 w1 hs
    | stop st wr1 w1 =>
      rw [hc] at hs
      exact hs

theorem quitStep_haveQuit (t : QuitCall) (w : World) (hq : w.haveQuit ≠ 0) :
    (quitStep t w).2.haveQuit ≠ 0 := by
  unfold quitStep
  split
  · split <;> exact hq
  · split
    · simp
    · exact hq
  · exact hq
  · exact hq
  · exact hq
  · split <;> exact hq
  · exact hq

/-! ## C16: once the quit flag is set -/

/-- C16, counterexample to the claim as stated: `haveQuit` is set, and connection 1, which
has no elevated token, calls `Quit(true)`: the call returns `alreadyQuit = false` with
`ERROR_ACCESS_DENIED`, not "already quit". -/
theorem C16_counterexample_not_elevated :
    quitWorld.haveQuit = 1 ∧ (quitWorld.deref 1).elevatedToken = 0 ∧
    (Quit 1 true quitWorld).1 = some (false, some ERROR_ACCESS_DENIED) ∧
    (ServeConn 1 [Value.int 4, Value.bool true] ⟨[], 4⟩ quitWorld).wr.out
      = [Value.bool false, Value.str "Access is denied."] := by
  decide

/-- C16 (amended): once `haveQuit` is set it stays set: neither a request served by
`ServeConn` (a single iteration, the whole loop, or the goroutine of `IPCServerListen`), nor a
step of a `Quit` call clears it. Every `Quit` call from a connection with an elevated token
then returns `(true, nil)` and changes nothing; a call from a connection without elevated token
is still rejected with `(false, ERROR_ACCESS_DENIED)`. -/
theorem C16_quit_flag_stays_set (w : World) (hq : w.haveQuit ≠ 0) :
    (∀ s reader wr, (serveCall s reader wr w).world.haveQuit ≠ 0) ∧
    (∀ s reader wr, (ServeConn s reader wr w).world.haveQuit ≠ 0) ∧
    (∀ reader wr events elevatedToken,
      (IPCServerListen reader wr events elevatedToken w).world.haveQuit ≠ 0) ∧
    (∀ t, (quitStep t w).2.haveQuit ≠ 0) ∧
    (∀ s b, (w.deref s).elevatedToken ≠ 0 → Quit s b w = (some (true, none), w)) ∧
    (∀ s b, (w.deref s).elevatedToken = 0 →
      Quit s b w = (some (false, some ERROR_ACCESS_DENIED), w)) := by
  refine ⟨fun s reader wr => serveCall_haveQuit s reader wr w hq,
    fun s reader wr => ServeConnLoop_haveQuit s _ reader wr w hq, ?_,
    fun t => quitStep_haveQuit t w hq,
    fun s b htok => Quit_already s b w hq htok,
    fun s b htok => Quit_denied s b w htok⟩
  intro reader wr events elevatedToken
  have h1 : (listenWorld events elevatedToken w).haveQuit ≠ 0 := by
    unfold listenWorld World.register
    split <;> exact hq
  have h2 := ServeConnLoop_haveQuit w.heap.length (reader.length + 1) reader wr _ h1
  unfold IPCServerListen
  simp only
  split
  · exact h2
  · exact h2

/-- C16, at a concrete input: with `haveQuit` set, `Quit(true)` from the elevated connection 0
returns `(true, nil)` and leaves the state as it was. -/
theorem C16_quit_flag_stays_set_witness :
    quitWorld.haveQuit ≠ 0 ∧ (quitWorld.deref 0).elevatedToken ≠ 0 ∧
    Quit 0 true quitWorld = (some (true, none), quitWorld) :=
  ⟨by decide, by decide,
    (C16_quit_flag_stays_set quitWorld (by decide)).2.2.2.2.1 0 true (by decide)⟩

/-! ## Helper lemmas on tokens -/

theorem resolveToken_good (elevated : Nat → Prop) (env : TokenEnv) (r : Resolved)
    (hs : env.sound elevated) (h : resolveToken env = some r) :
    goodToken elevated r.elevatedToken := by
  obtain ⟨hu, hl⟩ := hs
  unfold resolveToken at h
  cases hut : env.userToken with
  | error e => rw [hut] at h; cases h
  | ok userToken =>
    rw [hut] at h
    simp only [isOperator, Bool.not_false, Bool.and_true] at h
    split at h
    · cases h
    · split at h
      · cases h
      · split at h
        · cases h
        · split at h
          · cases h
          · split at h
            · split at h
              · rename_i he
                cases h
                exact ⟨(hu userToken hut).1, (hu userToken hut).2 he⟩
              · cases hlt : env.linkedToken with
                | error e => rw [hlt] at h; cases h
                | ok linked =>
                  rw [hlt] at h
                  simp only at h
                  split at h
                  · cases h
                  · rename_i he
                    cases h
                    exact ⟨(hl linked hlt).1, (hl linked hlt).2 (by simpa using he)⟩
            · rename_i h1 h2
              simp_all

theorem SupTokens_congr (elevated : Nat → Prop) (st st1 : Sup) (hos : st1.os = st.os)
    (hconns : st1.conns = st.conns) (hloops : st1.loops = st.loops)
    (h : SupTokens elevated st) : SupTokens elevated st1 := by
  unfold SupTokens
  rw [hos, hconns, hloops]
  exact h

theorem SupTokens_setLoop (elevated : Nat → Prop) (st : Sup) (i : Nat) (l : Loop)
    (h : SupTokens elevated st)
    (hl : l.pc = LoopPc.resolve ∨ l.pc = LoopPc.exiting ∨ l.pc = LoopPc.exited ∨
      goodToken elevated l.elevatedToken) :
    SupTokens elevated (st.setLoop i l) := by
  refine ⟨h.1, h.2.1, ?_⟩
  intro l1 hl1
  simp only [Sup.setLoop] at hl1
  rcases List.mem_or_eq_of_mem_set hl1 with hm | rfl
  · exact h.2.2 l1 hm
  · exact hl

theorem SupTokens_closeConn (elevated : Nat → Prop) (st : Sup) (c : Option Nat)
    (h : SupTokens elevated st) : SupTokens elevated (st.closeConn c) := by
  unfold Sup.closeConn
  cases c with
  | none => exact h
  | some k =>
    simp only
    cases hk : st.conns[k]? with
    | none => exact h
    | some conn =>
      refine ⟨h.1, ?_, h.2.2⟩
      intro c1 hc1
      simp only at hc1
      rcases List.mem_or_eq_of_mem_set hc1 with hm | rfl
      · exact h.2.1 c1 hm
      · exact h.2.1 conn (List.getElem?_mem hk)

theorem SupTokens_exitProc (elevated : Nat → Prop) (st : Sup) (pid : Nat) (p : OsProc)
    (code : Nat) (hp : st.os[pid]? = some p) (h : SupTokens elevated st) :
    SupTokens elevated { st with os := st.os.set pid { p with exit := some code } } := by
  refine ⟨?_, h.2.1, h.2.2⟩
  intro q hq
  simp only at hq
  rcases List.mem_or_eq_of_mem_set hq with hm | rfl
  · exact h.1 q hm
  · exact h.1 p (List.getElem?_mem hp)

theorem SupTokens_kill (elevated : Nat → Prop) (st : Sup) (pid : Nat)
    (h : SupTokens elevated st) : SupTokens elevated (st.kill pid) := by
  unfold Sup.kill
  cases hp : st.os[pid]? with
  | none => exact h
  | some p =>
    simp only
    cases hx : p.exit with
    | some c => exact h
    | none => exact SupTokens_exitProc elevated st pid p 1 hp h

theorem SupTokens_killAll (elevated : Nat → Prop) (st : Sup)
    (h : SupTokens elevated st) : SupTokens elevated st.killAll := by
  unfold Sup.killAll
  generalize st.procs = ps
  induction ps generalizing st with
  | nil => exact h
  | cons e rest ih =>
    simp only [List.foldl_cons]
    exact ih (st.kill e.2) (SupTokens_kill elevated st e.2 h)

theorem SupTokens_sessionActive (elevated : Nat → Prop) (st : Sup) (session : Nat)
    (h : SupTokens elevated st) : SupTokens elevated (st.sessionActive session) := by
  unfold Sup.sessionActive
  split
  · exact h
  · simp only
    split
    · exact h
    · refine ⟨h.1, h.2.1, ?_⟩
      intro l hl
      simp only [Sup.goStartProcess, List.mem_append, List.mem_singleton] at hl
      rcases hl with hm | rfl
      · exact h.2.2 l hm
      · exact Or.inl rfl
theorem SupTokens_loopBody (elevated : Nat → Prop) (st : Sup) (i : Nat) (env : LoopEnv)
    (l : Loop) (hs : env.token.sound elevated) (hmem : l ∈ st.loops)
    (h : SupTokens elevated st) : SupTokens elevated (st.loopBody i env l) := by
  have hl := h.2.2 l hmem
  have hgood : l.pc ≠ LoopPc.resolve → l.pc ≠ LoopPc.exiting → l.pc ≠ LoopPc.exited →
      goodToken elevated l.elevatedToken := by
    intro h1 h2 h3
    rcases hl with e | e | e | e
    · exact absurd e h1
    · exact absurd e h2
    · exact absurd e h3
    · exact e
  unfold Sup.loopBody
  split
  · -- resolve
    cases hr : resolveToken env.token with
    | none => exact SupTokens_setLoop _ _ _ _ h (Or.inr (Or.inl rfl))
    | some r =>
      exact SupTokens_setLoop _ _ _ _ h
        (Or.inr (Or.inr (Or.inr (resolveToken_good elevated env.token r hs hr))))
  · -- checkStopping
    rename_i hpc
    have hg := hgood (by rw [hpc]; simp) (by rw [hpc]; simp) (by rw [hpc]; simp)
    split <;> exact SupTokens_setLoop _ _ _ _ h (Or.inr (Or.inr (Or.inr hg)))
  · -- checkAlive
    rename_i hpc
    have hg := hgood (by rw [hpc]; simp) (by rw [hpc]; simp) (by rw [hpc]; simp)
    split <;> exact SupTokens_setLoop _ _ _ _ h (Or.inr (Or.inr (Or.inr hg)))
  · -- debounce
    rename_i hpc
    have hg := hgood (by rw [hpc]; simp) (by rw [hpc]; simp) (by rw [hpc]; simp)
    split <;> exact SupTokens_setLoop _ _ _ _ h (Or.inr (Or.inr (Or.inr hg)))
  · -- pipes
    rename_i hpc
    have hg := hgood (by rw [hpc]; simp) (by rw [hpc]; simp) (by rw [hpc]; simp)
    split <;> exact SupTokens_setLoop _ _ _ _ h (Or.inr (Or.inr (Or.inr hg)))
  · -- listen
    rename_i hpc
    have hg := hgood (by rw [hpc]; simp) (by rw [hpc]; simp) (by rw [hpc]; simp)
    refine SupTokens_setLoop elevated _ i _ ?_ ?_
    swap
    · exact Or.inr (Or.inr (Or.inr hg))
    refine ⟨h.1, ?_, h.2.2⟩
    intro c hc
    simp only [List.mem_append, List.mem_singleton] at hc
    rcases hc with hm | rfl
    · exact h.2.1 c hm
    · exact hg
  · -- exportLog
    rename_i hpc
    have hg := hgood (by rw [hpc]; simp) (by rw [hpc]; simp) (by rw [hpc]; simp)
    split <;> exact SupTokens_setLoop _ _ _ _ h (Or.inr (Or.inr (Or.inr hg)))
  · -- openNull
    rename_i hpc
    have hg := hgood (by rw [hpc]; simp) (by rw [hpc]; simp) (by rw [hpc]; simp)
    split <;> exact SupTokens_setLoop _ _ _ _ h (Or.inr (Or.inr (Or.inr hg)))
  · -- launch
    rename_i hpc
    have hg := hgood (by rw [hpc]; simp) (by rw [hpc]; simp) (by rw [hpc]; simp)
    split
    · refine SupTokens_setLoop elevated _ i _ ?_ ?_
      swap
      · exact Or.inr (Or.inr (Or.inr hg))
      refine ⟨?_, h.2.1, h.2.2⟩
      intro p hp
      simp only [List.mem_append, List.mem_singleton] at hp
      rcases hp with hm | rfl
      · exact h.1 p hm
      · exact hg
    · exact SupTokens_setLoop _ _ _ _ (SupTokens_closeConn _ _ _ h) (Or.inr (Or.inl rfl))
  · -- track
    rename_i pid hpc
    have hg := hgood (by rw [hpc]; simp) (by rw [hpc]; simp) (by rw [hpc]; simp)
    exact SupTokens_setLoop _ _ _ _ (SupTokens_congr _ st _ rfl rfl rfl h)
      (Or.inr (Or.inr (Or.inr hg)))
  · -- wait
    rename_i pid hpc
    have hg := hgood (by rw [hpc]; simp) (by rw [hpc]; simp) (by rw [hpc]; simp)
    split
    · split
      · exact h
      · exact SupTokens_setLoop _ _ _ _ h (Or.inr (Or.inr (Or.inr hg)))
    · exact SupTokens_setLoop _ _ _ _ h (Or.inr (Or.inr (Or.inr hg)))
  · -- untrack
    rename_i dead hpc
    have hg := hgood (by rw [hpc]; simp) (by rw [hpc]; simp) (by rw [hpc]; simp)
    exact SupTokens_setLoop _ _ _ _
      (SupTokens_closeConn _ _ _ (SupTokens_congr _ st _ rfl rfl rfl h))
      (Or.inr (Or.inr (Or.inr hg)))
  · -- exiting
    exact SupTokens_setLoop _ _ _ _ (SupTokens_congr _ st _ rfl rfl rfl h) (Or.inr (Or.inr (Or.inl rfl)))
  · -- exited
    exact h

theorem SupTokens_step (elevated : Nat → Prop) (st : Sup) (e : Event)
    (hs : e.sound elevated) (h : SupTokens elevated st) : SupTokens elevated (st.step e) := by
  cases e with
  | enumerate session state =>
    simp only [Sup.step]
    split
    · split
      · exact h
      · exact SupTokens_sessionActive _ _ _ h
    · exact h
  | logon session =>
    simp only [Sup.step]
    split
    · exact SupTokens_sessionActive _ _ _ h
    · exact h
  | logoff session =>
    simp only [Sup.step, Sup.sessionLogoff]
    split
    · split
      · exact SupTokens_kill _ _ _ (SupTokens_congr _ st _ rfl rfl rfl h)
      · exact SupTokens_congr _ st _ rfl rfl rfl h
    · exact h
  | quitSignal =>
    simp only [Sup.step, Sup.shutdown]
    split
    · exact SupTokens_killAll _ _ (SupTokens_congr _ st _ rfl rfl rfl h)
    · exact h
  | svcStop =>
    simp only [Sup.step, Sup.shutdown]
    split
    · exact SupTokens_killAll _ _ (SupTokens_congr _ st _ rfl rfl rfl h)
    · exact h
  | join =>
    simp only [Sup.step]
    split
    · split
      · exact SupTokens_congr _ st _ rfl rfl rfl h
      · exact h
    · exact h
  | loop i env =>
    simp only [Sup.step, Sup.loopStep]
    cases hl : st.loops[i]? with
    | none => exact h
    | some l => exact SupTokens_loopBody elevated st i env l hs (List.getElem?_mem hl) h
  | helperExit pid exitCode =>
    simp only [Sup.step]
    cases hp : st.os[pid]? with
    | none => exact h
    | some p =>
      simp only
      cases hx : p.exit with
      | some c => exact h
      | none => exact SupTokens_exitProc elevated st pid p exitCode hp h

theorem SupTokens_run (elevated : Nat → Prop) (trace : List Event) (st : Sup)
    (hs : ∀ e ∈ trace, e.sound elevated) (h : SupTokens elevated st) :
    SupTokens elevated (st.run trace) := by
  induction trace generalizing st with
  | nil => exact h
  | cons e rest ih =>
    exact ih (st.step e) (fun e1 he1 => hs e1 (List.mem_cons_of_mem _ he1))
      (SupTokens_step elevated st e (hs e (List.mem_cons_self _ _)) h)

theorem SupTokens_init (elevated : Nat → Prop) (path : String) :
    SupTokens elevated (Sup.init path) := by
  refine ⟨?_, ?_, ?_⟩ <;> intro x hx <;> simp [Sup.init] at hx

/-! ## C17: token resolution in the session control loop -/

/-- C17: token resolution of `startProcess`. A session token that is not
elevated-or-elevatable resolves to nothing, and the control loop then returns without having
launched a helper or set up a connection, for good. With the account checks passed, a token
that is already elevated is used itself; otherwise the linked token is used if it is elevated,
and the loop aborts if the linked token cannot be fetched or is not elevated. Consequently, in
every state the supervisor reaches from its start, on an operating system that answers
truthfully about tokens, the token of every helper process launched and of every connection
set up is non-zero and elevated. -/
theorem C17_token_resolution (elevated : Nat → Prop) (path : String) (trace : List Event)
    (hs : ∀ e ∈ trace, e.sound elevated) :
    (∀ env : TokenEnv, env.isElevatedOrElevatable = false → resolveToken env = none) ∧
    (∀ (env : TokenEnv) (tok : Nat), env.userToken = .ok tok →
      env.isElevatedOrElevatable = true → env.tokenUserOk = true →
      env.lookupAccountOk = true → env.accTypeIsUser = true →
      (env.userIsElevated = true →
        resolveToken env = some ⟨tok, tok, env.userProfileDirectory⟩) ∧
      (env.userIsElevated = false → ∀ linked, env.linkedToken = .ok linked →
        env.linkedIsElevated = true →
        resolveToken env = some ⟨linked, linked, env.userProfileDirectory⟩) ∧
      (env.userIsElevated = false →
        ((∃ e, env.linkedToken = .error e) ∨ env.linkedIsElevated = false) →
        resolveToken env = none)) ∧
    (∀ (st : Sup) (i : Nat) (l : Loop) (env : LoopEnv), st.loops[i]? = some l →
      l.pc = LoopPc.resolve → resolveToken env.token = none →
      (st.runLoop i env 2).loops[i]? = some { l with pc := LoopPc.exited } ∧
      (st.runLoop i env 2).os = st.os ∧ (st.runLoop i env 2).conns = st.conns ∧
      ∀ tr : List Event,
        ((st.runLoop i env 2).run tr).loops[i]? = some { l with pc := LoopPc.exited }) ∧
    (∀ p ∈ ((Sup.init path).run trace).os, p.token ≠ 0 ∧ elevated p.token) ∧
    (∀ c ∈ ((Sup.init path).run trace).conns, c.elevatedToken ≠ 0 ∧ elevated c.elevatedToken) := by
  have hinv := SupTokens_run elevated trace _ hs (SupTokens_init elevated path)
  refine ⟨?_, ?_, ?_, hinv.1, hinv.2.1⟩
  · intro env h
    unfold resolveToken
    cases env.userToken with
    | error e => rfl
    | ok t => simp [h, isOperator]
  · intro env tok hu ha h1 h2 h3
    refine ⟨?_, ?_, ?_⟩
    · intro he
      simp [resolveToken, hu, ha, h1, h2, h3, he, isOperator]
    · intro he linked hl hle
      simp [resolveToken, hu, ha, h1, h2, h3, he, hl, hle, isOperator]
    · intro he hfail
      rcases hfail with ⟨e, hl⟩ | hle
      · simp [resolveToken, hu, ha, h1, h2, h3, he, hl, isOperator]
      · cases hl : env.linkedToken with
        | error e => simp [resolveToken, hu, ha, h1, h2, h3, he, hl, isOperator]
        | ok linked => simp [resolveToken, hu, ha, h1, h2, h3, he, hl, hle, isOperator]
  · intro st i l env hl hpc hr
    have hi := loops_lt_of_get st i l hl
    have key : (st.runLoop i env 2).loops[i]? = some { l with pc := LoopPc.exited } ∧
        (st.runLoop i env 2).os = st.os ∧ (st.runLoop i env 2).conns = st.conns := by
      simp [runLoop_succ, runLoop_zero, Sup.loopStep, Sup.loopBody, Sup.setLoop, Sup.deleteAlive,
        hl, hpc, hr, hi]
    exact ⟨key.1, key.2.1, key.2.2, fun tr => exited_run tr _ i _ key.1 rfl⟩

/-- C17, at a concrete input: session 1 belongs to an administrator whose session token
`0x2a0` is not elevated and whose linked token `0x2a4` is; the helper launched and the
connection set up for the session both carry `0x2a4`. -/
theorem C17_token_resolution_witness :
    (∀ e ∈ Event.logon 1 :: List.replicate 10 (Event.loop 0 goodEnv),
      e.sound (fun t => t = 0x2a4)) ∧
    resolveToken adminToken = some ⟨0x2a4, 0x2a4, "C:\\Users\\u"⟩ ∧
    oneHelperSup.os.map (fun p => p.token) = [0x2a4] ∧
    oneHelperSup.conns.map (fun c => c.elevatedToken) = [0x2a4] ∧
    (∀ p ∈ oneHelperSup.os, p.token ≠ 0 ∧ (fun t => t = 0x2a4) p.token) :=
  ⟨by simp [Event.sound, TokenEnv.sound, goodEnv, adminToken],
    by decide, by decide, by decide,
    (C17_token_resolution (fun t => t = 0x2a4) "C:\\Program Files\\Nebula\\nebula.exe"
      (Event.logon 1 :: List.replicate 10 (Event.loop 0 goodEnv))
      (by simp [Event.sound, TokenEnv.sound, goodEnv, adminToken])).2.2.2.1⟩


/-! ## C18: a session becomes active -/

/-- C18, counterexample to the claim as stated: session 1 has logged off while its helper
was running; the session is not marked alive and `procs` still holds the killed helper. The
logon that follows marks the session alive but starts no control loop. -/
theorem C18_counterexample_no_new_loop :
    1 ∉ loggedOffSup.aliveSessions ∧
    loggedOffSup.procs = [(1, 0)] ∧
    loggedOffSup.loops.length = 1 ∧
    (loggedOffSup.step (Event.logon 1)).aliveSessions = [1] ∧
    (loggedOffSup.step (Event.logon 1)).loops = loggedOffSup.loops ∧
    (loggedOffSup.step (Event.logon 1)).loops.length = 1 := by
  decide

/-- C18 (amended): while the main goroutine serves, a logon notification for session `s` and
the visit of the start-up enumeration to a session `s` in state active or disconnected do the
same thing (a session in another state is skipped). If `aliveSessions[s]` is already true,
nothing changes and no control loop is started. Otherwise `aliveSessions[s]` becomes true, and
a new control loop is started for `s` if and only if `procs` holds no process for `s`; nothing
else changes. -/
theorem C18_session_became_active (st : Sup) (s : Nat) (hserving : st.mainPc = MainPc.serving) :
    st.step (Event.logon s) = st.sessionActive s ∧
    st.step (Event.enumerate s WtsState.WTSActive) = st.sessionActive s ∧
    st.step (Event.enumerate s WtsState.WTSDisconnected) = st.sessionActive s ∧
    (∀ state, state ≠ WtsState.WTSActive → state ≠ WtsState.WTSDisconnected →
      st.step (Event.enumerate s state) = st) ∧
    (s ∈ st.aliveSessions → st.sessionActive s = st) ∧
    (s ∉ st.aliveSessions →
      (st.sessionActive s).aliveSessions = st.aliveSessions ++ [s] ∧
      (st.lookupProc s = none →
        st.sessionActive s =
          { st with
            aliveSessions := st.aliveSessions ++ [s]
            loops := st.loops ++ [⟨s, LoopPc.resolve, true, 0, "", none, 0, 0⟩] }) ∧
      (st.lookupProc s ≠ none →
        st.sessionActive s = { st with aliveSessions := st.aliveSessions ++ [s] })) := by
  refine ⟨?_, ?_, ?_, ?_, ?_, ?_⟩
  · simp [Sup.step, hserving]
  · simp [Sup.step, hserving]
  · simp [Sup.step, hserving]
  · intro state h1 h2
    simp [Sup.step, hserving, h1, h2]
  · intro h
    simp [Sup.sessionActive, h]
  · intro h
    refine ⟨?_, ?_, ?_⟩
    · unfold Sup.sessionActive
      simp only [h, if_false]
      split <;> rfl
    · intro hp
      have hp1 : ({ st with aliveSessions := st.aliveSessions ++ [s] } : Sup).lookupProc s
          = none := hp
      simp only [Sup.sessionActive, h, if_false, hp1, Sup.goStartProcess]
    · intro hp
      have hp1 : ({ st with aliveSessions := st.aliveSessions ++ [s] } : Sup).lookupProc s
          = st.lookupProc s := rfl
      unfold Sup.sessionActive
      simp only [h, if_false, hp1]
      cases hl : st.lookupProc s with
      | none => exact absurd hl hp
      | some pid => rfl

/-- C18, at a concrete input: the first logon of session 1 at the fresh supervisor marks the
session alive and starts control loop 0. -/
theorem C18_session_became_active_witness :
    freshSup.mainPc = MainPc.serving ∧ 1 ∉ freshSup.aliveSessions ∧
    freshSup.lookupProc 1 = none ∧
    freshSup.step (Event.logon 1) =
      { freshSup with
        aliveSessions := [1]
        loops := [⟨1, LoopPc.resolve, true, 0, "", none, 0, 0⟩] } :=
  ⟨by decide, by decide, by decide,
    ((C18_session_became_active freshSup 1 (by decide)).1).trans
      (((C18_session_became_active freshSup 1 (by decide)).2.2.2.2.2 (by decide)).2.1 (by decide))⟩

/-! ## Helper lemmas on decimal strings -/

theorem digitChar_isDigit (d : Nat) (h : d < 10) :
    (Nat.digitChar d).isDigit = true ∧ (Nat.digitChar d).toNat - '0'.toNat = d := by
  interval_cases d <;> decide

theorem toDigitsCore_append (fuel n : Nat) (ds : List Char) :
    Nat.toDigitsCore 10 fuel n ds = Nat.toDigitsCore 10 fuel n [] ++ ds := by
  induction fuel generalizing n ds with
  | zero => simp [Nat.toDigitsCore]
  | succ f ih =>
    simp only [Nat.toDigitsCore]
    split
    · simp
    · rw [ih (n / 10) (Nat.digitChar (n % 10) :: ds), ih (n / 10) [Nat.digitChar (n % 10)]]
      simp

theorem digitsValue_append (xs : List Char) (c : Char) :
    digitsValue (xs ++ [c]) = digitsValue xs * 10 + (c.toNat - '0'.toNat) := by
  simp [digitsValue, List.foldl_append]

theorem toDigitsCore_value (fuel n : Nat) (h : n < fuel) :
    digitsValue (Nat.toDigitsCore 10 fuel n []) = n ∧
    (Nat.toDigitsCore 10 fuel n []).all Char.isDigit = true ∧
    Nat.toDigitsCore 10 fuel n [] ≠ [] := by
  induction fuel generalizing n with
  | zero => omega
  | succ f ih =>
    have hd := digitChar_isDigit (n % 10) (Nat.mod_lt _ (by decide))
    simp only [Nat.toDigitsCore]
    split
    · rename_i h0
      have hn : n % 10 = n := by omega
      refine ⟨?_, ?_, by simp⟩
      · simp only [digitsValue, List.foldl_cons, List.foldl_nil, Nat.zero_mul, Nat.zero_add]
        rw [hd.2, hn]
      · simp [hd.1]
    · rename_i h0
      have hlt : n / 10 < f := by omega
      obtain ⟨h1, h2, h3⟩ := ih (n / 10) hlt
      rw [toDigitsCore_append]
      refine ⟨?_, ?_, by simp [h3]⟩
      · rw [digitsValue_append, h1, hd.2]
        omega
      · simp [List.all_append, h2, hd.1]

theorem parseUint_toString (n : Nat) (h : n < 2 ^ 64) : parseUint (toString n) = some n := by
  have hdata : (toString n).data = Nat.toDigitsCore 10 (n + 1) n [] := rfl
  obtain ⟨h1, h2, h3⟩ := toDigitsCore_value (n + 1) n (Nat.lt_succ_self n)
  unfold parseUint
  rw [hdata]
  have h' : n < 18446744073709551616 := by
    have e : (2 : Nat) ^ 64 = 18446744073709551616 := by norm_num
    omega
  simp [h1, h2, h3, h']

theorem pipeFromHandleArgument_toString (n : Nat) (h : n < 2 ^ 64 - 1) :
    pipeFromHandleArgument (toString n) = .ok (some n) := by
  have e : (2 : Nat) ^ 64 = 18446744073709551616 := by norm_num
  have h1 : n < 2 ^ 64 := by omega
  have h2 : ¬ n = 18446744073709551615 := by omega
  simp [pipeFromHandleArgument, parseUint_toString n h1, newFile, h2]

/-! ## C19: the helper launch contract -/

/-- C19, counterexample to the claim as stated: the supervisor's argument vector has a sixth
element, the handle of the log mapping, after `-ui` and the three pipe handles; and the
helper's `-ui` mode turns the list of the claim (path, `-ui`, three pipe handles) down as
"missing arguments". -/
theorem C19_counterexample_log_mapping_argument :
    helperArgv "C:\\Program Files\\Nebula\\nebula.exe" goodEnv
      = ["C:\\Program Files\\Nebula\\nebula.exe", "-ui", "768", "772", "776", "780"] ∧
    helperArgv "C:\\Program Files\\Nebula\\nebula.exe" goodEnv
      ≠ ["C:\\Program Files\\Nebula\\nebula.exe", "-ui", "768", "772", "776"] ∧
    mainUi ["C:\\Program Files\\Nebula\\nebula.exe", "-ui", "768", "772", "776"] goodUiEnv
      = UiMain.missingArguments := by
  decide

/-- C19 (amended): the helper launch contract is the argument list
`[helperMode, requestHandle, responseHandle, eventHandle, logMappingHandle]`. The control loop
spawns the executable with exactly `-ui`, the three pipe handles and the handle of the log
mapping as decimal strings after the executable path. The helper's `-ui` mode accepts this
list and builds its request, response and event pipes from the first three handles (when it
can open its log file and drop its privileges, the handles being valid 64-bit handles); it
turns down the list without the log mapping handle. -/
theorem C19_helper_launch_contract (path : String) (env : LoopEnv) (uenv : UiMainEnv)
    (hr : env.theirReader < 2 ^ 64 - 1) (hw : env.theirWriter < 2 ^ 64 - 1)
    (he : env.theirEvents < 2 ^ 64 - 1) (hlog : uenv.openLogOk = true)
    (hdrop : uenv.dropAllPrivileges = none) :
    helperArgv path env
      = [path, "-ui", toString env.theirReader, toString env.theirWriter,
          toString env.theirEvents, toString env.theirLogMapping] ∧
    (∀ (st : Sup) (i : Nat) (l : Loop), st.loops[i]? = some l → l.pc = LoopPc.launch →
      l.session ∈ st.aliveSessions → env.startProcessOk = true →
      (st.loopStep i env).os
        = st.os ++ [⟨l.session, l.elevatedToken, helperArgv st.path env, l.dir, none⟩]) ∧
    mainUi (helperArgv path env) uenv
      = UiMain.run (some env.theirReader) (some env.theirWriter) (some env.theirEvents) ∧
    mainUi [path, "-ui", toString env.theirReader, toString env.theirWriter,
        toString env.theirEvents] uenv
      = UiMain.missingArguments := by
  refine ⟨rfl, ?_, ?_, rfl⟩
  · intro st i l hl hpc halive hstart
    simp [Sup.loopStep, hl, Sup.loopBody, hpc, halive, hstart, Sup.setLoop]
  · simp [mainUi, helperArgv, hlog, hdrop, pipeFromHandleArgument_toString _ hr,
      pipeFromHandleArgument_toString _ hw, pipeFromHandleArgument_toString _ he]

/-- C19, at a concrete input: the helper started with the argument vector of `goodEnv` builds
its pipes from the handles 768, 772 and 776. -/
theorem C19_helper_launch_contract_witness :
    goodEnv.theirReader < 2 ^ 64 - 1 ∧ goodEnv.theirWriter < 2 ^ 64 - 1 ∧
    goodEnv.theirEvents < 2 ^ 64 - 1 ∧ goodUiEnv.openLogOk = true ∧
    goodUiEnv.dropAllPrivileges = none ∧
    mainUi (helperArgv "C:\\Program Files\\Nebula\\nebula.exe" goodEnv) goodUiEnv
      = UiMain.run (some 768) (some 772) (some 776) :=
  ⟨by decide, by decide, by decide, by decide, by decide,
    (C19_helper_launch_contract "C:\\Program Files\\Nebula\\nebula.exe" goodEnv goodUiEnv
      (by decide) (by decide) (by decide) (by decide) (by decide)).2.2.1⟩

/-! ## Helper lemmas on shutdown -/

theorem kill_mainPc (st : Sup) (pid : Nat) : (st.kill pid).mainPc = st.mainPc := by
  unfold Sup.kill
  split
  · rfl
  · split <;> rfl

theorem kill_stoppingManager (st : Sup) (pid : Nat) :
    (st.kill pid).stoppingManager = st.stoppingManager := by
  unfold Sup.kill
  split
  · rfl
  · split <;> rfl

theorem foldl_kill_frame (ps : List (Nat × Nat)) (st : Sup) :
    (ps.foldl (fun acc e => acc.kill e.2) st).mainPc = st.mainPc ∧
    (ps.foldl (fun acc e => acc.kill e.2) st).stoppingManager = st.stoppingManager ∧
    (ps.foldl (fun acc e => acc.kill e.2) st).loops = st.loops := by
  induction ps generalizing st with
  | nil => exact ⟨rfl, rfl, rfl⟩
  | cons e rest ih =>
    simp only [List.foldl_cons]
    obtain ⟨h1, h2, h3⟩ := ih (st.kill e.2)
    exact ⟨h1.trans (kill_mainPc _ _), h2.trans (kill_stoppingManager _ _),
      h3.trans (kill_loops _ _)⟩

theorem kill_exited_self (st : Sup) (pid : Nat) (p : OsProc)
    (h : (st.kill pid).os[pid]? = some p) : p.exit ≠ none := by
  unfold Sup.kill at h
  cases hp : st.os[pid]? with
  | none => rw [hp] at h; simp only at h; rw [hp] at h; cases h
  | some q =>
    rw [hp] at h
    simp only at h
    cases hx : q.exit with
    | some c =>
      rw [hx] at h
      simp only at h
      rw [hp] at h
      cases h
      rw [hx]; simp
    | none =>
      rw [hx] at h
      simp only at h
      have hlt : pid < st.os.length := by
        rcases Nat.lt_or_ge pid st.os.length with h1 | h1
        · exact h1
        · rw [List.getElem?_eq_none h1] at hp; cases hp
      rw [List.getElem?_set_self hlt] at h
      cases h
      simp

theorem kill_exited_mono (st : Sup) (pid q : Nat)
    (hq : ∀ p, st.os[q]? = some p → p.exit ≠ none) :
    ∀ p, (st.kill pid).os[q]? = some p → p.exit ≠ none := by
  intro p h
  by_cases hqp : q = pid
  · subst hqp
    exact kill_exited_self st q p h
  · unfold Sup.kill at h
    cases hp : st.os[pid]? with
    | none => rw [hp] at h; exact hq p h
    | some r =>
      rw [hp] at h
      simp only at h
      cases hx : r.exit with
      | some c => rw [hx] at h; exact hq p h
      | none =>
        rw [hx] at h
        simp only at h
        rw [List.getElem?_set_ne (fun e => hqp e.symm)] at h
        exact hq p h

theorem foldl_kill_exited (ps : List (Nat × Nat)) (st : Sup) (q : Nat)
    (h : (∃ e ∈ ps, e.2 = q) ∨ ∀ p, st.os[q]? = some p → p.exit ≠ none) :
    ∀ p, (ps.foldl (fun acc e => acc.kill e.2) st).os[q]? = some p → p.exit ≠ none := by
  induction ps generalizing st with
  | nil =>
    rcases h with ⟨e, he, _⟩ | h
    · cases he
    · exact h
  | cons e rest ih =>
    simp only [List.foldl_cons]
    apply ih
    rcases h with ⟨e1, he1, heq⟩ | h
    · rcases List.mem_cons.mp he1 with rfl | hm
      · right
        subst heq
        exact fun p hp => kill_exited_self st _ p hp
      · exact Or.inl ⟨e1, hm, heq⟩
    · exact Or.inr (kill_exited_mono st e.2 q h)

theorem loopBody_mainPc (st : Sup) (i : Nat) (env : LoopEnv) (l : Loop) :
    (st.loopBody i env l).mainPc = st.mainPc := by
  unfold Sup.loopBody
  split <;> (try split) <;> (try split) <;>
    simp [Sup.setLoop, Sup.deleteAlive, Sup.deleteProc, Sup.setProc, closeConn_mainPc]

theorem loopStep_of_allExited (st : Sup) (i : Nat) (env : LoopEnv) (h : st.allExited = true) :
    st.loopStep i env = st := by
  unfold Sup.loopStep
  cases hl : st.loops[i]? with
  | none => rfl
  | some l =>
    have hmem := List.getElem?_mem hl
    have hpc : l.pc = LoopPc.exited := by
      simp only [Sup.allExited, List.all_eq_true, decide_eq_true_eq] at h
      exact h l hmem
    simp [Sup.loopBody, hpc]

theorem loopStep_mainPc (st : Sup) (i : Nat) (env : LoopEnv) :
    (st.loopStep i env).mainPc = st.mainPc := by
  unfold Sup.loopStep
  split
  · rfl
  · exact loopBody_mainPc _ _ _ _

theorem shutdown_frame (st : Sup) (b : Bool) :
    (st.shutdown b).mainPc = MainPc.stopping b ∧ (st.shutdown b).stoppingManager = true ∧
    (st.shutdown b).loops = st.loops ∧
    ∀ e ∈ st.procs, ∀ p, (st.shutdown b).os[e.2]? = some p → p.exit ≠ none := by
  obtain ⟨h1, h2, h3⟩ := foldl_kill_frame st.procs
    { st with stoppingManager := true, mainPc := MainPc.stopping b }
  refine ⟨h1, h2, h3, ?_⟩
  intro e he
  exact foldl_kill_exited st.procs
    { st with stoppingManager := true, mainPc := MainPc.stopping b } e.2 (Or.inl ⟨e, he, rfl⟩)

theorem join_stopping (st : Sup) (b : Bool) (h : st.mainPc = MainPc.stopping b) :
    st.step Event.join =
      if st.allExited then { st with mainPc := MainPc.finished b } else st := by
  unfold Sup.step
  simp only
  rw [h]

theorem join_finished (st : Sup) (b : Bool) (h : st.mainPc = MainPc.finished b) :
    st.step Event.join = st := by
  unfold Sup.step
  simp only
  rw [h]

theorem step_stopped (b : Bool) (st : Sup) (e : Event)
    (h : st.mainPc = MainPc.stopping b ∨
      (st.mainPc = MainPc.finished b ∧ st.allExited = true)) :
    (st.step e).mainPc = MainPc.stopping b ∨
      ((st.step e).mainPc = MainPc.finished b ∧ (st.step e).allExited = true) := by
  have hne : st.mainPc ≠ MainPc.serving := by
    rcases h with h | ⟨h, _⟩ <;> rw [h] <;> simp
  cases e with
  | enumerate s state => simpa [Sup.step, hne] using h
  | logon s => simpa [Sup.step, hne] using h
  | logoff s => simpa [Sup.step, hne] using h
  | quitSignal => simpa [Sup.step, hne] using h
  | svcStop => simpa [Sup.step, hne] using h
  | join =>
    rcases h with h | ⟨h, ha⟩
    · rw [join_stopping st b h]
      by_cases ha : st.allExited = true
      · right
        rw [if_pos ha]
        exact ⟨rfl, ha⟩
      · left
        rw [if_neg ha]
        exact h
    · rw [join_finished st b h]
      exact Or.inr ⟨h, ha⟩
  | loop i env =>
    rcases h with h | ⟨h, ha⟩
    · left
      simp only [Sup.step]
      rw [loopStep_mainPc, h]
    · right
      simp only [Sup.step]
      rw [loopStep_of_allExited st i env ha]
      exact ⟨h, ha⟩
  | helperExit pid c =>
    simp only [Sup.step]
    split
    · exact h
    · split
      · exact h
      · exact h

theorem run_stopped (b : Bool) (trace : List Event) (st : Sup)
    (h : st.mainPc = MainPc.stopping b ∨
      (st.mainPc = MainPc.finished b ∧ st.allExited = true)) :
    (st.run trace).mainPc = MainPc.stopping b ∨
      ((st.run trace).mainPc = MainPc.finished b ∧ (st.run trace).allExited = true) := by
  induction trace generalizing st with
  | nil => exact h
  | cons e rest ih => exact ih (st.step e) (step_stopped b st e h)

/-! ## Helper lemmas on what keeps the shutdown waiting -/

theorem shutdown_uninstall_flag (st : Sup) (trace : List Event)
    (hserving : st.mainPc = MainPc.serving) :
    (∀ b : Bool,
      (st.step (if b then Event.quitSignal else Event.svcStop)).mainPc = MainPc.stopping b ∧
      (st.step (if b then Event.quitSignal else Event.svcStop)).stoppingManager = true ∧
      (∀ e ∈ st.procs, ∀ p,
        (st.step (if b then Event.quitSignal else Event.svcStop)).os[e.2]? = some p →
          p.exit ≠ none)) ∧
    (∀ b uninstalled : Bool,
      ((st.step (if b then Event.quitSignal else Event.svcStop)).run trace).mainPc =
          MainPc.finished uninstalled →
        uninstalled = b ∧
        ((st.step (if b then Event.quitSignal else Event.svcStop)).run trace).allExited =
          true) ∧
    (∀ b : Bool,
      ((st.step (if b then Event.quitSignal else Event.svcStop)).run trace).allExited = true →
        (((st.step (if b then Event.quitSignal else Event.svcStop)).run trace).step
          Event.join).mainPc = MainPc.finished b) := by
  have hstep : ∀ b : Bool,
      st.step (if b then Event.quitSignal else Event.svcStop) = st.shutdown b := by
    intro b
    cases b <;> simp [Sup.step, hserving]
  have hinv : ∀ b : Bool,
      ((st.step (if b then Event.quitSignal else Event.svcStop)).run trace).mainPc =
          MainPc.stopping b ∨
        (((st.step (if b then Event.quitSignal else Event.svcStop)).run trace).mainPc =
            MainPc.finished b ∧
          ((st.step (if b then Event.quitSignal else Event.svcStop)).run trace).allExited =
            true) := by
    intro b
    apply run_stopped
    left
    rw [hstep b]
    exact (shutdown_frame st b).1
  refine ⟨?_, ?_, ?_⟩
  · intro b
    rw [hstep b]
    obtain ⟨h1, h2, _, h4⟩ := shutdown_frame st b
    exact ⟨h1, h2, h4⟩
  · intro b u hu
    rcases hinv b with h | ⟨h, ha⟩
    · rw [h] at hu
      cases hu
    · rw [h] at hu
      cases hu
      exact ⟨rfl, ha⟩
  · intro b ha
    rcases hinv b with h | ⟨h, _⟩
    · rw [join_stopping _ b h, if_pos ha]
    · rw [join_finished _ b h]
      exact h

theorem loopBody_os_get (st : Sup) (j : Nat) (env : LoopEnv) (l : Loop) (pid : Nat) (q : OsProc)
    (h : st.os[pid]? = some q) : (st.loopBody j env l).os[pid]? = some q := by
  have hlt : pid < st.os.length := by
    rcases Nat.lt_or_ge pid st.os.length with h1 | h1
    · exact h1
    · rw [List.getElem?_eq_none h1] at h; cases h
  unfold Sup.loopBody
  split <;> (try split) <;> (try split) <;>
    simp [Sup.setLoop, Sup.deleteAlive, Sup.deleteProc, Sup.setProc, closeConn_os, h,
      List.getElem?_append_left, hlt]

theorem allExited_false_of_get (st : Sup) (i : Nat) (l : Loop) (hl : st.loops[i]? = some l)
    (hpc : l.pc ≠ LoopPc.exited) : st.allExited = false := by
  cases h : st.allExited with
  | false => rfl
  | true =>
    simp only [Sup.allExited, List.all_eq_true, decide_eq_true_eq] at h
    exact absurd (h l (List.getElem?_mem hl)) hpc

theorem waiting_step (st : Sup) (i : Nat) (l : Loop) (pid : Nat) (q : OsProc) (b : Bool)
    (e : Event) (hmain : st.mainPc = MainPc.stopping b) (hl : st.loops[i]? = some l)
    (hpc : l.pc = LoopPc.wait pid) (hq : st.os[pid]? = some q) (hrun : q.exit = none)
    (he : e.keepsHelper pid) :
    (st.step e).mainPc = MainPc.stopping b ∧ (st.step e).loops[i]? = some l ∧
      (st.step e).os[pid]? = some q := by
  have hne : st.mainPc ≠ MainPc.serving := by rw [hmain]; simp
  have hnot : l.pc ≠ LoopPc.exited := by rw [hpc]; simp
  cases e with
  | enumerate s state => simp [Sup.step, hne, hmain, hl, hq]
  | logon s => simp [Sup.step, hne, hmain, hl, hq]
  | logoff s => simp [Sup.step, hne, hmain, hl, hq]
  | quitSignal => simp [Sup.step, hne, hmain, hl, hq]
  | svcStop => simp [Sup.step, hne, hmain, hl, hq]
  | join =>
    rw [join_stopping st b hmain, allExited_false_of_get st i l hl hnot]
    exact ⟨hmain, hl, hq⟩
  | loop j env =>
    have hw : env.waitOk = true := he
    simp only [Sup.step]
    by_cases hji : j = i
    · subst hji
      have hsame : st.loopStep j env = st := by
        simp [Sup.loopStep, hl, Sup.loopBody, hpc, hw, hq, hrun]
      rw [hsame]
      exact ⟨hmain, hl, hq⟩
    · unfold Sup.loopStep
      cases hj : st.loops[j]? with
      | none => exact ⟨hmain, hl, hq⟩
      | some lj =>
        simp only
        refine ⟨?_, ?_, ?_⟩
        · rw [loopBody_mainPc, hmain]
        · rw [loopBody_loops_other st i j env lj hji, hl]
        · exact loopBody_os_get st j env lj pid q hq
  | helperExit p c =>
    have hp : p ≠ pid := he
    simp only [Sup.step]
    split
    · exact ⟨hmain, hl, hq⟩
    · split
      · exact ⟨hmain, hl, hq⟩
      · refine ⟨hmain, hl, ?_⟩
        simp only
        rw [List.getElem?_set_ne hp, hq]

/-! ## C20: the self-uninstall after a `Quit` -/

/-- C20, what the code does once a control loop has launched a helper after the kill loop of
the shutdown: the main goroutine stands at `procsGroup.Wait()` (after a `Quit` when
`uninstall` is true), control loop `i` stands in `proc.Wait()` for helper `pid`, and the
helper runs. Whatever happens then, short of the helper ending by itself, leaves all this as
it is: the control loop has not returned, `Execute` does not get past `procsGroup.Wait()`,
and `UninstallManagerService` is not called. -/
theorem C20_uninstall_blocked_by_late_helper (st : Sup) (i : Nat) (l : Loop) (pid : Nat)
    (q : OsProc) (uninstall : Bool) (trace : List Event)
    (hmain : st.mainPc = MainPc.stopping uninstall) (hl : st.loops[i]? = some l)
    (hpc : l.pc = LoopPc.wait pid) (hq : st.os[pid]? = some q) (hrun : q.exit = none)
    (htrace : ∀ e ∈ trace, e.keepsHelper pid) :
    (st.run trace).mainPc = MainPc.stopping uninstall ∧
    (∀ u, (st.run trace).mainPc ≠ MainPc.finished u) ∧
    (st.run trace).loops[i]? = some l ∧
    (st.run trace).os[pid]? = some q ∧
    (st.run trace).allExited = false := by
  have hinv : (st.run trace).mainPc = MainPc.stopping uninstall ∧
      (st.run trace).loops[i]? = some l ∧ (st.run trace).os[pid]? = some q := by
    induction trace generalizing st with
    | nil => exact ⟨hmain, hl, hq⟩
    | cons e rest ih =>
      obtain ⟨h1, h2, h3⟩ := waiting_step st i l pid q uninstall e hmain hl hpc hq hrun
        (htrace e (List.mem_cons_self _ _))
      exact ih (st.step e) h1 h2 h3 (fun x hx => htrace x (List.mem_cons_of_mem _ hx))
  obtain ⟨h1, h2, h3⟩ := hinv
  refine ⟨h1, ?_, h2, h3, ?_⟩
  · intro u hu
    rw [h1] at hu
    cases hu
  · exact allExited_false_of_get _ i l h2 (by rw [hpc]; simp)

set_option maxRecDepth 20000 in
/-- C20, at the failing input: helper 0 exits by itself, its control loop passes the test of
`stoppingManager`, the signal of the `Quit` arrives and the main loop shuts down with
`uninstall = true`, killing nothing; the control loop then launches helper 1 and waits for
it. Twenty more turns of the control loop and a join later the main goroutine still stands
at `procsGroup.Wait()`. -/
theorem C20_uninstall_blocked_by_late_helper_witness :
    oneHelperSup.mainPc = MainPc.serving ∧
    lateHelperSup.mainPc = MainPc.stopping true ∧
    lateHelperSup.stoppingManager = true ∧
    lateHelperSup.loops[0]? = some ⟨1, LoopPc.wait 1, false, 0x2a4, "C:\\Users\\u", some 1, 2, 1⟩ ∧
    lateHelperSup.os[1]? = some ⟨1, 0x2a4, helperArgv lateHelperSup.path goodEnv,
      "C:\\Users\\u", none⟩ ∧
    (∀ e ∈ List.replicate 20 (Event.loop 0 goodEnv) ++ [Event.join], e.keepsHelper 1) ∧
    (lateHelperSup.run (List.replicate 20 (Event.loop 0 goodEnv) ++ [Event.join])).mainPc =
      MainPc.stopping true :=
  ⟨by decide, by decide, by decide, by decide, by decide, by decide,
    (C20_uninstall_blocked_by_late_helper lateHelperSup 0
      ⟨1, LoopPc.wait 1, false, 0x2a4, "C:\\Users\\u", some 1, 2, 1⟩ 1
      ⟨1, 0x2a4, helperArgv lateHelperSup.path goodEnv, "C:\\Users\\u", none⟩ true
      (List.replicate 20 (Event.loop 0 goodEnv) ++ [Event.join])
      (by decide) (by decide) rfl (by decide) rfl (by decide)).1⟩

/-! ## Helper lemmas on the actions of the shutdown -/

theorem kill_conns (st : Sup) (pid : Nat) : (st.kill pid).conns = st.conns := by
  unfold Sup.kill
  split
  · rfl
  · split <;> rfl

theorem kill_with_mainPc (st : Sup) (pid : Nat) (m : MainPc) :
    ({ st with mainPc := m }).kill pid = { st.kill pid with mainPc := m } := by
  unfold Sup.kill
  simp only
  split
  · rfl
  · split <;> rfl

theorem foldl_kill_with_mainPc (ps : List (Nat × Nat)) (st : Sup) (m : MainPc) :
    ps.foldl (fun acc e => acc.kill e.2) { st with mainPc := m } =
      { ps.foldl (fun acc e => acc.kill e.2) st with mainPc := m } := by
  induction ps generalizing st with
  | nil => rfl
  | cons e rest ih =>
    simp only [List.foldl_cons]
    rw [kill_with_mainPc, ih]

theorem foldl_kill_conns (ps : List (Nat × Nat)) (st : Sup) :
    (ps.foldl (fun acc e => acc.kill e.2) st).conns = st.conns := by
  induction ps generalizing st with
  | nil => rfl
  | cons e rest ih =>
    simp only [List.foldl_cons]
    rw [ih, kill_conns]

theorem foldl_act_kills (ps : List (Nat × Nat)) (st : Sup) :
    (ps.map (fun e => ShutdownAction.kill e.2)).foldl Sup.act st =
      ps.foldl (fun acc e => acc.kill e.2) st := by
  induction ps generalizing st with
  | nil => rfl
  | cons e rest ih =>
    simp only [List.map_cons, List.foldl_cons]
    exact ih (st.kill e.2)

theorem foldl_act_shutdownActions (st : Sup) (uninstall : Bool) :
    (st.shutdownActions uninstall).foldl Sup.act st =
      st.procs.foldl (fun acc e => acc.kill e.2) { st with stoppingManager := true } := by
  unfold Sup.shutdownActions
  simp only [List.foldl_append, List.foldl_cons, List.foldl_nil, Sup.act, foldl_act_kills]
  cases uninstall <;> simp [Sup.act]

/-! ## C21: what the shutdown tells the connections -/

/-- C21, counterexample to the claim as stated: session 1 has a running helper and an open
connection, and `svc.Stop` arrives. The main goroutine reports `StopPending`, sets
`stoppingManager`, kills helper 0 and waits for the control loops; nothing is written to the
event stream of connection 0. -/
theorem C21_counterexample_no_notification :
    oneHelperSup.mainPc = MainPc.serving ∧
    oneHelperSup.conns = [Conn.mk 1 0x2a4 true] ∧
    oneHelperSup.shutdownActions false =
      [ShutdownAction.status SvcState.StopPending, ShutdownAction.setStopping,
        ShutdownAction.kill 0, ShutdownAction.wait,
        ShutdownAction.status SvcState.StopPending] ∧
    ShutdownAction.notify 0 NotificationType.ManagerStoppingNotificationType ∉
      oneHelperSup.shutdownActions false ∧
    notificationsTo 0 (oneHelperSup.shutdownActions false) = [] := by
  decide

/-- C21 (amended): on shutdown, whether triggered by `svc.Stop` or by a `Quit`, the main
goroutine writes no notification to the event stream of any connection. It reports
`StopPending`, sets `stoppingManager`, kills every helper in `procs` and then waits for the
control loops. Up to the wait these actions take the supervisor to the state of the `svcStop`
step, and the main goroutine has not touched a connection by then (the control loops close
theirs as they return). -/
theorem C21_shutdown_without_notification (st : Sup) (uninstall : Bool) :
    (∀ conn n, ShutdownAction.notify conn n ∉ st.shutdownActions uninstall) ∧
    (∀ conn, notificationsTo conn (st.shutdownActions uninstall) = []) ∧
    (∃ later, st.shutdownActions uninstall =
        [ShutdownAction.status SvcState.StopPending, ShutdownAction.setStopping] ++
          st.procs.map (fun e => ShutdownAction.kill e.2) ++ ShutdownAction.wait :: later ∧
        ∀ pid, ShutdownAction.kill pid ∉ later) ∧
    { (st.shutdownActions uninstall).foldl Sup.act st with
        mainPc := MainPc.stopping uninstall } = st.shutdown uninstall ∧
    st.step Event.svcStop = (if st.mainPc = MainPc.serving then st.shutdown false else st) ∧
    (st.shutdown uninstall).conns = st.conns := by
  have hno : ∀ conn n, ShutdownAction.notify conn n ∉ st.shutdownActions uninstall := by
    intro conn n h
    unfold Sup.shutdownActions at h
    cases uninstall <;> simp at h
  refine ⟨hno, ?_, ?_, ?_, rfl, ?_⟩
  · intro conn
    unfold notificationsTo
    rw [List.filterMap_eq_nil_iff]
    intro a ha
    cases a with
    | notify c n => exact absurd ha (hno c n)
    | status s => rfl
    | setStopping => rfl
    | kill pid => rfl
    | wait => rfl
    | uninstallManager => rfl
  · refine ⟨(if uninstall then [ShutdownAction.uninstallManager] else []) ++
      [ShutdownAction.status SvcState.StopPending], ?_, ?_⟩
    · unfold Sup.shutdownActions
      simp
    · intro pid h
      cases uninstall <;> simp at h
  · rw [foldl_act_shutdownActions, ← foldl_kill_with_mainPc]
    rfl
  · unfold Sup.shutdown Sup.killAll
    rw [foldl_kill_conns]

/-! ## Helper lemmas on `Quit` calls next to the main loop -/

theorem quitStep_idle_open (t : QuitCall) (w : World) (hid : t.idle) (hq : w.haveQuit = 0) :
    ((quitStep t w).1.idle ∧ (quitStep t w).2 = w) ∨
    ((quitStep t w).1.pc = QuitPc.deregister ∧ (quitStep t w).1.effects = [] ∧
      (quitStep t w).2 = { w with haveQuit := 1 }) := by
  obtain ⟨heff, hpc | hpc | hpc | hpc⟩ := hid
  · left
    by_cases htok : (w.deref t.s).elevatedToken = 0
    · simp [quitStep, hpc, htok, QuitCall.idle, heff]
    · simp [quitStep, hpc, htok, QuitCall.idle, heff]
  · right
    simp [quitStep, hpc, hq, heff]
  · left
    simp [quitStep, hpc, QuitCall.idle, heff]
  · left
    simp [quitStep, hpc, QuitCall.idle, heff]

theorem quitStep_idle_closed (t : QuitCall) (w : World) (hid : t.idle) (hq : w.haveQuit ≠ 0) :
    (quitStep t w).1.idle ∧ (quitStep t w).2 = w := by
  obtain ⟨heff, hpc | hpc | hpc | hpc⟩ := hid
  · by_cases htok : (w.deref t.s).elevatedToken = 0
    · simp [quitStep, hpc, htok, QuitCall.idle, heff]
    · simp [quitStep, hpc, htok, QuitCall.idle, heff]
  · simp [quitStep, hpc, hq, QuitCall.idle, heff]
  · simp [quitStep, hpc, QuitCall.idle, heff]
  · simp [quitStep, hpc, QuitCall.idle, heff]

theorem quitStep_hasSent (t : QuitCall) (w : World) (h : t.hasSent) : quitStep t w = (t, w) := by
  simp [quitStep, h.1]

theorem quitStep_beforeSend (t : QuitCall) (w : World) (h : t.beforeSend)
    (hchan : w.quitManagersChan = 0) :
    ((quitStep t w).1.hasSent ∧ (quitStep t w).2.quitManagersChan = 1 ∨
      (quitStep t w).1.beforeSend ∧ (quitStep t w).2.quitManagersChan = 0) ∧
    (quitStep t w).2.haveQuit = w.haveQuit := by
  obtain ⟨hnot, hpc | ⟨todo, hpc⟩ | hpc⟩ := h
  · refine ⟨Or.inr ?_, ?_⟩
    · simp only [quitStep, hpc, QuitCall.beforeSend, World.clearEvents, World.unregister]
      refine ⟨⟨?_, ?_⟩, hchan⟩
      · simpa using hnot
      · cases t.stopTunnelsOnQuit <;> simp
    · simp [quitStep, hpc, World.clearEvents, World.unregister]
  · cases todo with
    | nil =>
      refine ⟨Or.inr ?_, ?_⟩
      · simp [quitStep, hpc, QuitCall.beforeSend, hnot, hchan]
      · simp [quitStep, hpc]
    | cons tun rest =>
      refine ⟨Or.inr ?_, ?_⟩
      · simp only [quitStep, hpc, QuitCall.beforeSend]
        refine ⟨⟨?_, ?_⟩, hchan⟩
        · simpa using hnot
        · simp
      · simp [quitStep, hpc]
  · refine ⟨Or.inl ?_, ?_⟩
    · simp only [quitStep, hpc, hchan, QuitCall.hasSent]
      refine ⟨⟨by simp, ?_⟩, by simp⟩
      have h0 : t.effects.count QuitEffect.signalled = 0 := List.count_eq_zero.mpr hnot
      simp [List.count_append, h0]
    · simp [quitStep, hpc, hchan]

theorem QuitMainInv_step (sys : QuitSys) (i : Nat) (hinv : QuitMainInv sys) :
    QuitMainInv (sys.step i) := by
  cases hget : sys.calls[i]? with
  | none => rw [QuitSys.step_none sys i hget]; exact hinv
  | some t =>
    rw [QuitSys.step_of sys i t hget]
    obtain ⟨hle, hmain⟩ := hinv
    rcases hmain with ⟨hq, hchan, hall⟩ | ⟨hq, i0, t0, hget0, hact, hothers⟩
    · rcases quitStep_idle_open t sys.world (hall i t hget) hq with ⟨hp, hw⟩ | ⟨hp, he, hw⟩
      · rw [hw]
        refine ⟨hle, Or.inl ⟨hq, hchan, ?_⟩⟩
        intro j u hu
        simp only at hu
        rcases get_set_cases _ _ _ _ _ hu with ⟨_, rfl⟩ | ⟨_, hold⟩
        · exact hp
        · exact hall j u hold
      · rw [hw]
        refine ⟨hle, Or.inr ⟨by simp, i, (quitStep t sys.world).1, ?_, Or.inr ⟨⟨?_, Or.inl hp⟩, hchan⟩, ?_⟩⟩
        · simp only
          exact List.getElem?_set_self (calls_lt_of_get sys i t hget)
        · rw [he]; simp
        · intro j u hji hu
          simp only at hu
          rcases get_set_cases _ _ _ _ _ hu with ⟨e, _⟩ | ⟨_, hold⟩
          · exact absurd e hji
          · exact hall j u hold
    · by_cases hii : i = i0
      · subst hii
        have ht : t0 = t := by rw [hget] at hget0; exact (Option.some.inj hget0).symm
        subst ht
        have hothers1 : ∀ (j : Nat) (u : QuitCall), j ≠ i →
            (sys.calls.set i (quitStep t0 sys.world).1)[j]? = some u → u.idle := by
          intro j u hji hu
          rcases get_set_cases _ _ _ _ _ hu with ⟨e, _⟩ | ⟨_, hold⟩
          · exact absurd e hji
          · exact hothers j u hji hold
        have hself : (sys.calls.set i (quitStep t0 sys.world).1)[i]? =
            some (quitStep t0 sys.world).1 :=
          List.getElem?_set_self (calls_lt_of_get sys i t0 hget)
        rcases hact with hs | ⟨hb, hc⟩
        · rw [quitStep_hasSent t0 sys.world hs]
          refine ⟨hle, Or.inr ⟨hq, i, t0, ?_, Or.inl hs, ?_⟩⟩
          · rw [quitStep_hasSent t0 sys.world hs] at hself; exact hself
          · rw [quitStep_hasSent t0 sys.world hs] at hothers1; exact hothers1
        · obtain ⟨hcase, hhq⟩ := quitStep_beforeSend t0 sys.world hb hc
          rcases hcase with ⟨h1, h2⟩ | ⟨h1, h2⟩
          · refine ⟨by simp only; omega, Or.inr ⟨by simp only; rw [hhq]; exact hq, i,
              (quitStep t0 sys.world).1, hself, Or.inl h1, hothers1⟩⟩
          · refine ⟨by simp only; omega, Or.inr ⟨by simp only; rw [hhq]; exact hq, i,
              (quitStep t0 sys.world).1, hself, Or.inr ⟨h1, h2⟩, hothers1⟩⟩
      · obtain ⟨hpl, hw⟩ := quitStep_idle_closed t sys.world (hothers i t hii hget) hq
        rw [hw]
        refine ⟨hle, Or.inr ⟨hq, i0, t0, ?_, hact, ?_⟩⟩
        · simp only
          rw [List.getElem?_set_ne hii]; exact hget0
        · intro j u hji hu
          simp only at hu
          rcases get_set_cases _ _ _ _ _ hu with ⟨_, rfl⟩ | ⟨_, hold⟩
          · exact hpl
          · exact hothers j u hji hold

theorem QuitMainInv_action (m : QuitMain) (a : QuitAction) (hinv : QuitMainInv m.sys) :
    QuitMainInv (m.step a).sys := by
  cases a with
  | call i => exact QuitMainInv_step m.sys i hinv
  | stop =>
    simp only [QuitMain.step]
    split <;> exact hinv
  | receive =>
    simp only [QuitMain.step]
    split
    · rename_i hcond
      simp only [Bool.and_eq_true, decide_eq_true_eq] at hcond
      obtain ⟨hle, hmain⟩ := hinv
      rcases hmain with ⟨_, hchan, _⟩ | ⟨hq, i0, t0, hget0, hact, hothers⟩
      · omega
      · rcases hact with hs | ⟨_, hc⟩
        · exact ⟨by simp only; omega, Or.inr ⟨hq, i0, t0, hget0, Or.inl hs, hothers⟩⟩
        · omega
    · exact hinv

theorem QuitMainInv_run (schedule : List QuitAction) (m : QuitMain) (hinv : QuitMainInv m.sys) :
    QuitMainInv (m.run schedule).sys := by
  induction schedule generalizing m with
  | nil => exact hinv
  | cons a rest ih => exact ih (m.step a) (QuitMainInv_action m a hinv)

theorem QuitMainInv_init (args : List (Nat × Bool)) (w : World) (hq : w.haveQuit = 0)
    (hchan : w.quitManagersChan = 0) : QuitMainInv (QuitMain.init args w).sys := by
  refine ⟨by simp [QuitMain.init, QuitSys.init, hchan], Or.inl ⟨hq, hchan, ?_⟩⟩
  intro j t h
  simp only [QuitMain.init, QuitSys.init, List.getElem?_map, Option.map_eq_some'] at h
  obtain ⟨a, _, rfl⟩ := h
  simp [QuitCall.init, QuitCall.idle]

theorem idle_not_signalled (t : QuitCall) (h : t.idle) : QuitEffect.signalled ∉ t.effects := by
  rw [h.1]; simp

/-! ## C22: the send on `quitManagersChan` -/

/-- C22: any number of `Quit` calls, by connections with or without an elevated token, run
from `haveQuit = 0` and an empty `quitManagersChan` next to the main loop of `Execute`, which
may take the value from the channel or leave its `select` on `svc.Stop` at any moment. At
every moment at most one call has sent on `quitManagersChan`, that call has sent exactly once
and is the one that returns `(false, nil)`; the channel never holds more than one value; and
whenever a call stands at its send the channel is empty, so that its next step completes the
send and the call returns. -/
theorem C22_quit_send_never_blocks (args : List (Nat × Bool)) (w : World)
    (schedule : List QuitAction) (hq : w.haveQuit = 0) (hchan : w.quitManagersChan = 0) :
    (∀ (i j : Nat) (t u : QuitCall),
      ((QuitMain.init args w).run schedule).sys.calls[i]? = some t →
      ((QuitMain.init args w).run schedule).sys.calls[j]? = some u →
      QuitEffect.signalled ∈ t.effects → QuitEffect.signalled ∈ u.effects → i = j) ∧
    (∀ (i : Nat) (t : QuitCall),
      ((QuitMain.init args w).run schedule).sys.calls[i]? = some t →
      QuitEffect.signalled ∈ t.effects →
      t.effects.count QuitEffect.signalled = 1 ∧ t.pc = QuitPc.done false none) ∧
    ((QuitMain.init args w).run schedule).sys.world.quitManagersChan ≤ 1 ∧
    (∀ (i : Nat) (t : QuitCall),
      ((QuitMain.init args w).run schedule).sys.calls[i]? = some t → t.pc = QuitPc.send →
      ((QuitMain.init args w).run schedule).sys.world.quitManagersChan = 0 ∧
      (((QuitMain.init args w).run schedule).step (QuitAction.call i)).sys.world.quitManagersChan
        = 1 ∧
      ∃ u, (((QuitMain.init args w).run schedule).step (QuitAction.call i)).sys.calls[i]?
          = some u ∧ u.pc = QuitPc.done false none) := by
  have hinv := QuitMainInv_run schedule _ (QuitMainInv_init args w hq hchan)
  obtain ⟨hle, hmain⟩ := hinv
  have hone : ∀ (i : Nat) (t : QuitCall),
      ((QuitMain.init args w).run schedule).sys.calls[i]? = some t → ¬ t.idle →
      ∃ t0, ((QuitMain.init args w).run schedule).sys.calls[i]? = some t0 ∧ t0 = t ∧
        (t.hasSent ∨
          (t.beforeSend ∧
            ((QuitMain.init args w).run schedule).sys.world.quitManagersChan = 0)) ∧
        ∀ (j : Nat) (u : QuitCall), j ≠ i →
          ((QuitMain.init args w).run schedule).sys.calls[j]? = some u → u.idle := by
    intro i t hget hnid
    rcases hmain with ⟨_, _, hall⟩ | ⟨_, i0, t0, hget0, hact, hothers⟩
    · exact absurd (hall i t hget) hnid
    · by_cases hii : i = i0
      · subst hii
        have ht : t0 = t := by rw [hget] at hget0; exact (Option.some.inj hget0).symm
        subst ht
        exact ⟨t0, hget, rfl, hact, hothers⟩
      · exact absurd (hothers i t hii hget) hnid
  refine ⟨?_, ?_, hle, ?_⟩
  · intro i j t u hgi hgj hsi hsj
    obtain ⟨_, _, _, _, hothers⟩ := hone i t hgi (fun hid => idle_not_signalled t hid hsi)
    by_contra hne
    exact idle_not_signalled u (hothers j u (fun e => hne e.symm) hgj) hsj
  · intro i t hgi hsi
    obtain ⟨_, _, _, hact, _⟩ := hone i t hgi (fun hid => idle_not_signalled t hid hsi)
    rcases hact with hs | ⟨hb, _⟩
    · exact ⟨hs.2, hs.1⟩
    · exact absurd hsi hb.1
  · intro i t hgi hpc
    have hnid : ¬ t.idle := by
      rintro ⟨_, h | h | h | h⟩ <;> (rw [hpc] at h; cases h)
    obtain ⟨_, _, _, hact, _⟩ := hone i t hgi hnid
    rcases hact with hs | ⟨_, hc⟩
    · have := hs.1
      rw [hpc] at this
      cases this
    · refine ⟨hc, ?_, ?_⟩
      · simp only [QuitMain.step]
        rw [QuitSys.step_of _ i t hgi]
        simp [quitStep, hpc, hc]
      · simp only [QuitMain.step]
        rw [QuitSys.step_of _ i t hgi]
        refine ⟨(quitStep t ((QuitMain.init args w).run schedule).sys.world).1,
          List.getElem?_set_self (calls_lt_of_get _ i t hgi), ?_⟩
        simp [quitStep, hpc, hc]

/-- C22, at a concrete input: the main loop leaves on `svc.Stop`, then two elevated
connections call `Quit`; call 1 wins, its send finds the channel empty, and the value stays
in the channel. -/
theorem C22_quit_send_never_blocks_witness :
    twoElevatedWorld.haveQuit = 0 ∧ twoElevatedWorld.quitManagersChan = 0 ∧
    ((QuitMain.init [(0, true), (1, false)] twoElevatedWorld).run
        (QuitAction.stop :: quitSchedule.map QuitAction.call)).inSelect = false ∧
    ((QuitMain.init [(0, true), (1, false)] twoElevatedWorld).run
        (QuitAction.stop :: quitSchedule.map QuitAction.call)).sys.world.quitManagersChan = 1 ∧
    ((QuitMain.init [(0, true), (1, false)] twoElevatedWorld).run
        (QuitAction.stop :: quitSchedule.map QuitAction.call)).sys.world.quitManagersChan ≤ 1 :=
  ⟨rfl, rfl, by decide, by decide,
    (C22_quit_send_never_blocks [(0, true), (1, false)] twoElevatedWorld
      (QuitAction.stop :: quitSchedule.map QuitAction.call) rfl rfl).2.2.1⟩

/-! ## Helper lemmas on the client's event loop -/

theorem rangeTunnelInfo_iff (tunnelInfo : List TunnelInfo) (tunnelName : String)
    (tunnelState : Int) :
    rangeTunnelInfo tunnelInfo tunnelName tunnelState = true ↔
      ∃ ti ∈ tunnelInfo, ti.Name = tunnelName := by
  induction tunnelInfo with
  | nil => simp [rangeTunnelInfo]
  | cons ti rest ih =>
    unfold rangeTunnelInfo
    by_cases h : ti.Name = tunnelName
    · simp [h]
    · simp [h, ih]

theorem tunnelStateNotification_of_mem (tunnelInfo : List TunnelInfo) (tunnelName : String)
    (tunnelState : Int) (h : ∃ ti ∈ tunnelInfo, ti.Name = tunnelName) :
    tunnelStateNotification tunnelInfo tunnelName tunnelState = tunnelInfo := by
  unfold tunnelStateNotification
  rw [if_pos ((rangeTunnelInfo_iff tunnelInfo tunnelName tunnelState).mpr h)]

theorem tunnelStateNotification_mem (tunnelInfo : List TunnelInfo) (tunnelName : String)
    (tunnelState : Int) (ti : TunnelInfo) (h : ti ∈ tunnelInfo) :
    ti ∈ tunnelStateNotification tunnelInfo tunnelName tunnelState := by
  unfold tunnelStateNotification
  split
  · exact h
  · exact List.mem_append_left _ h

theorem tunnelStateNotification_unique (tunnelInfo : List TunnelInfo) (tunnelName : String)
    (tunnelState : Int) (h : infoNamesUnique tunnelInfo) :
    infoNamesUnique (tunnelStateNotification tunnelInfo tunnelName tunnelState) := by
  unfold tunnelStateNotification
  split
  · exact h
  · rename_i hno
    have hno1 : ¬ ∃ ti ∈ tunnelInfo, ti.Name = tunnelName := by
      rw [← rangeTunnelInfo_iff tunnelInfo tunnelName tunnelState]
      exact hno
    unfold infoNamesUnique at h ⊢
    rw [List.map_append, List.nodup_append]
    refine ⟨h, by simp, ?_⟩
    intro a ha hb
    simp only [List.map_cons, List.map_nil, List.mem_singleton] at hb
    subst hb
    obtain ⟨ti, hti, hname⟩ := List.mem_map.mp ha
    exact hno1 ⟨ti, hti, hname⟩

theorem eventLoopBody_tunnelState (n : String × Int) (rest : List Value)
    (tunnelInfo : List TunnelInfo) (hname : n.1 ≠ "") :
    eventLoopBody (encodeTunnelState n ++ rest) tunnelInfo =
      some (rest, tunnelStateNotification tunnelInfo n.1 n.2) := by
  simp [eventLoopBody, encodeTunnelState, decodeInt, decodeString, NotificationType.toInt, hname]

theorem eventLoop_tunnelStates (ns : List (String × Int)) (k : Nat)
    (tunnelInfo : List TunnelInfo) (hnames : ∀ n ∈ ns, n.1 ≠ "") :
    eventLoop (ns.length + 1 + k) (encodeTunnelStates ns) tunnelInfo =
      ns.foldl (fun acc n => tunnelStateNotification acc n.1 n.2) tunnelInfo := by
  induction ns generalizing tunnelInfo with
  | nil =>
    simp only [List.length_nil, encodeTunnelStates, List.foldl_nil]
    have e : 0 + 1 + k = k + 1 := by omega
    rw [e]
    simp [eventLoop, eventLoopBody, decodeInt]
  | cons n rest ih =>
    have e : (n :: rest).length + 1 + k = (rest.length + 1 + k) + 1 := by
      simp only [List.length_cons]; omega
    rw [e]
    simp only [eventLoop, encodeTunnelStates, List.foldl_cons]
    rw [eventLoopBody_tunnelState n _ tunnelInfo (hnames n (List.mem_cons_self _ _))]
    simp only
    exact ih _ (fun m hm => hnames m (List.mem_cons_of_mem _ hm))

theorem encodeTunnelStates_length (ns : List (String × Int)) :
    (encodeTunnelStates ns).length = 3 * ns.length := by
  induction ns with
  | nil => rfl
  | cons n rest ih =>
    simp only [encodeTunnelStates, encodeTunnelState, List.length_append, List.length_cons,
      List.length_nil, ih]
    omega

theorem clientEventLoop_tunnelStates (ns : List (String × Int)) (tunnelInfo : List TunnelInfo)
    (hnames : ∀ n ∈ ns, n.1 ≠ "") :
    clientEventLoop (encodeTunnelStates ns) tunnelInfo =
      ns.foldl (fun acc n => tunnelStateNotification acc n.1 n.2) tunnelInfo := by
  unfold clientEventLoop
  rw [encodeTunnelStates_length]
  have e : 3 * ns.length + 1 = ns.length + 1 + 2 * ns.length := by omega
  rw [e]
  exact eventLoop_tunnelStates ns _ tunnelInfo hnames

theorem foldl_tunnelState_mem (ns : List (String × Int)) (tunnelInfo : List TunnelInfo)
    (ti : TunnelInfo) (h : ti ∈ tunnelInfo) :
    ti ∈ ns.foldl (fun acc n => tunnelStateNotification acc n.1 n.2) tunnelInfo := by
  induction ns generalizing tunnelInfo with
  | nil => exact h
  | cons n rest ih =>
    simp only [List.foldl_cons]
    exact ih _ (tunnelStateNotification_mem tunnelInfo n.1 n.2 ti h)

theorem foldl_tunnelState_unique (ns : List (String × Int)) (tunnelInfo : List TunnelInfo)
    (h : infoNamesUnique tunnelInfo) :
    infoNamesUnique (ns.foldl (fun acc n => tunnelStateNotification acc n.1 n.2) tunnelInfo) := by
  induction ns generalizing tunnelInfo with
  | nil => exact h
  | cons n rest ih =>
    simp only [List.foldl_cons]
    exact ih _ (tunnelStateNotification_unique tunnelInfo n.1 n.2 h)

/-! ## C23: `TunnelState` notifications in the client's event loop -/

/-- C23, what the code does: a `TunnelState` notification `(name, state)` with a non-empty
name for which `tunnelInfo` has an entry leaves `tunnelInfo` exactly as it is, so the entry
keeps the state it had (the assignment in the `range` loop reaches a copy); without an entry
of that name, the one entry `{name, state}` is appended. Over any sequence of such
notifications the names stay unique and every entry, once in `tunnelInfo`, stays unchanged:
its `State` is the first state received for its name, not the most recent one. -/
theorem C23_state_update_lost (tunnelInfo : List TunnelInfo) (tunnelName : String)
    (tunnelState : Int) (hname : tunnelName ≠ "") :
    ((∃ ti ∈ tunnelInfo, ti.Name = tunnelName) →
      clientEventLoop (encodeTunnelState (tunnelName, tunnelState)) tunnelInfo = tunnelInfo) ∧
    ((¬ ∃ ti ∈ tunnelInfo, ti.Name = tunnelName) →
      clientEventLoop (encodeTunnelState (tunnelName, tunnelState)) tunnelInfo =
        tunnelInfo ++ [⟨tunnelName, tunnelState⟩]) ∧
    (∀ ns : List (String × Int), (∀ n ∈ ns, n.1 ≠ "") →
      (infoNamesUnique tunnelInfo →
        infoNamesUnique (clientEventLoop (encodeTunnelStates ns) tunnelInfo)) ∧
      (∀ ti ∈ tunnelInfo, ti ∈ clientEventLoop (encodeTunnelStates ns) tunnelInfo) ∧
      (∀ later : Int, clientEventLoop
          (encodeTunnelStates ((tunnelName, tunnelState) :: ns ++ [(tunnelName, later)])) [] =
        clientEventLoop (encodeTunnelStates ((tunnelName, tunnelState) :: ns)) [] ∧
        (⟨tunnelName, tunnelState⟩ : TunnelInfo) ∈ clientEventLoop
          (encodeTunnelStates ((tunnelName, tunnelState) :: ns ++ [(tunnelName, later)])) [])) := by
  have hone : clientEventLoop (encodeTunnelState (tunnelName, tunnelState)) tunnelInfo =
      tunnelStateNotification tunnelInfo tunnelName tunnelState := by
    have h := clientEventLoop_tunnelStates [(tunnelName, tunnelState)] tunnelInfo
      (by intro n hn; simp only [List.mem_singleton] at hn; subst hn; exact hname)
    simpa [encodeTunnelStates] using h
  refine ⟨?_, ?_, ?_⟩
  · intro hex
    rw [hone]
    unfold tunnelStateNotification
    rw [if_pos ((rangeTunnelInfo_iff tunnelInfo tunnelName tunnelState).mpr hex)]
  · intro hno
    rw [hone]
    unfold tunnelStateNotification
    rw [if_neg (fun h => hno ((rangeTunnelInfo_iff tunnelInfo tunnelName tunnelState).mp h))]
  · intro ns hnames
    refine ⟨?_, ?_, ?_⟩
    · intro hu
      rw [clientEventLoop_tunnelStates ns tunnelInfo hnames]
      exact foldl_tunnelState_unique ns tunnelInfo hu
    · intro ti hti
      rw [clientEventLoop_tunnelStates ns tunnelInfo hnames]
      exact foldl_tunnelState_mem ns tunnelInfo ti hti
    · intro later
      have hn1 : ∀ n ∈ (tunnelName, tunnelState) :: ns, n.1 ≠ "" := by
        intro n hn
        rcases List.mem_cons.mp hn with rfl | hn
        · exact hname
        · exact hnames n hn
      have hn2 : ∀ n ∈ (tunnelName, tunnelState) :: ns ++ [(tunnelName, later)], n.1 ≠ "" := by
        intro n hn
        rcases List.mem_append.mp hn with hn | hn
        · exact hn1 n hn
        · simp only [List.mem_singleton] at hn; subst hn; exact hname
      have hfirst : (⟨tunnelName, tunnelState⟩ : TunnelInfo) ∈
          ((tunnelName, tunnelState) :: ns).foldl
            (fun acc n => tunnelStateNotification acc n.1 n.2) [] := by
        simp only [List.foldl_cons]
        apply foldl_tunnelState_mem
        simp [tunnelStateNotification, rangeTunnelInfo]
      rw [clientEventLoop_tunnelStates _ [] hn2, clientEventLoop_tunnelStates _ [] hn1]
      have hstep : ((tunnelName, tunnelState) :: ns ++ [(tunnelName, later)]).foldl
          (fun acc n => tunnelStateNotification acc n.1 n.2) [] =
          ((tunnelName, tunnelState) :: ns).foldl
            (fun acc n => tunnelStateNotification acc n.1 n.2) [] := by
        rw [List.foldl_append]
        simp only [List.foldl_cons, List.foldl_nil]
        have hex : ∃ ti ∈ ((tunnelName, tunnelState) :: ns).foldl
            (fun acc n => tunnelStateNotification acc n.1 n.2) [], ti.Name = tunnelName :=
          ⟨⟨tunnelName, tunnelState⟩, hfirst, rfl⟩
        simp only [List.foldl_cons] at hex
        exact tunnelStateNotification_of_mem _ tunnelName later hex
      rw [hstep]
      exact ⟨rfl, hfirst⟩

/-- C23, at the failing input: the event stream carries `TunnelState("foo", 1)` and then
`TunnelState("foo", 2)`; afterwards `tunnelInfo` is `[{foo 1}]`, the state of `foo` being the
first one received. -/
theorem C23_state_update_lost_witness :
    ("foo" : String) ≠ "" ∧
    clientEventLoop (encodeTunnelStates [("foo", 1), ("foo", 2)]) [] = [⟨"foo", 1⟩] ∧
    clientEventLoop (encodeTunnelState ("foo", 2)) [⟨"foo", 1⟩] = [⟨"foo", 1⟩] :=
  ⟨by decide, by decide,
    (C23_state_update_lost [⟨"foo", 1⟩] "foo" 2 (by decide)).1 ⟨⟨"foo", 1⟩, by simp, rfl⟩⟩

/-! ## Helper lemmas on `path.Join` and `filepath.Base` -/

theorem takeWhile_append_stop {α : Type} (p : α → Bool) (a : List α) (b : α) (c : List α)
    (ha : ∀ x ∈ a, p x = true) (hb : p b = false) : (a ++ b :: c).takeWhile p = a := by
  induction a with
  | nil => simp [List.takeWhile, hb]
  | cons x xs ih =>
    have hx : p x = true := ha x (List.mem_cons_self _ _)
    rw [List.cons_append, List.takeWhile_cons_of_pos hx,
      ih (fun y hy => ha y (List.mem_cons_of_mem _ hy))]

theorem splitSlash_ne_nil (a : List Char) : splitSlash a ≠ [] := by
  cases a with
  | nil => simp [splitSlash]
  | cons c cs =>
    unfold splitSlash
    split
    · simp
    · split <;> simp

theorem splitSlash_of_not_mem (a : List Char) (h : '/' ∉ a) : splitSlash a = [a] := by
  induction a with
  | nil => rfl
  | cons c cs ih =>
    have hc : c ≠ '/' := fun e => h (by rw [e]; exact List.mem_cons_self _ _)
    have hcs : '/' ∉ cs := fun e => h (List.mem_cons_of_mem _ e)
    rw [splitSlash, if_neg hc, ih hcs]

theorem splitSlash_cons (c : Char) (cs : List Char) (hc : c ≠ '/') :
    splitSlash (c :: cs) =
      (match splitSlash cs with
       | [] => [[c]]
       | e :: es => (c :: e) :: es) := by
  rw [splitSlash, if_neg hc]

theorem splitSlash_append (a b : List Char) (h : '/' ∉ a) :
    splitSlash (a ++ '/' :: b) = a :: splitSlash b := by
  induction a with
  | nil => simp [splitSlash]
  | cons c cs ih =>
    have hc : c ≠ '/' := fun e => h (by rw [e]; exact List.mem_cons_self _ _)
    have hcs : '/' ∉ cs := fun e => h (List.mem_cons_of_mem _ e)
    rw [List.cons_append, splitSlash_cons c _ hc, ih hcs]

theorem splitSlash_joinSlash (elems : List (List Char)) (hne : elems ≠ [])
    (h : ∀ e ∈ elems, '/' ∉ e) : splitSlash (joinSlash elems) = elems := by
  induction elems with
  | nil => exact absurd rfl hne
  | cons e es ih =>
    cases es with
    | nil => exact splitSlash_of_not_mem e (h e (List.mem_cons_self _ _))
    | cons e2 es2 =>
      have : joinSlash (e :: e2 :: es2) = e ++ '/' :: joinSlash (e2 :: es2) := rfl
      rw [this, splitSlash_append e _ (h e (List.mem_cons_self _ _)),
        ih (by simp) (fun x hx => h x (List.mem_cons_of_mem _ hx))]

theorem foldl_cleanPush (rooted : Bool) (elems kept : List (List Char))
    (h : ∀ e ∈ elems, e ≠ [] ∧ e ≠ ['.'] ∧ e ≠ ['.', '.']) :
    elems.foldl (cleanPush rooted) kept = kept ++ elems := by
  induction elems generalizing kept with
  | nil => simp
  | cons e es ih =>
    obtain ⟨h1, h2, h3⟩ := h e (List.mem_cons_self _ _)
    have hpush : cleanPush rooted kept e = kept ++ [e] := by
      simp [cleanPush, h1, h2, h3]
    rw [List.foldl_cons, hpush, ih _ (fun x hx => h x (List.mem_cons_of_mem _ hx))]
    simp

theorem joinSlash_head (e : List Char) (es : List (List Char)) (c : Char) (cs : List Char)
    (he : e = c :: cs) : ∃ tl, joinSlash (e :: es) = c :: tl := by
  subst he
  cases es with
  | nil => exact ⟨cs, rfl⟩
  | cons e2 es2 => exact ⟨cs ++ '/' :: joinSlash (e2 :: es2), rfl⟩

theorem pathClean_joinSlash (elems : List (List Char)) (hne : elems ≠ [])
    (h : ∀ e ∈ elems, e ≠ [] ∧ e ≠ ['.'] ∧ e ≠ ['.', '.'] ∧ '/' ∉ e) :
    pathClean (joinSlash elems) = joinSlash elems := by
  obtain ⟨e, es, rfl⟩ := List.exists_cons_of_ne_nil hne
  obtain ⟨he1, _, _, he4⟩ := h e (List.mem_cons_self _ _)
  obtain ⟨c, cs, hc⟩ := List.exists_cons_of_ne_nil he1
  obtain ⟨tl, htl⟩ := joinSlash_head e es c cs hc
  have hslash : c ≠ '/' := fun e1 => he4 (by rw [hc, e1]; exact List.mem_cons_self _ _)
  have hsplit := splitSlash_joinSlash (e :: es) hne (fun x hx => (h x hx).2.2.2)
  have hfold := foldl_cleanPush false (e :: es) []
    (fun x hx => ⟨(h x hx).1, (h x hx).2.1, (h x hx).2.2.1⟩)
  have hJne : joinSlash (e :: es) ≠ [] := by rw [htl]; simp
  have hhead : ¬ (joinSlash (e :: es)).head? = some '/' := by
    rw [htl]
    simpa using hslash
  unfold pathClean
  rw [if_neg hJne, hsplit]
  simp only [hhead, decide_False, hfold, List.nil_append]
  simp [hJne]

theorem baseChars_join (d n : List Char) (hne : n ≠ [])
    (hsep : ∀ c ∈ n, isPathSeparator c = false)
    (hk : volumeNameLen (d ++ '/' :: n) ≤ d.length) : baseChars (d ++ '/' :: n) = n := by
  have hL : d ++ '/' :: n ≠ [] := by simp
  have hrev : n.reverse ≠ [] := by simpa using hne
  obtain ⟨x, xs, hx⟩ := List.exists_cons_of_ne_nil hrev
  have hxmem : x ∈ n := by
    have : x ∈ n.reverse := by rw [hx]; exact List.mem_cons_self _ _
    exact List.mem_reverse.mp this
  have h1 : ((d ++ '/' :: n).reverse.dropWhile isPathSeparator).reverse = d ++ '/' :: n := by
    have e : (d ++ '/' :: n).reverse = x :: (xs ++ '/' :: d.reverse) := by
      simp [List.reverse_append, hx]
    rw [e, List.dropWhile_cons_of_neg (by simp [hsep x hxmem]), ← e, List.reverse_reverse]
  have h2 : (d ++ '/' :: n).drop (volumeNameLen (d ++ '/' :: n)) =
      d.drop (volumeNameLen (d ++ '/' :: n)) ++ '/' :: n :=
    List.drop_append_of_le_length hk
  have h3 : ∀ d1 : List Char,
      ((d1 ++ '/' :: n).reverse.takeWhile (fun c => !isPathSeparator c)).reverse = n := by
    intro d1
    have e : (d1 ++ '/' :: n).reverse = n.reverse ++ '/' :: d1.reverse := by
      simp [List.reverse_append]
    rw [e, takeWhile_append_stop _ n.reverse '/' d1.reverse
      (by intro y hy; simp [hsep y (List.mem_reverse.mp hy)]) (by decide), List.reverse_reverse]
  unfold baseChars
  rw [if_neg hL]
  simp only [h1, h2, h3]
  rw [if_neg hne]

theorem plainName_normal (name : String) (h : plainName name) :
    name.data ≠ [] ∧ name.data ≠ ['.'] ∧ name.data ≠ ['.', '.'] ∧ '/' ∉ name.data := by
  obtain ⟨h1, h2, h3, h4⟩ := h
  refine ⟨h1, ?_, ?_, ?_⟩
  · intro e
    exact h3 (String.ext e)
  · intro e
    exact h4 (String.ext e)
  · intro e
    have := h2 '/' e
    simp [isPathSeparator] at this

theorem uncLenLoop_one (xs zs : List Char) (i : Nat) :
    uncLenLoop (xs ++ '/' :: zs) i 1 ≤ i + xs.length := by
  induction xs generalizing i with
  | nil => simp [uncLenLoop, isPathSeparator]
  | cons c cs ih =>
    rw [List.cons_append, uncLenLoop]
    simp only [List.length_cons]
    split
    · simp
    · have := ih (i + 1)
      omega

theorem uncLenLoop_zero (xs ys zs : List Char) (i : Nat) :
    uncLenLoop (xs ++ '/' :: (ys ++ '/' :: zs)) i 0 ≤ i + xs.length + 1 + ys.length := by
  induction xs generalizing i with
  | nil =>
    have := uncLenLoop_one ys zs (i + 1)
    simp only [List.nil_append, uncLenLoop, isPathSeparator, List.length_nil]
    simp
    omega
  | cons c cs ih =>
    rw [List.cons_append, uncLenLoop]
    simp only [List.length_cons]
    split
    · have := uncLenLoop_one cs (ys ++ '/' :: zs) (i + 1)
      simp
      omega
    · have := ih (i + 1)
      omega

theorem cutPath_append (xs zs : List Char) :
    ∃ rest, cutPath (xs ++ '/' :: zs) = some rest ∧ zs.length ≤ rest.length := by
  induction xs with
  | nil => exact ⟨zs, by simp [cutPath, isPathSeparator], le_refl _⟩
  | cons c cs ih =>
    simp only [List.cons_append, cutPath]
    split
    · exact ⟨cs ++ '/' :: zs, rfl, by simp; omega⟩
    · exact ih

theorem prefixFold_unc_nebula (d t : List Char)
    (h : pathHasPrefixFold (d ++ '/' :: 'N' :: 'e' :: 'b' :: 'u' :: 'l' :: 'a' :: t)
      ['\\', '\\', '.', '\\', 'U', 'N', 'C'] = true) :
    8 ≤ d.length ∨
      (d.length = 7 ∧ pathHasPrefixFold d ['\\', '\\', '.', '\\', 'U', 'N', 'C'] = true) := by
  rcases d with _ | ⟨a0, _ | ⟨a1, _ | ⟨a2, _ | ⟨a3, _ | ⟨a4, _ | ⟨a5, _ | ⟨a6, _ | ⟨a7, d⟩⟩⟩⟩⟩⟩⟩⟩
  · simp [pathHasPrefixFold, isPathSeparator] at h
  · simp [pathHasPrefixFold, isPathSeparator] at h
  · simp [pathHasPrefixFold, isPathSeparator] at h
  · simp [pathHasPrefixFold, isPathSeparator] at h
  · simp [pathHasPrefixFold, isPathSeparator] at h
  · simp [pathHasPrefixFold, isPathSeparator] at h
  · simp [pathHasPrefixFold, isPathSeparator] at h
  · right
    refine ⟨rfl, ?_⟩
    simp only [pathHasPrefixFold, isPathSeparator] at h ⊢
    simpa using h
  · left
    simp

theorem volumeNameLen_nebula (d n : List Char) (hne : d ≠ []) (hd : '/' ∉ d)
    (hroot : d ≠ ['\\'])
    (hunc : ¬ (d.length = 7 ∧ pathHasPrefixFold d ['\\', '\\', '.', '\\', 'U', 'N', 'C'] = true)) :
    volumeNameLen ((d ++ '/' :: ['N', 'e', 'b', 'u', 'l', 'a']) ++ '/' :: n) ≤
      (d ++ '/' :: ['N', 'e', 'b', 'u', 'l', 'a']).length := by
  obtain ⟨c0, d1, rfl⟩ := List.exists_cons_of_ne_nil hne
  have hlen : ((c0 :: d1 ++ '/' :: ['N', 'e', 'b', 'u', 'l', 'a']) ++ '/' :: n).length =
      d1.length + 9 + n.length := by
    simp
    omega
  have hpath : (c0 :: d1 ++ '/' :: ['N', 'e', 'b', 'u', 'l', 'a']) ++ '/' :: n =
      c0 :: (d1 ++ '/' :: 'N' :: 'e' :: 'b' :: 'u' :: 'l' :: 'a' :: '/' :: n) := by simp
  have hdrop : ∀ k, k ≤ d1.length + 8 →
      ((c0 :: d1 ++ '/' :: ['N', 'e', 'b', 'u', 'l', 'a']) ++ '/' :: n).drop k =
        (c0 :: d1 ++ '/' :: ['N', 'e', 'b', 'u', 'l', 'a']).drop k ++ '/' :: n := by
    intro k hk
    exact List.drop_append_of_le_length (by simp; omega)
  have hdropd : ∀ k, k ≤ d1.length + 1 →
      ((c0 :: d1 ++ '/' :: ['N', 'e', 'b', 'u', 'l', 'a']) ++ '/' :: n).drop k =
        (c0 :: d1).drop k ++ '/' :: (['N', 'e', 'b', 'u', 'l', 'a'] ++ '/' :: n) := by
    intro k hk
    rw [List.append_assoc]
    exact List.drop_append_of_le_length (by simp; omega)
  have hgoal : (c0 :: d1 ++ '/' :: ['N', 'e', 'b', 'u', 'l', 'a']).length = d1.length + 8 := by
    simp
  rw [hgoal]
  generalize hP : (c0 :: d1 ++ '/' :: ['N', 'e', 'b', 'u', 'l', 'a']) ++ '/' :: n = path at *
  clear hP
  rw [hpath]
  unfold volumeNameLen
  simp only
  rw [← hpath]
  split_ifs with h1 h2 h3 h4 h5 h6
  · omega
  · omega
  · -- the prefix `\\.\UNC`: the volume ends at the second separator after it
    have hpre := prefixFold_unc_nebula (c0 :: d1) ('/' :: n) (by
      rw [hpath] at h3
      simpa using h3)
    rcases hpre with h8 | h7
    · have hd8 := hdropd 8 (by simpa using h8)
      have hb : uncLenLoop ((c0 :: d1).drop 8 ++ '/' :: (['N', 'e', 'b', 'u', 'l', 'a'] ++ '/' :: n))
          8 0 ≤ 8 + ((c0 :: d1).drop 8).length + 1 + 6 :=
        uncLenLoop_zero ((c0 :: d1).drop 8) ['N', 'e', 'b', 'u', 'l', 'a'] n 8
      have hl : ((c0 :: d1).drop 8).length = d1.length + 1 - 8 := by simp
      have h8n : 8 ≤ d1.length + 1 := by simpa using h8
      unfold uncLen
      rw [if_neg (by omega), hd8]
      omega
    · exact absurd h7 hunc
  · omega
  · -- a local device path: the volume ends at the first separator after the prefix
    obtain ⟨rest, hcut, hrest⟩ :=
      cutPath_append ((c0 :: d1 ++ '/' :: ['N', 'e', 'b', 'u', 'l', 'a']).drop 4) n
    rw [hdrop 4 (by omega), hcut]
    simp only
    omega
  · -- a UNC path: the volume ends at the second separator after `\\`
    rcases d1 with _ | ⟨c1, d2⟩
    · exfalso
      apply hroot
      have hc : c0 ≠ '/' := fun e => hd (by simp [e])
      simp only [isPathSeparator, Bool.not_eq_true', Bool.or_eq_false_iff, not_and,
        beq_eq_false_iff_ne, ne_eq, Bool.not_eq_false] at h2
      by_cases hb : c0 = '\\'
      · rw [hb]
      · exact absurd (h2 hb) (by simpa using hc)
    · have hd2 := hdropd 2 (by simp)
      have hb : uncLenLoop ((c0 :: c1 :: d2).drop 2 ++
          '/' :: (['N', 'e', 'b', 'u', 'l', 'a'] ++ '/' :: n)) 2 0 ≤
          2 + ((c0 :: c1 :: d2).drop 2).length + 1 + 6 :=
        uncLenLoop_zero ((c0 :: c1 :: d2).drop 2) ['N', 'e', 'b', 'u', 'l', 'a'] n 2
      have hl : ((c0 :: c1 :: d2).drop 2).length = d2.length := by simp
      have hl2 : (c1 :: d2).length = d2.length + 1 := by simp
      unfold uncLen
      rw [if_neg (by omega), hd2]
      omega
  · omega

theorem windowsDir_data (dir : String) (h : windowsDir dir = true) :
    '/' ∉ dir.data ∧ dir.data ≠ ['.'] ∧ dir.data ≠ ['.', '.'] ∧ dir.data ≠ ['\\'] ∧
      ¬ (dir.data.length = 7 ∧
        pathHasPrefixFold dir.data ['\\', '\\', '.', '\\', 'U', 'N', 'C'] = true) := by
  unfold windowsDir at h
  simp only [Bool.and_eq_true, Bool.not_eq_true', bne_iff_ne, ne_eq, Bool.and_eq_false_imp,
    beq_iff_eq, List.contains_eq_any_beq] at h
  obtain ⟨⟨⟨⟨h1, h2⟩, h3⟩, h4⟩, h5⟩ := h
  refine ⟨?_, ?_, ?_, ?_, ?_⟩
  · intro hm
    have : dir.data.any (fun x => '/' == x) = true := List.any_eq_true.mpr ⟨'/', hm, by simp⟩
    rw [this] at h1
    cases h1
  · intro e
    exact h2 (String.ext e)
  · intro e
    exact h3 (String.ext e)
  · intro e
    exact h4 (String.ext e)
  · rintro ⟨hl, hp⟩
    have := h5 hl
    rw [hp] at this
    cases this

theorem filepathBase_nebula (configDir name : String)
    (hdir : windowsDir configDir = true) (h : plainName name) :
    filepathBase (pathJoin (pathJoin configDir "Nebula") name) = name := by
  obtain ⟨n1, n2, n3, n4⟩ := plainName_normal name h
  have hsep := h.2.1
  have hneb : ∀ e ∈ [("Nebula" : String).data, name.data],
      e ≠ [] ∧ e ≠ ['.'] ∧ e ≠ ['.', '.'] ∧ '/' ∉ e := by
    intro e he
    simp only [List.mem_cons, List.mem_singleton, List.not_mem_nil, or_false] at he
    rcases he with rfl | rfl
    · decide
    · exact ⟨n1, n2, n3, n4⟩
  by_cases hd : configDir = ""
  · subst hd
    have e1 : pathJoin "" "Nebula" = "Nebula" := by decide
    rw [e1]
    have e2 : pathJoin "Nebula" name =
        String.mk (("Nebula" : String).data ++ '/' :: name.data) := by
      have hc := pathClean_joinSlash [("Nebula" : String).data, name.data] (by simp) hneb
      simp only [joinSlash] at hc
      unfold pathJoin
      rw [if_neg (by decide), hc]
    rw [e2]
    unfold filepathBase
    rw [baseChars_join _ name.data n1 hsep (by
      show volumeNameLen ('N' :: 'e' :: 'b' :: 'u' :: 'l' :: 'a' :: '/' :: name.data) ≤ _
      simp [volumeNameLen, isPathSeparator])]
  · obtain ⟨hslash, hdot, hdots, hroot, hunc⟩ := windowsDir_data configDir hdir
    have hdne : configDir.data ≠ [] := by
      intro e
      exact hd (String.ext e)
    have hnormal : configDir.data ≠ [] ∧ configDir.data ≠ ['.'] ∧ configDir.data ≠ ['.', '.'] ∧
        '/' ∉ configDir.data := ⟨hdne, hdot, hdots, hslash⟩
    have e1 : pathJoin configDir "Nebula" =
        String.mk (configDir.data ++ '/' :: ("Nebula" : String).data) := by
      have hc := pathClean_joinSlash [configDir.data, ("Nebula" : String).data] (by simp) (by
        intro e he
        simp only [List.mem_cons, List.mem_singleton, List.not_mem_nil, or_false] at he
        rcases he with rfl | rfl
        · exact hnormal
        · decide)
      simp only [joinSlash] at hc
      unfold pathJoin
      rw [if_neg hd, hc]
    have e2 : pathJoin (pathJoin configDir "Nebula") name =
        String.mk ((configDir.data ++ '/' :: ("Nebula" : String).data) ++ '/' :: name.data) := by
      have hc := pathClean_joinSlash [configDir.data, ("Nebula" : String).data, name.data]
        (by simp) (by
        intro e he
        simp only [List.mem_cons, List.mem_singleton, List.not_mem_nil, or_false] at he
        rcases he with rfl | rfl | rfl
        · exact hnormal
        · decide
        · exact ⟨n1, n2, n3, n4⟩)
      simp only [joinSlash] at hc
      rw [e1]
      unfold pathJoin
      rw [if_neg (by
        intro e
        have := congrArg String.data e
        simp at this)]
      simp only [List.append_assoc, List.cons_append] at hc ⊢
      rw [hc]
    rw [e2]
    unfold filepathBase
    rw [baseChars_join _ name.data n1 hsep
      (volumeNameLen_nebula configDir.data name.data hdne hslash hroot hunc)]

theorem loadTunnelConfigsLoop_base (nebulaConfigDir : String) (files : List DirEntry)
    (cur : List Tunnel) (hplain : ∀ f ∈ files, plainName f.Name)
    (hbase : ∀ name, plainName name → filepathBase (pathJoin nebulaConfigDir name) = name) :
    ∀ t ∈ loadTunnelConfigsLoop nebulaConfigDir files cur,
      t ∈ cur ∨ (filepathBase t.Path = t.Name ∧ ∃ f ∈ files, f.IsDir = true ∧ t.Name = f.Name) := by
  induction files generalizing cur with
  | nil => intro t ht; exact Or.inl ht
  | cons f rest ih =>
    intro t ht
    have hrest : ∀ g ∈ rest, plainName g.Name := fun g hg => hplain g (List.mem_cons_of_mem _ hg)
    unfold loadTunnelConfigsLoop at ht
    by_cases hdir : f.IsDir = true
    · rw [if_pos hdir] at ht
      split at ht
      · rcases ih cur hrest t ht with h | ⟨h1, g, hg, h2⟩
        · exact Or.inl h
        · exact Or.inr ⟨h1, g, List.mem_cons_of_mem _ hg, h2⟩
      · rcases ih _ hrest t ht with h | ⟨h1, g, hg, h2⟩
        · rcases List.mem_append.mp h with h | h
          · exact Or.inl h
          · simp only [List.mem_singleton] at h
            subst h
            exact Or.inr ⟨hbase _ (hplain f (List.mem_cons_self _ _)), f,
              List.mem_cons_self _ _, hdir, rfl⟩
        · exact Or.inr ⟨h1, g, List.mem_cons_of_mem _ hg, h2⟩
    · rw [if_neg hdir] at ht
      rcases ih cur hrest t ht with h | ⟨h1, g, hg, h2⟩
      · exact Or.inl h
      · exact Or.inr ⟨h1, g, List.mem_cons_of_mem _ hg, h2⟩

/-! ## Helper lemmas on the service a tunnel runs under -/

theorem remove_services_mem (m : SCM) (serviceName : String) (svc : Service)
    (h : svc ∈ (m.remove serviceName).services) : svc ∈ m.services := by
  simp only [SCM.remove, List.mem_filter] at h
  exact h.1

theorem remove_services_keep (m : SCM) (serviceName : String) (svc : Service)
    (h : svc ∈ m.services) : svc ∈ (m.remove serviceName).services ∨ svc.name = serviceName := by
  by_cases hn : svc.name = serviceName
  · exact Or.inr hn
  · left
    simp only [SCM.remove, List.mem_filter]
    exact ⟨h, by simpa using hn⟩

theorem createTunnelService_services (serviceName path configPath : String) (m : SCM)
    (svc : Service) :
    (svc ∈ (createTunnelService serviceName path configPath m).2.services →
      svc ∈ m.services ∨ (svc.name = serviceName ∧ svc.args = ["-tunnel", configPath])) ∧
    (svc ∈ m.services → svc ∈ (createTunnelService serviceName path configPath m).2.services) ∧
    (createTunnelService serviceName path configPath m).2.calls = m.calls := by
  unfold createTunnelService
  split
  · exact ⟨fun h => Or.inl h, fun h => h, rfl⟩
  · refine ⟨?_, ?_, rfl⟩
    · intro h
      simp only [List.mem_append, List.mem_singleton] at h
      rcases h with h | h
      · exact Or.inl h
      · subst h
        exact Or.inr ⟨rfl, rfl⟩
    · intro h
      simp only [List.mem_append]
      exact Or.inl h

theorem installBody_services (tunnelName configPath : String) (m : SCM) (svc : Service) :
    (svc ∈ (installTunnelServiceBody tunnelName configPath m).2.services →
      svc ∈ m.services ∨
        (svc.name = "Nebula_" ++ tunnelName ∧ svc.args = ["-tunnel", configPath])) ∧
    (svc ∈ m.services →
      svc ∈ (installTunnelServiceBody tunnelName configPath m).2.services ∨
        svc.name = "Nebula_" ++ tunnelName) ∧
    (installTunnelServiceBody tunnelName configPath m).2.calls = m.calls := by
  unfold installTunnelServiceBody
  split
  · exact ⟨fun h => Or.inl h, fun h => Or.inl h, rfl⟩
  · split
    · exact ⟨fun h => Or.inl h, fun h => Or.inl h, rfl⟩
    · rename_i path _
      simp only
      split
      · split
        · exact ⟨fun h => Or.inl h, fun h => Or.inl h, rfl⟩
        · split
          · split
            · exact ⟨fun h => Or.inl h, fun h => Or.inl h, rfl⟩
            · exact ⟨fun h => Or.inl h, fun h => Or.inl h, rfl⟩
          · split
            · exact ⟨fun h => Or.inl h, fun h => Or.inl h, rfl⟩
            · obtain ⟨h1, h2, h3⟩ := createTunnelService_services ("Nebula_" ++ tunnelName) path
                configPath (m.remove ("Nebula_" ++ tunnelName)) svc
              refine ⟨?_, ?_, h3⟩
              · intro h
                rcases h1 h with h | h
                · exact Or.inl (remove_services_mem m _ svc h)
                · exact Or.inr h
              · intro h
                rcases remove_services_keep m ("Nebula_" ++ tunnelName) svc h with h | h
                · exact Or.inl (h2 h)
                · exact Or.inr h
      · obtain ⟨h1, h2, h3⟩ := createTunnelService_services ("Nebula_" ++ tunnelName) path
          configPath m svc
        exact ⟨h1, fun h => Or.inl (h2 h), h3⟩

theorem Start_scm (s : Nat) (configPath : String) (w : World) :
    (Start s configPath w).2.scm =
      (InstallTunnelService (filepathBase configPath) configPath w.scm).2 ∧
    ∀ t, (Start s configPath w).1.1 = some t →
      t = ⟨configPath, filepathBase configPath, TunnelState.TunnelStarted⟩ := by
  rcases hI : InstallTunnelService (filepathBase configPath) configPath w.scm with ⟨err, scm⟩
  cases err with
  | some e =>
    rw [Start_of_install_err s configPath w e scm hI]
    exact ⟨rfl, fun t h => by cases h⟩
  | none =>
    rw [Start_of_install_ok s configPath w scm hI]
    exact ⟨rfl, fun t h => by cases h; rfl⟩

theorem control_services_mem (m : SCM) (serviceName : String) (svc : Service) :
    (svc ∈ (m.control serviceName).services → svc.name ≠ serviceName → svc ∈ m.services) ∧
    (svc ∈ m.services → svc.name ≠ serviceName → svc ∈ (m.control serviceName).services) := by
  constructor
  · intro h hn
    simp only [SCM.control, List.mem_map] at h
    obtain ⟨s0, hs0, heq⟩ := h
    by_cases hs : (s0.name == serviceName) = true
    · rw [if_pos hs] at heq
      subst heq
      exact absurd (by simpa using hs) hn
    · rw [if_neg hs] at heq
      subst heq
      exact hs0
  · intro h hn
    simp only [SCM.control, List.mem_map]
    refine ⟨svc, h, ?_⟩
    rw [if_neg (by simpa using hn)]

theorem uninstallBody_services (tunnelName : String) (m : SCM) (svc : Service)
    (hn : svc.name ≠ "Nebula_" ++ tunnelName) :
    svc ∈ (uninstallTunnelServiceBody tunnelName m).2.services ↔ svc ∈ m.services := by
  have hc := control_services_mem m ("Nebula_" ++ tunnelName) svc
  unfold uninstallTunnelServiceBody
  simp only
  split
  · exact Iff.rfl
  · split
    · exact Iff.rfl
    · split
      · exact ⟨fun h => hc.1 h hn, fun h => hc.2 h hn⟩
      · constructor
        · intro h
          exact hc.1 (remove_services_mem _ _ svc h) hn
        · intro h
          rcases remove_services_keep (m.control ("Nebula_" ++ tunnelName))
            ("Nebula_" ++ tunnelName) svc (hc.2 h hn) with h1 | h1
          · exact h1
          · exact absurd h1 hn

theorem uninstallBody_ok (tunnelName : String) (m : SCM)
    (h : (uninstallTunnelServiceBody tunnelName m).1 = none) :
    ∀ svc ∈ (uninstallTunnelServiceBody tunnelName m).2.services,
      svc.name ≠ "Nebula_" ++ tunnelName := by
  unfold uninstallTunnelServiceBody at h ⊢
  simp only at h ⊢
  split at h
  · cases h
  · split at h
    · cases h
    · split at h
      · cases h
      · rename_i h1 _ _ h2 _ h3
        intro svc hsvc
        simp only [h1, h2, h3, SCM.remove, List.mem_filter] at hsvc
        simpa using hsvc.2

/-! ## C24: one service name for `Start`, `Stop` and the tunnel service host -/

/-- C24: `Start(configPath)` calls `InstallTunnelService` with the tunnel name
`filepath.Base(configPath)`, and every service it adds is `Nebula_` followed by that name,
with the arguments `-tunnel configPath`; a process started with these arguments runs the
service under the same name; the `Name` of the tunnel `Start` returns is
`filepath.Base(configPath)`, and `Stop` of that name calls `UninstallTunnelService` for it,
touches no service of another name, and when it returns nil no service of that name is left.
Every tunnel that `LoadTunnelConfigs` adds for a directory entry has
`filepath.Base(Path) = Name`, the entries being plain file names and the configuration
directory being empty (no `%AppData%`) or a path written with backslashes, other than `.`,
`..`, the lone root `\` and the device name `\\.\UNC`. -/
theorem C24_service_name_agreement (s : Nat) (configPath : String) (w : World)
    (configDir : String) (files : List DirEntry) (cur : List Tunnel)
    (hdir : windowsDir configDir = true)
    (hplain : ∀ f ∈ files, plainName f.Name) :
    (Start s configPath w).2.scm.calls =
      w.scm.calls ++ [SvcCall.install (filepathBase configPath) configPath] ∧
    (∀ svc ∈ (Start s configPath w).2.scm.services,
      svc ∈ w.scm.services ∨
        (svc.name = "Nebula_" ++ filepathBase configPath ∧ svc.args = ["-tunnel", configPath])) ∧
    (∀ svc ∈ w.scm.services,
      svc ∈ (Start s configPath w).2.scm.services ∨
        svc.name = "Nebula_" ++ filepathBase configPath) ∧
    (∀ (exe : String) (more : List String),
      mainTunnel (exe :: "-tunnel" :: configPath :: more) =
        TunnelMain.run ("Nebula_" ++ filepathBase configPath) configPath) ∧
    (∀ t, (Start s configPath w).1.1 = some t →
      t.Name = filepathBase configPath ∧
      ∀ (s2 : Nat) (w2 : World),
        (Stop s2 t.Name w2).2.scm.calls =
          w2.scm.calls ++ [SvcCall.uninstall (filepathBase configPath)] ∧
        (∀ svc : Service, svc.name ≠ "Nebula_" ++ filepathBase configPath →
          (svc ∈ (Stop s2 t.Name w2).2.scm.services ↔ svc ∈ w2.scm.services)) ∧
        ((Stop s2 t.Name w2).1 = none →
          ∀ svc ∈ (Stop s2 t.Name w2).2.scm.services,
            svc.name ≠ "Nebula_" ++ filepathBase configPath)) ∧
    (∀ ts, LoadTunnelConfigs configDir (.ok files) cur = some ts →
      ∀ t ∈ ts, t ∈ cur ∨ filepathBase t.Path = t.Name) := by
  obtain ⟨hscm, hname⟩ := Start_scm s configPath w
  refine ⟨?_, ?_, ?_, ?_, ?_, ?_⟩
  · rw [hscm]
    unfold InstallTunnelService
    rw [(installBody_services _ _ _ ⟨"", SvcState.Stopped, "", []⟩).2.2]
  · intro svc hsvc
    rw [hscm] at hsvc
    unfold InstallTunnelService at hsvc
    have h := (installBody_services (filepathBase configPath) configPath
      { w.scm with calls := w.scm.calls ++ [SvcCall.install (filepathBase configPath) configPath] }
      svc).1 hsvc
    exact h
  · intro svc hsvc
    rw [hscm]
    unfold InstallTunnelService
    have h := (installBody_services (filepathBase configPath) configPath
      { w.scm with calls := w.scm.calls ++ [SvcCall.install (filepathBase configPath) configPath] }
      svc).2.1 hsvc
    exact h
  · intro exe more
    rfl
  · intro t ht
    have e := hname t ht
    subst e
    refine ⟨rfl, ?_⟩
    intro s2 w2
    simp only [Stop]
    refine ⟨uninstall_calls _ _, ?_, ?_⟩
    · intro svc hn
      exact uninstallBody_services (filepathBase configPath)
        { w2.scm with calls := w2.scm.calls ++ [SvcCall.uninstall (filepathBase configPath)] }
        svc hn
    · intro h
      exact uninstallBody_ok _ _ h
  · intro ts hts t ht
    simp only [LoadTunnelConfigs, Option.some.injEq] at hts
    subst hts
    rcases loadTunnelConfigsLoop_base _ files cur hplain
      (fun name hn => filepathBase_nebula configDir name hdir hn) t ht with h | ⟨h, _⟩
    · exact Or.inl h
    · exact Or.inr h

/-- C24, at a concrete input: on a fresh manager `Start("C:\tunnels\foo")` installs the
service `Nebula_foo` with the arguments `-tunnel C:\tunnels\foo`, the process started with
them runs the service `Nebula_foo`, `Stop("foo")` removes it again, and the tunnel found for
the directory `foo` has a `Path` whose base name is `foo`. -/
theorem C24_service_name_agreement_witness :
    windowsDir "C:\\Users\\u\\AppData\\Roaming" = true ∧
    (∀ f ∈ [DirEntry.mk "foo" true, DirEntry.mk "notes.txt" false], plainName f.Name) ∧
    (Start 0 "C:\\tunnels\\foo" freshWorld).2.scm.services =
      [⟨"Nebula_foo", SvcState.Running, "C:\\Program Files\\Nebula\\nebula.exe",
        ["-tunnel", "C:\\tunnels\\foo"]⟩] ∧
    mainTunnel ["C:\\Program Files\\Nebula\\nebula.exe", "-tunnel", "C:\\tunnels\\foo"] =
      TunnelMain.run "Nebula_foo" "C:\\tunnels\\foo" ∧
    (Stop 0 "foo" (Start 0 "C:\\tunnels\\foo" freshWorld).2).2.scm.services = [] ∧
    LoadTunnelConfigs "C:\\Users\\u\\AppData\\Roaming"
        (.ok [DirEntry.mk "foo" true, DirEntry.mk "notes.txt" false]) [] =
      some [⟨"C:\\Users\\u\\AppData\\Roaming/Nebula/foo", "foo", TunnelState.TunnelStopped⟩] ∧
    (∀ ts, LoadTunnelConfigs "C:\\Users\\u\\AppData\\Roaming"
        (.ok [DirEntry.mk "foo" true, DirEntry.mk "notes.txt" false]) [] = some ts →
      ∀ t ∈ ts, t ∈ ([] : List Tunnel) ∨ filepathBase t.Path = t.Name) :=
  ⟨by decide, by decide, by decide, by decide, by decide, by decide,
    (C24_service_name_agreement 0 "C:\\tunnels\\foo" freshWorld "C:\\Users\\u\\AppData\\Roaming"
      [DirEntry.mk "foo" true, DirEntry.mk "notes.txt" false] [] (by decide)
      (by decide)).2.2.2.2.2⟩

/-! ## Helper lemmas on a control loop among other events -/

theorem run_append (st : Sup) (a b : List Event) : st.run (a ++ b) = (st.run a).run b := by
  simp [Sup.run, List.foldl_append]

theorem after_succ (st : Sup) (i : Nat) (seg : Nat → List Event × LoopEnv) (k : Nat) :
    st.run (segTrace i seg (k + 1)) = (st.before i seg k).loopStep i (seg k).2 := by
  simp [segTrace, Sup.before, run_append, Sup.run, Sup.step]

theorem after_add (st : Sup) (i : Nat) (seg : Nat → List Event × LoopEnv) (k n : Nat) :
    ∃ tr, st.run (segTrace i seg (k + n)) = (st.run (segTrace i seg k)).run tr := by
  induction n with
  | zero => exact ⟨[], rfl⟩
  | succ n ih =>
    obtain ⟨tr, htr⟩ := ih
    refine ⟨tr ++ ((seg (k + n)).1 ++ [Event.loop i (seg (k + n)).2]), ?_⟩
    have e : k + (n + 1) = (k + n) + 1 := by omega
    rw [e]
    show st.run (segTrace i seg (k + n) ++ _) = _
    rw [run_append, htr]
    simp only [run_append]

theorem step_other_loops (st : Sup) (i : Nat) (l : Loop) (e : Event)
    (he : e.isLoop i = false) (hl : st.loops[i]? = some l) :
    (st.step e).loops[i]? = some l := by
  have hi := loops_lt_of_get st i l hl
  cases e with
  | enumerate session state =>
    simp only [Sup.step, Sup.sessionActive, Sup.goStartProcess]
    repeat' split
    all_goals simp [hl, List.getElem?_append_left, hi]
  | logon session =>
    simp only [Sup.step, Sup.sessionActive, Sup.goStartProcess]
    repeat' split
    all_goals simp [hl, List.getElem?_append_left, hi]
  | logoff session =>
    simp only [Sup.step, Sup.sessionLogoff]
    repeat' split
    all_goals simp [hl, kill_loops, Sup.deleteAlive]
  | quitSignal =>
    simp only [Sup.step, Sup.shutdown]
    split
    · rw [killAll_loops]; exact hl
    · exact hl
  | svcStop =>
    simp only [Sup.step, Sup.shutdown]
    split
    · rw [killAll_loops]; exact hl
    · exact hl
  | join =>
    simp only [Sup.step]
    repeat' split
    all_goals simp [hl]
  | loop j env =>
    have hji : j ≠ i := by
      intro e
      simp [Event.isLoop, e] at he
    simp only [Sup.step, Sup.loopStep]
    cases hj : st.loops[j]? with
    | none => simpa using hl
    | some l2 => simp only []; rw [loopBody_loops_other st i j env l2 hji]; exact hl
  | helperExit pid exitCode =>
    simp only [Sup.step]
    repeat' split
    all_goals simp [hl]

theorem run_other_loops (tr : List Event) (st : Sup) (i : Nat) (l : Loop)
    (htr : ∀ e ∈ tr, e.isLoop i = false) (hl : st.loops[i]? = some l) :
    (st.run tr).loops[i]? = some l := by
  induction tr generalizing st with
  | nil => exact hl
  | cons e rest ih =>
    show ((st.step e).run rest).loops[i]? = some l
    exact ih (st.step e) (fun x hx => htr x (List.mem_cons_of_mem _ hx))
      (step_other_loops st i l e (htr e (List.mem_cons_self _ _)) hl)

theorem kill_os_static (st : Sup) (p pid : Nat) (q : OsProc) (hq : st.os[pid]? = some q) :
    (q.exit ≠ none → (st.kill p).os[pid]? = some q) ∧
    ∃ ex, (st.kill p).os[pid]? = some { q with exit := ex } := by
  unfold Sup.kill
  cases hp : st.os[p]? with
  | none => exact ⟨fun _ => hq, q.exit, hq⟩
  | some r =>
    simp only
    cases hx : r.exit with
    | some c => exact ⟨fun _ => hq, q.exit, hq⟩
    | none =>
      simp only
      by_cases hpp : p = pid
      · subst hpp
        have e : r = q := by rw [hp] at hq; exact Option.some.inj hq
        subst e
        have hlt : p < st.os.length := by
          rcases Nat.lt_or_ge p st.os.length with h1 | h1
          · exact h1
          · rw [List.getElem?_eq_none h1] at hp; cases hp
        refine ⟨fun h => absurd hx h, some 1, ?_⟩
        rw [List.getElem?_set_self hlt]
      · rw [List.getElem?_set_ne hpp]
        exact ⟨fun _ => hq, q.exit, hq⟩

theorem foldl_kill_os_static (ps : List (Nat × Nat)) (st : Sup) (pid : Nat) (q : OsProc)
    (hq : st.os[pid]? = some q) :
    (q.exit ≠ none → (ps.foldl (fun acc e => acc.kill e.2) st).os[pid]? = some q) ∧
    ∃ ex, (ps.foldl (fun acc e => acc.kill e.2) st).os[pid]? = some { q with exit := ex } := by
  induction ps generalizing st q with
  | nil => exact ⟨fun _ => hq, q.exit, hq⟩
  | cons e rest ih =>
    simp only [List.foldl_cons]
    obtain ⟨h1, ex, h2⟩ := kill_os_static st e.2 pid q hq
    constructor
    · intro hx
      exact (ih (st.kill e.2) q (h1 hx)).1 hx
    · obtain ⟨_, ex2, h3⟩ := ih (st.kill e.2) { q with exit := ex } h2
      exact ⟨ex2, h3⟩

theorem step_os_static (st : Sup) (e : Event) (pid : Nat) (q : OsProc)
    (hq : st.os[pid]? = some q) :
    (q.exit ≠ none → (st.step e).os[pid]? = some q) ∧
    ∃ ex, (st.step e).os[pid]? = some { q with exit := ex } := by
  have same : ∀ s : Sup, s.os[pid]? = some q →
      (q.exit ≠ none → s.os[pid]? = some q) ∧ ∃ ex, s.os[pid]? = some { q with exit := ex } :=
    fun s h => ⟨fun _ => h, q.exit, h⟩
  cases e with
  | enumerate session state =>
    apply same
    simp only [Sup.step, Sup.sessionActive, Sup.goStartProcess]
    repeat' split
    all_goals simp [hq]
  | logon session =>
    apply same
    simp only [Sup.step, Sup.sessionActive, Sup.goStartProcess]
    repeat' split
    all_goals simp [hq]
  | logoff session =>
    simp only [Sup.step, Sup.sessionLogoff]
    split
    · split
      · exact kill_os_static _ _ pid q (by simpa [Sup.deleteAlive] using hq)
      · exact same _ (by simpa [Sup.deleteAlive] using hq)
    · exact same _ hq
  | quitSignal =>
    simp only [Sup.step, Sup.shutdown, Sup.killAll]
    split
    · exact foldl_kill_os_static _ _ pid q hq
    · exact same _ hq
  | svcStop =>
    simp only [Sup.step, Sup.shutdown, Sup.killAll]
    split
    · exact foldl_kill_os_static _ _ pid q hq
    · exact same _ hq
  | join =>
    apply same
    simp only [Sup.step]
    repeat' split
    all_goals simp [hq]
  | loop j env =>
    apply same
    simp only [Sup.step, Sup.loopStep]
    cases hj : st.loops[j]? with
    | none => exact hq
    | some l2 => exact loopBody_os_get st j env l2 pid q hq
  | helperExit p c =>
    simp only [Sup.step]
    cases hp : st.os[p]? with
    | none => exact same _ hq
    | some r =>
      simp only
      cases hx : r.exit with
      | some c1 => exact same _ hq
      | none =>
        simp only
        by_cases hpp : p = pid
        · subst hpp
          have e : r = q := by rw [hp] at hq; exact Option.some.inj hq
          subst e
          have hlt : p < st.os.length := by
            rcases Nat.lt_or_ge p st.os.length with h1 | h1
            · exact h1
            · rw [List.getElem?_eq_none h1] at hp; cases hp
          refine ⟨fun h => absurd hx h, some c, ?_⟩
          rw [List.getElem?_set_self hlt]
        · rw [List.getElem?_set_ne hpp]
          exact same _ hq

theorem run_os_static (tr : List Event) (st : Sup) (pid : Nat) (q : OsProc)
    (hq : st.os[pid]? = some q) :
    (q.exit ≠ none → (st.run tr).os[pid]? = some q) ∧
    ∃ ex, (st.run tr).os[pid]? = some { q with exit := ex } := by
  induction tr generalizing st q with
  | nil => exact ⟨fun _ => hq, q.exit, hq⟩
  | cons e rest ih =>
    obtain ⟨h1, ex, h2⟩ := step_os_static st e pid q hq
    constructor
    · intro hx
      exact (ih (st.step e) q (h1 hx)).1 hx
    · obtain ⟨_, ex2, h3⟩ := ih (st.step e) { q with exit := ex } h2
      exact ⟨ex2, h3⟩

theorem kill_path (st : Sup) (pid : Nat) : (st.kill pid).path = st.path := by
  unfold Sup.kill
  split
  · rfl
  · split <;> rfl

theorem foldl_kill_path (ps : List (Nat × Nat)) (st : Sup) :
    (ps.foldl (fun acc e => acc.kill e.2) st).path = st.path := by
  induction ps generalizing st with
  | nil => rfl
  | cons e rest ih => simp only [List.foldl_cons]; rw [ih, kill_path]

theorem loopBody_path (st : Sup) (i : Nat) (env : LoopEnv) (l : Loop) :
    (st.loopBody i env l).path = st.path := by
  unfold Sup.loopBody
  split <;> (try split) <;> (try split) <;>
    simp [Sup.setLoop, Sup.deleteAlive, Sup.deleteProc, Sup.setProc, closeConn_path]

theorem step_path (st : Sup) (e : Event) : (st.step e).path = st.path := by
  cases e with
  | enumerate session state =>
    simp only [Sup.step, Sup.sessionActive, Sup.goStartProcess]
    repeat' split
    all_goals rfl
  | logon session =>
    simp only [Sup.step, Sup.sessionActive, Sup.goStartProcess]
    repeat' split
    all_goals rfl
  | logoff session =>
    simp only [Sup.step, Sup.sessionLogoff]
    repeat' split
    all_goals simp [kill_path, Sup.deleteAlive]
  | quitSignal =>
    simp only [Sup.step, Sup.shutdown, Sup.killAll]
    split
    · rw [foldl_kill_path]
    · rfl
  | svcStop =>
    simp only [Sup.step, Sup.shutdown, Sup.killAll]
    split
    · rw [foldl_kill_path]
    · rfl
  | join =>
    simp only [Sup.step]
    repeat' split
    all_goals rfl
  | loop j env =>
    simp only [Sup.step, Sup.loopStep]
    split
    · rfl
    · exact loopBody_path _ _ _ _
  | helperExit p c =>
    simp only [Sup.step]
    repeat' split
    all_goals rfl

theorem run_path (tr : List Event) (st : Sup) : (st.run tr).path = st.path := by
  induction tr generalizing st with
  | nil => rfl
  | cons e rest ih =>
    show ((st.step e).run rest).path = st.path
    rw [ih, step_path]

theorem stage_wait (s : Sup) (i : Nat) (env : LoopEnv) (l0 lk : Loop) (pid c n : Nat)
    (q : OsProc) (hl : s.loops[i]? = some lk) (hst : l0.stands lk (LoopPc.wait pid) n)
    (hq : s.os[pid]? = some q) (hx : q.exit = some c) :
    ∃ lk1, (s.loopStep i env).loops[i]? = some lk1 ∧
      l0.stands lk1
        (LoopPc.untrack (env.waitOk && c == STATUS_DLL_INIT_FAILED_LOGOFF)) n := by
  have hi := loops_lt_of_get s i lk hl
  obtain ⟨hpc, h1, h2, h3, h4⟩ := hst
  by_cases hw : env.waitOk = true
  · refine ⟨{ lk with pc := LoopPc.untrack (c == STATUS_DLL_INIT_FAILED_LOGOFF) }, ?_,
      ?_, h1, h2, h3, h4⟩
    · simp [Sup.loopStep, hl, Sup.loopBody, hpc, hw, hq, hx, Sup.setLoop, hi]
    · simp [hw]
  · refine ⟨{ lk with pc := LoopPc.untrack false }, ?_, ?_, h1, h2, h3, h4⟩
    · simp [Sup.loopStep, hl, Sup.loopBody, hpc, hw, Sup.setLoop, hi]
    · simp [hw]

theorem stage_untrack (s : Sup) (i : Nat) (env : LoopEnv) (l0 lk : Loop) (d : Bool) (n : Nat)
    (hl : s.loops[i]? = some lk) (hst : l0.stands lk (LoopPc.untrack d) n) :
    ∃ lk1, (s.loopStep i env).loops[i]? = some lk1 ∧
      l0.stands lk1 (if d then LoopPc.exiting else LoopPc.checkStopping) n := by
  have hi := loops_lt_of_get s i lk hl
  obtain ⟨hpc, h1, h2, h3, h4⟩ := hst
  refine ⟨{ lk with pc := if d then LoopPc.exiting else LoopPc.checkStopping }, ?_,
    rfl, h1, h2, h3, h4⟩
  simp [Sup.loopStep, hl, Sup.loopBody, hpc, Sup.setLoop, Sup.deleteProc, closeConn_loops, hi]

theorem stage_checkStopping (s : Sup) (i : Nat) (env : LoopEnv) (l0 lk : Loop) (n : Nat)
    (hl : s.loops[i]? = some lk) (hst : l0.stands lk LoopPc.checkStopping n) :
    ∃ lk1, (s.loopStep i env).loops[i]? = some lk1 ∧
      l0.stands lk1 (if s.stoppingManager then LoopPc.exiting else LoopPc.checkAlive) n := by
  have hi := loops_lt_of_get s i lk hl
  obtain ⟨hpc, h1, h2, h3, h4⟩ := hst
  refine ⟨{ lk with pc := if s.stoppingManager then LoopPc.exiting else LoopPc.checkAlive }, ?_,
    rfl, h1, h2, h3, h4⟩
  cases hs : s.stoppingManager <;>
    simp [Sup.loopStep, hl, Sup.loopBody, hpc, Sup.setLoop, hi, hs]

theorem stage_checkAlive (s : Sup) (i : Nat) (env : LoopEnv) (l0 lk : Loop) (n : Nat)
    (hl : s.loops[i]? = some lk) (hst : l0.stands lk LoopPc.checkAlive n) :
    ∃ lk1, (s.loopStep i env).loops[i]? = some lk1 ∧
      l0.stands lk1
        (if l0.session ∈ s.aliveSessions then LoopPc.debounce else LoopPc.exiting) n := by
  have hi := loops_lt_of_get s i lk hl
  obtain ⟨hpc, h1, h2, h3, h4⟩ := hst
  refine ⟨{ lk with pc := if l0.session ∈ s.aliveSessions then LoopPc.debounce
                          else LoopPc.exiting }, ?_, rfl, h1, h2, h3, h4⟩
  by_cases ha : l0.session ∈ s.aliveSessions <;>
    simp [Sup.loopStep, hl, Sup.loopBody, hpc, Sup.setLoop, hi, ha, h1]

theorem stage_debounce (s : Sup) (i : Nat) (env : LoopEnv) (l0 lk : Loop) (n : Nat)
    (hl : s.loops[i]? = some lk) (hst : l0.stands lk LoopPc.debounce n) :
    ∃ lk1, (s.loopStep i env).loops[i]? = some lk1 ∧ l0.stands lk1 LoopPc.pipes n := by
  have hi := loops_lt_of_get s i lk hl
  obtain ⟨hpc, h1, h2, h3, h4⟩ := hst
  cases hf : lk.first with
  | true =>
    refine ⟨{ lk with pc := LoopPc.pipes, first := false }, ?_, rfl, h1, h2, h3, h4⟩
    simp [Sup.loopStep, hl, Sup.loopBody, hpc, Sup.setLoop, hi, hf]
  | false =>
    refine ⟨{ lk with pc := LoopPc.pipes, sleeps := lk.sleeps + 1 }, ?_, rfl, h1, h2, h3, h4⟩
    simp [Sup.loopStep, hl, Sup.loopBody, hpc, Sup.setLoop, hi, hf]

theorem stage_pipes (s : Sup) (i : Nat) (env : LoopEnv) (l0 lk : Loop) (n : Nat)
    (hl : s.loops[i]? = some lk) (hst : l0.stands lk LoopPc.pipes n) :
    ∃ lk1, (s.loopStep i env).loops[i]? = some lk1 ∧
      l0.stands lk1
        (if (env.pipe1Ok && env.pipe2Ok && env.pipe3Ok) = true then LoopPc.listen
         else LoopPc.exiting) n := by
  have hi := loops_lt_of_get s i lk hl
  obtain ⟨hpc, h1, h2, h3, h4⟩ := hst
  refine ⟨{ lk with pc := if (env.pipe1Ok && env.pipe2Ok && env.pipe3Ok) = true
                          then LoopPc.listen else LoopPc.exiting }, ?_, rfl, h1, h2, h3, h4⟩
  by_cases hp : (env.pipe1Ok && env.pipe2Ok && env.pipe3Ok) = true
  · simp only [Sup.loopStep, hl, Sup.loopBody, hpc, hp, if_true, Sup.setLoop]
    exact List.getElem?_set_self hi
  · simp only [Sup.loopStep, hl, Sup.loopBody, hpc, hp, if_false, Sup.setLoop]
    exact List.getElem?_set_self hi

theorem stage_listen (s : Sup) (i : Nat) (env : LoopEnv) (l0 lk : Loop) (n : Nat)
    (hl : s.loops[i]? = some lk) (hst : l0.stands lk LoopPc.listen n) :
    ∃ lk1, (s.loopStep i env).loops[i]? = some lk1 ∧ l0.stands lk1 LoopPc.exportLog n := by
  have hi := loops_lt_of_get s i lk hl
  obtain ⟨hpc, h1, h2, h3, h4⟩ := hst
  refine ⟨{ lk with pc := LoopPc.exportLog, conn := some s.conns.length }, ?_,
    rfl, h1, h2, h3, h4⟩
  simp [Sup.loopStep, hl, Sup.loopBody, hpc, Sup.setLoop, hi]

theorem stage_exportLog (s : Sup) (i : Nat) (env : LoopEnv) (l0 lk : Loop) (n : Nat)
    (hl : s.loops[i]? = some lk) (hst : l0.stands lk LoopPc.exportLog n) :
    ∃ lk1, (s.loopStep i env).loops[i]? = some lk1 ∧
      l0.stands lk1 (if env.exportOk then LoopPc.openNull else LoopPc.exiting) n := by
  have hi := loops_lt_of_get s i lk hl
  obtain ⟨hpc, h1, h2, h3, h4⟩ := hst
  refine ⟨{ lk with pc := if env.exportOk then LoopPc.openNull else LoopPc.exiting }, ?_,
    rfl, h1, h2, h3, h4⟩
  cases he : env.exportOk <;> simp [Sup.loopStep, hl, Sup.loopBody, hpc, Sup.setLoop, hi, he]

theorem stage_openNull (s : Sup) (i : Nat) (env : LoopEnv) (l0 lk : Loop) (n : Nat)
    (hl : s.loops[i]? = some lk) (hst : l0.stands lk LoopPc.openNull n) :
    ∃ lk1, (s.loopStep i env).loops[i]? = some lk1 ∧
      l0.stands lk1 (if env.openNullOk then LoopPc.launch else LoopPc.exiting) n := by
  have hi := loops_lt_of_get s i lk hl
  obtain ⟨hpc, h1, h2, h3, h4⟩ := hst
  refine ⟨{ lk with pc := if env.openNullOk then LoopPc.launch else LoopPc.exiting }, ?_,
    rfl, h1, h2, h3, h4⟩
  cases he : env.openNullOk <;> simp [Sup.loopStep, hl, Sup.loopBody, hpc, Sup.setLoop, hi, he]

theorem stage_launch (s : Sup) (i : Nat) (env : LoopEnv) (l0 lk : Loop) (n : Nat)
    (hl : s.loops[i]? = some lk) (hst : l0.stands lk LoopPc.launch n) :
    ∃ lk1, (s.loopStep i env).loops[i]? = some lk1 ∧
      ((l0.session ∈ s.aliveSessions ∧ env.startProcessOk = true) →
        l0.stands lk1 (LoopPc.track s.os.length) (n + 1) ∧
        (s.loopStep i env).os[s.os.length]? =
          some ⟨l0.session, l0.elevatedToken, helperArgv s.path env, l0.dir, none⟩) ∧
      (¬ (l0.session ∈ s.aliveSessions ∧ env.startProcessOk = true) →
        l0.stands lk1 LoopPc.exiting n) := by
  have hi := loops_lt_of_get s i lk hl
  obtain ⟨hpc, h1, h2, h3, h4⟩ := hst
  by_cases hc : l0.session ∈ s.aliveSessions ∧ env.startProcessOk = true
  · refine ⟨{ lk with pc := LoopPc.track s.os.length, launches := lk.launches + 1 }, ?_, ?_, ?_⟩
    · simp [Sup.loopStep, hl, Sup.loopBody, hpc, Sup.setLoop, hi, hc.1, hc.2, h1]
    · intro _
      refine ⟨⟨rfl, h1, h2, h3, ?_⟩, ?_⟩
      · show lk.launches + 1 = l0.launches + (n + 1)
        omega
      · simp [Sup.loopStep, hl, Sup.loopBody, hpc, Sup.setLoop, hc.1, hc.2, h1, h2, h3]
    · intro h
      exact absurd hc h
  · refine ⟨{ lk with pc := LoopPc.exiting }, ?_, ?_, ?_⟩
    · have hc2 : (decide (lk.session ∈ s.aliveSessions) && env.startProcessOk) = false := by
        rw [h1]
        by_cases ha : l0.session ∈ s.aliveSessions
        · have : env.startProcessOk = false := by
            cases hs : env.startProcessOk with
            | false => rfl
            | true => exact absurd ⟨ha, hs⟩ hc
          simp [this]
        · simp [ha]
      simp [Sup.loopStep, hl, Sup.loopBody, hpc, Sup.setLoop, hi, hc2, closeConn_loops]
    · intro h
      exact absurd h hc
    · intro _
      exact ⟨rfl, h1, h2, h3, h4⟩

theorem stage_track (s : Sup) (i : Nat) (env : LoopEnv) (l0 lk : Loop) (pid n : Nat)
    (hl : s.loops[i]? = some lk) (hst : l0.stands lk (LoopPc.track pid) n) :
    ∃ lk1, (s.loopStep i env).loops[i]? = some lk1 ∧ l0.stands lk1 (LoopPc.wait pid) n := by
  have hi := loops_lt_of_get s i lk hl
  obtain ⟨hpc, h1, h2, h3, h4⟩ := hst
  refine ⟨{ lk with pc := LoopPc.wait pid }, ?_, rfl, h1, h2, h3, h4⟩
  simp [Sup.loopStep, hl, Sup.loopBody, hpc, Sup.setLoop, Sup.setProc, hi]

theorem stage_exiting (s : Sup) (i : Nat) (env : LoopEnv) (l0 lk : Loop) (n : Nat)
    (hl : s.loops[i]? = some lk) (hst : l0.stands lk LoopPc.exiting n) :
    ∃ lk1, (s.loopStep i env).loops[i]? = some lk1 ∧ l0.stands lk1 LoopPc.exited n := by
  have hi := loops_lt_of_get s i lk hl
  obtain ⟨hpc, h1, h2, h3, h4⟩ := hst
  refine ⟨{ lk with pc := LoopPc.exited }, ?_, rfl, h1, h2, h3, h4⟩
  simp [Sup.loopStep, hl, Sup.loopBody, hpc, Sup.setLoop, Sup.deleteAlive, hi]

theorem after_step (st : Sup) (i : Nat) (seg : Nat → List Event × LoopEnv) (k n : Nat)
    (h : n = k + 1) :
    st.run (segTrace i seg n) = (st.before i seg k).loopStep i (seg k).2 := by
  subst h
  exact after_succ st i seg k

theorem before_loops (st : Sup) (i : Nat) (seg : Nat → List Event × LoopEnv)
    (hothers : ∀ k, ∀ e ∈ (seg k).1, e.isLoop i = false) (k : Nat) (lk : Loop)
    (h : (st.run (segTrace i seg k)).loops[i]? = some lk) :
    (st.before i seg k).loops[i]? = some lk :=
  run_other_loops (seg k).1 _ i lk (hothers k) h

theorem tail_exiting (st : Sup) (i : Nat) (seg : Nat → List Event × LoopEnv)
    (hothers : ∀ k, ∀ e ∈ (seg k).1, e.isLoop i = false) (l0 lk : Loop) (k m N n : Nat)
    (hN : N = k + 1 + m)
    (h : (st.run (segTrace i seg k)).loops[i]? = some lk)
    (hst : l0.stands lk LoopPc.exiting n) :
    ∃ lk1, (st.run (segTrace i seg N)).loops[i]? = some lk1 ∧
      l0.stands lk1 LoopPc.exited n := by
  subst hN
  obtain ⟨lk1, hg, hs⟩ := stage_exiting (st.before i seg k) i (seg k).2 l0 lk n
    (before_loops st i seg hothers k lk h) hst
  have h1 : (st.run (segTrace i seg (k + 1))).loops[i]? = some lk1 := by
    rw [after_succ]; exact hg
  obtain ⟨tr, htr⟩ := after_add st i seg (k + 1) m
  refine ⟨lk1, ?_, hs⟩
  rw [htr]
  exact exited_run tr _ i lk1 h1 hs.1

theorem relaunch_no (final : Sup) (i : Nat) (l0 lk : Loop) (P : Prop) (Q : Loop → Prop)
    (hget : final.loops[i]? = some lk) (hst : l0.stands lk LoopPc.exited 0) (hP : ¬ P) :
    ∃ l1, final.loops[i]? = some l1 ∧ (l1.launches = l0.launches + 1 ↔ P) ∧
      (l1.launches = l0.launches + 1 → Q l1) ∧
      (l1.launches ≠ l0.launches + 1 → l1.launches = l0.launches ∧ l1.pc = LoopPc.exited ∧
        ∀ trace : List Event, (final.run trace).loops[i]? = some l1) := by
  obtain ⟨hpc, _, _, _, hn⟩ := hst
  have hn0 : lk.launches = l0.launches := by omega
  refine ⟨lk, hget, ?_, ?_, ?_⟩
  · constructor
    · intro h; omega
    · intro h; exact absurd h hP
  · intro h; omega
  · intro _
    exact ⟨hn0, hpc, fun trace => exited_run trace final i lk hget hpc⟩

/-! ## C6: when the control loop launches again after a helper has exited -/

/-- C6, counterexample to the claim as stated: helper 0 of session 1 has exited with code 1,
the manager is not stopping, the session is alive and the exit code is not the sentinel, so
none of (a), (b), (c) holds; the first `os.Pipe()` of the next iteration fails, and the control
loop returns without a second launch. -/
theorem C6_counterexample_launch_error_no_relaunch :
    helperCrashedSup.loops[0]? = some ⟨1, LoopPc.wait 0, false, 0x2a4, "C:\\Users\\u", some 0, 1, 0⟩ ∧
    helperCrashedSup.os[0]?.bind (fun p => p.exit) = some 1 ∧
    helperCrashedSup.stoppingManager = false ∧
    1 ∈ helperCrashedSup.aliveSessions ∧
    1 ≠ STATUS_DLL_INIT_FAILED_LOGOFF ∧
    (helperCrashedSup.runLoop 0 pipeFailEnv 11).loops[0]?
      = some ⟨1, LoopPc.exited, false, 0x2a4, "C:\\Users\\u", some 0, 1, 1⟩ ∧
    (helperCrashedSup.runLoop 0 pipeFailEnv 11).os.length = 1 := by
  decide

/-- C6 (amended): control loop `i` is in `proc.Wait()` and its helper has exited with
`exitCode`. The loop takes its next eleven steps while anything else may happen in between
(`(seg k).1` are the events before its step `k`, `(seg k).2` the answers of the operating
system to that step). It launches a new helper if and only if none of these holds: `Wait`
succeeded with the sentinel exit code `STATUS_DLL_INIT_FAILED_LOGOFF`; `stoppingManager` is
set when the loop tests it at the top of the iteration; the session is not marked alive when
the loop tests it, at the top of the iteration or again right before `os.StartProcess`; a
step of the launch fails (the three pipes, the log handle, the NUL file, `os.StartProcess`).
When it launches, the loop waits for the new process; when it does not, the loop has
returned without launching, and whatever happens afterwards it never launches again. -/
theorem C6_relaunch_iff (st : Sup) (i : Nat) (l : Loop) (pid exitCode : Nat) (p : OsProc)
    (seg : Nat → List Event × LoopEnv)
    (hl : st.loops[i]? = some l) (hpc : l.pc = LoopPc.wait pid)
    (hp : st.os[pid]? = some p) (hexit : p.exit = some exitCode)
    (hothers : ∀ k, ∀ e ∈ (seg k).1, e.isLoop i = false) :
    ∃ l1, (st.run (segTrace i seg 11)).loops[i]? = some l1 ∧
      (l1.launches = l.launches + 1 ↔
        (¬ ((seg 0).2.waitOk = true ∧ exitCode = STATUS_DLL_INIT_FAILED_LOGOFF) ∧
         (st.before i seg 2).stoppingManager = false ∧
         l.session ∈ (st.before i seg 3).aliveSessions ∧
         ((seg 5).2.pipe1Ok && (seg 5).2.pipe2Ok && (seg 5).2.pipe3Ok) = true ∧
         (seg 7).2.exportOk = true ∧ (seg 8).2.openNullOk = true ∧
         l.session ∈ (st.before i seg 9).aliveSessions ∧
         (seg 9).2.startProcessOk = true)) ∧
      (l1.launches = l.launches + 1 →
        l1.pc = LoopPc.wait (st.before i seg 9).os.length ∧
        ∃ ex, (st.run (segTrace i seg 11)).os[(st.before i seg 9).os.length]? =
          some ⟨l.session, l.elevatedToken, helperArgv st.path (seg 9).2, l.dir, ex⟩) ∧
      (l1.launches ≠ l.launches + 1 →
        l1.launches = l.launches ∧ l1.pc = LoopPc.exited ∧
        ∀ trace : List Event,
          ((st.run (segTrace i seg 11)).run trace).loops[i]? = some l1) := by
  have hb := before_loops st i seg hothers
  -- step 0: `proc.Wait()` returns
  have h0 : (st.run (segTrace i seg 0)).loops[i]? = some l := hl
  have hos0 : (st.before i seg 0).os[pid]? = some p :=
    (run_os_static (seg 0).1 st pid p hp).1 (by rw [hexit]; simp)
  obtain ⟨l1, hg1, hs1⟩ := stage_wait (st.before i seg 0) i (seg 0).2 l l pid exitCode 0 p
    (hb 0 l h0) ⟨hpc, rfl, rfl, rfl, rfl⟩ hos0 hexit
  have h1 : (st.run (segTrace i seg 1)).loops[i]? = some l1 := by
    rw [after_step st i seg 0 1 rfl]; exact hg1
  -- step 1: `delete(procs, session)`, `if sessionIsDead`
  obtain ⟨l2, hg2, hs2⟩ := stage_untrack (st.before i seg 1) i (seg 1).2 l l1 _ 0
    (hb 1 l1 h1) hs1
  have h2 : (st.run (segTrace i seg 2)).loops[i]? = some l2 := by
    rw [after_step st i seg 1 2 rfl]; exact hg2
  by_cases hd : ((seg 0).2.waitOk && exitCode == STATUS_DLL_INIT_FAILED_LOGOFF) = true
  · rw [if_pos hd] at hs2
    obtain ⟨le, hge, hse⟩ := tail_exiting st i seg hothers l l2 2 8 11 0 rfl h2 hs2
    refine relaunch_no _ i l le _ _ hge hse (fun h => h.1 ?_)
    simpa using hd
  rw [if_neg hd] at hs2
  have c0 : ¬ ((seg 0).2.waitOk = true ∧ exitCode = STATUS_DLL_INIT_FAILED_LOGOFF) := by
    intro h
    exact hd (by simp [h.1, h.2])
  -- step 2: `if stoppingManager`
  obtain ⟨l3, hg3, hs3⟩ := stage_checkStopping (st.before i seg 2) i (seg 2).2 l l2 0
    (hb 2 l2 h2) hs2
  have h3 : (st.run (segTrace i seg 3)).loops[i]? = some l3 := by
    rw [after_step st i seg 2 3 rfl]; exact hg3
  by_cases c2t : (st.before i seg 2).stoppingManager = true
  · rw [if_pos c2t] at hs3
    obtain ⟨le, hge, hse⟩ := tail_exiting st i seg hothers l l3 3 7 11 0 rfl h3 hs3
    refine relaunch_no _ i l le _ _ hge hse (fun h => ?_)
    have := h.2.1
    rw [c2t] at this
    cases this
  rw [if_neg c2t] at hs3
  have c2 : (st.before i seg 2).stoppingManager = false := by simpa using c2t
  -- step 3: `if alive := aliveSessions[session]; !alive`
  obtain ⟨l4, hg4, hs4⟩ := stage_checkAlive (st.before i seg 3) i (seg 3).2 l l3 0
    (hb 3 l3 h3) hs3
  have h4 : (st.run (segTrace i seg 4)).loops[i]? = some l4 := by
    rw [after_step st i seg 3 4 rfl]; exact hg4
  by_cases c3 : l.session ∈ (st.before i seg 3).aliveSessions
  swap
  · rw [if_neg c3] at hs4
    obtain ⟨le, hge, hse⟩ := tail_exiting st i seg hothers l l4 4 6 11 0 rfl h4 hs4
    exact relaunch_no _ i l le _ _ hge hse (fun h => c3 h.2.2.1)
  rw [if_pos c3] at hs4
  -- step 4: the sleep
  obtain ⟨l5, hg5, hs5⟩ := stage_debounce (st.before i seg 4) i (seg 4).2 l l4 0
    (hb 4 l4 h4) hs4
  have h5 : (st.run (segTrace i seg 5)).loops[i]? = some l5 := by
    rw [after_step st i seg 4 5 rfl]; exact hg5
  -- step 5: the pipes
  obtain ⟨l6, hg6, hs6⟩ := stage_pipes (st.before i seg 5) i (seg 5).2 l l5 0
    (hb 5 l5 h5) hs5
  have h6 : (st.run (segTrace i seg 6)).loops[i]? = some l6 := by
    rw [after_step st i seg 5 6 rfl]; exact hg6
  by_cases c5 : ((seg 5).2.pipe1Ok && (seg 5).2.pipe2Ok && (seg 5).2.pipe3Ok) = true
  swap
  · rw [if_neg c5] at hs6
    obtain ⟨le, hge, hse⟩ := tail_exiting st i seg hothers l l6 6 4 11 0 rfl h6 hs6
    exact relaunch_no _ i l le _ _ hge hse (fun h => c5 h.2.2.2.1)
  rw [if_pos c5] at hs6
  -- step 6: `IPCServerListen`
  obtain ⟨l7, hg7, hs7⟩ := stage_listen (st.before i seg 6) i (seg 6).2 l l6 0
    (hb 6 l6 h6) hs6
  have h7 : (st.run (segTrace i seg 7)).loops[i]? = some l7 := by
    rw [after_step st i seg 6 7 rfl]; exact hg7
  -- step 7: the log handle
  obtain ⟨l8, hg8, hs8⟩ := stage_exportLog (st.before i seg 7) i (seg 7).2 l l7 0
    (hb 7 l7 h7) hs7
  have h8 : (st.run (segTrace i seg 8)).loops[i]? = some l8 := by
    rw [after_step st i seg 7 8 rfl]; exact hg8
  by_cases c7 : (seg 7).2.exportOk = true
  swap
  · rw [if_neg c7] at hs8
    obtain ⟨le, hge, hse⟩ := tail_exiting st i seg hothers l l8 8 2 11 0 rfl h8 hs8
    exact relaunch_no _ i l le _ _ hge hse (fun h => c7 h.2.2.2.2.1)
  rw [if_pos c7] at hs8
  -- step 8: the NUL file
  obtain ⟨l9, hg9, hs9⟩ := stage_openNull (st.before i seg 8) i (seg 8).2 l l8 0
    (hb 8 l8 h8) hs8
  have h9 : (st.run (segTrace i seg 9)).loops[i]? = some l9 := by
    rw [after_step st i seg 8 9 rfl]; exact hg9
  by_cases c8 : (seg 8).2.openNullOk = true
  swap
  · rw [if_neg c8] at hs9
    obtain ⟨le, hge, hse⟩ := tail_exiting st i seg hothers l l9 9 1 11 0 rfl h9 hs9
    exact relaunch_no _ i l le _ _ hge hse (fun h => c8 h.2.2.2.2.2.1)
  rw [if_pos c8] at hs9
  -- step 9: `os.StartProcess` if the session is alive
  obtain ⟨l10, hg10, hyes, hno⟩ := stage_launch (st.before i seg 9) i (seg 9).2 l l9 0
    (hb 9 l9 h9) hs9
  have h10 : (st.run (segTrace i seg 10)).loops[i]? = some l10 := by
    rw [after_step st i seg 9 10 rfl]; exact hg10
  by_cases c9 : l.session ∈ (st.before i seg 9).aliveSessions ∧ (seg 9).2.startProcessOk = true
  swap
  · obtain ⟨le, hge, hse⟩ := tail_exiting st i seg hothers l l10 10 0 11 0 rfl h10 (hno c9)
    exact relaunch_no _ i l le _ _ hge hse
      (fun h => c9 ⟨h.2.2.2.2.2.2.1, h.2.2.2.2.2.2.2⟩)
  obtain ⟨hs10, hos10⟩ := hyes c9
  -- step 10: `procs[session] = proc`
  obtain ⟨l11, hg11, hs11⟩ := stage_track (st.before i seg 10) i (seg 10).2 l l10 _ 1
    (hb 10 l10 h10) hs10
  have h11 : (st.run (segTrace i seg 11)).loops[i]? = some l11 := by
    rw [after_step st i seg 10 11 rfl]; exact hg11
  have hlaunch : l11.launches = l.launches + 1 := hs11.2.2.2.2
  refine ⟨l11, h11, ⟨fun _ => ⟨c0, c2, c3, c5, c7, c8, c9.1, c9.2⟩, fun _ => hlaunch⟩, ?_, ?_⟩
  · intro _
    refine ⟨hs11.1, ?_⟩
    have hA10 : (st.run (segTrace i seg 10)).os[(st.before i seg 9).os.length]? =
        some ⟨l.session, l.elevatedToken, helperArgv (st.before i seg 9).path (seg 9).2,
          l.dir, none⟩ := by
      rw [after_step st i seg 9 10 rfl]; exact hos10
    have hpath : (st.before i seg 9).path = st.path := by
      unfold Sup.before
      rw [run_path, run_path]
    rw [hpath] at hA10
    obtain ⟨tr, htr⟩ := after_add st i seg 10 1
    obtain ⟨_, ex, hex⟩ := run_os_static tr _ _ _ hA10
    exact ⟨ex, by rw [htr]; exact hex⟩
  · intro h
    exact absurd hlaunch h

set_option maxRecDepth 20000 in
/-- C6, at a concrete input: helper 0 of session 1 has exited with code 1, session 2 logs on
while the control loop of session 1 sleeps, and every call of the next iteration succeeds;
the control loop launches a second helper. -/
theorem C6_relaunch_iff_witness :
    helperCrashedSup.loops[0]? = some ⟨1, LoopPc.wait 0, false, 0x2a4, "C:\\Users\\u", some 0, 1, 0⟩ ∧
    helperCrashedSup.os[0]? = some ⟨1, 0x2a4, helperArgv helperCrashedSup.path goodEnv,
      "C:\\Users\\u", some 1⟩ ∧
    (∀ k, ∀ e ∈ (logonSeg k).1, e.isLoop 0 = false) ∧
    ∃ l1, (helperCrashedSup.run (segTrace 0 logonSeg 11)).loops[0]? = some l1 ∧
      l1.launches = 2 :=
  ⟨by decide, by decide,
    (fun k e he => by
      unfold logonSeg at he
      split at he
      · simp only [List.mem_singleton] at he
        subst he
        rfl
      · cases he),
    (C6_relaunch_iff helperCrashedSup 0 ⟨1, LoopPc.wait 0, false, 0x2a4, "C:\\Users\\u", some 0, 1, 0⟩
      0 1 ⟨1, 0x2a4, helperArgv helperCrashedSup.path goodEnv, "C:\\Users\\u", some 1⟩ logonSeg
      (by decide) rfl (by decide) rfl
      (fun k e he => by
        unfold logonSeg at he
        split at he
        · simp only [List.mem_singleton] at he
          subst he
          rfl
        · cases he)).imp
      (fun _ h => ⟨h.1, h.2.1.mpr (by decide)⟩)⟩

end Nebula
